import Mathlib

/-!
# DrawGL: the interactive geometry engine

A shallow embedding of `src/js/utils.js` (coordinate transform) and
`src/js/geometry.js` (shape generators), with the "Regenerate Corners" handler
of `src/js/ui.js`.

JavaScript numbers are modelled in two ways.  The main development takes an
exact ordered field `K` (the rationals for evaluation, the reals for the
trigonometric generators); its theorems are statements in exact arithmetic.
Functions of the JavaScript `Math` object that are not field operations (`cos`,
`sin`, `PI`, `hypot`) are passed to the generators as a `JSMath K` record, so
that every definition stays executable; the theorems instantiate the record
with the real functions, or state what they need of `cos` and `sin` as a
hypothesis.  The section on binary64 arithmetic rounds the result of every
operation to 53 significant bits (`fl`), as the language does; the definitions
whose name ends in `F` are the transform, the hit test and the rounded rectangle
with these rounded operations, and they show where a statement of exact
arithmetic fails for the numbers the program computes with.
-/

namespace DrawGL

/-! ## Data model -/

/-- A vertex `{ x, y }`. -/
structure Point (K : Type) where
  x : K
  y : K
  deriving DecidableEq, Repr

/-- The fields of the canvas element read by the transform. -/
structure Canvas (K : Type) where
  width : K
  height : K
  deriving DecidableEq, Repr

/-- The viewport fields of `AppState` (`state.js`, lines 24-27). -/
structure Viewport (K : Type) where
  zoom : K
  panX : K
  panY : K
  deriving DecidableEq, Repr

/-- The settings object (`config.js`, together with the two rounded-corner
settings that `ui.js` lines 130-137 add on slider input; they are absent from
`DEFAULT_SETTINGS`, hence optional). -/
structure Settings (K : Type) where
  showGrid : Bool
  gridDivisions : ℤ
  snapToGrid : Bool
  snapToVertex : Bool
  circleSegments : ℕ
  polygonSides : ℕ
  defaultColor : String
  roundedCornerRadius : Option K
  roundedCornerSegments : Option ℕ
  deriving DecidableEq, Repr

/-- A shape object.  `cornerRadius` and `cornerSegments` are only set by
`createRoundedRectangle` (and by the regenerate handler). -/
structure Shape (K : Type) where
  id : String
  name : String
  type : String
  primitiveType : String
  vertices : List (Point K)
  color : String
  cornerRadius : Option K
  cornerSegments : Option ℕ
  deriving DecidableEq, Repr

/-! ## `utils.js`: the coordinate transform -/

section Transform

variable {K : Type} [LinearOrderedField K]

/-- The final clamp of `screenToNDC` (`utils.js`, lines 26-27):
`Math.max(-1, Math.min(1, c))`. -/
def clampNDC (c : K) : K := max (-1) (min 1 c)

/-- Logical point to display point (`utils.js`, lines 32-41). -/
def ndcToScreen (ndcX ndcY : K) (canvas : Canvas K) (viewport : Viewport K) : Point K :=
  let centerX := canvas.width / 2 + viewport.panX
  let centerY := canvas.height / 2 + viewport.panY
  let scale := min canvas.width canvas.height / 2 * viewport.zoom
  { x := centerX + ndcX * scale, y := centerY - ndcY * scale }

variable [FloorRing K]

/-- `Math.round`: the nearest integer, halves rounded towards `+∞`. -/
def mathRound (x : K) : ℤ := ⌊x + 1 / 2⌋

/-- The optional snapping step of `screenToNDC` (`utils.js`, lines 19-23) on one
coordinate.  `settings` may be absent (`settings && settings.snapToGrid`). -/
def snapCoord (settings : Option (Settings K)) (c : K) : K :=
  match settings with
  | some s =>
      if s.snapToGrid then
        let gridStep : K := 2 / (s.gridDivisions : K)
        (mathRound (c / gridStep) : K) * gridStep
      else c
  | none => c

/-- Display point to logical point (`utils.js`, lines 10-30). -/
def screenToNDC (screenX screenY : K) (canvas : Canvas K) (viewport : Viewport K)
    (settings : Option (Settings K)) : Point K :=
  let centerX := canvas.width / 2 + viewport.panX
  let centerY := canvas.height / 2 + viewport.panY
  let scale := min canvas.width canvas.height / 2 * viewport.zoom
  let x := (screenX - centerX) / scale
  let y := -(screenY - centerY) / scale
  let x := snapCoord settings x
  let y := snapCoord settings y
  { x := clampNDC x, y := clampNDC y }

end Transform

/-! ## `geometry.js`: the shape generators

`generateId()` and `Date.now()` read the clock and the random generator; their
results are passed in as `id` and `now`. -/

/-- The members of the JavaScript `Math` object used by the generators. -/
structure JSMath (K : Type) where
  cos : K → K
  sin : K → K
  PI : K
  hypot : K → K → K

section Generators

variable {K : Type} [LinearOrderedField K]

/-- Two-triangle rectangle from two corners (`geometry.js`, lines 3-24). -/
def createRectangle (id : String) (now : ℕ) (p1 p2 : Point K) (color : String) : Shape K :=
  let minX := min p1.x p2.x
  let maxX := max p1.x p2.x
  let minY := min p1.y p2.y
  let maxY := max p1.y p2.y
  { id := id
    name := "rect_" ++ toString now
    type := "rectangle"
    primitiveType := "GL_TRIANGLES"
    vertices := [
      { x := minX, y := minY },
      { x := maxX, y := minY },
      { x := maxX, y := maxY },
      { x := minX, y := minY },
      { x := maxX, y := maxY },
      { x := minX, y := maxY } ]
    color := color
    cornerRadius := none
    cornerSegments := none }

/-- The effective corner radius of `createRoundedRectangle`
(`geometry.js`, lines 32-37). -/
def cornerRadiusOf (p1 p2 : Point K) (radiusRatio : K) : K :=
  let minX := min p1.x p2.x
  let maxX := max p1.x p2.x
  let minY := min p1.y p2.y
  let maxY := max p1.y p2.y
  let width := maxX - minX
  let height := maxY - minY
  let maxRadius := min width height / 2
  min maxRadius (min width height * min radiusRatio (1 / 2))

/-- The vertex list built by `createRoundedRectangle` (`geometry.js`, lines 27-95):
the centre, the four corner arcs (each loop runs `i = 0, ..., segments`), and a
copy of `vertices[1]`.  The first loop always pushes its `i = 0` vertex, so
`vertices[1]` exists; the fallback of `getD` is never used. -/
def roundedRectangleVertices (M : JSMath K) (p1 p2 : Point K) (radiusRatio : K)
    (segments : ℕ) : List (Point K) :=
  let minX := min p1.x p2.x
  let maxX := max p1.x p2.x
  let minY := min p1.y p2.y
  let maxY := max p1.y p2.y
  let radius := cornerRadiusOf p1 p2 radiusRatio
  let centerX := (minX + maxX) / 2
  let centerY := (minY + maxY) / 2
  let trCenterX := maxX - radius
  let trCenterY := maxY - radius
  let tlCenterX := minX + radius
  let tlCenterY := maxY - radius
  let blCenterX := minX + radius
  let blCenterY := minY + radius
  let brCenterX := maxX - radius
  let brCenterY := minY + radius
  let vertices : List (Point K) := [{ x := centerX, y := centerY }]
  let vertices := vertices ++ (List.range (segments + 1)).map fun (i : ℕ) =>
    let angle := ((i : K) / (segments : K)) * (M.PI / 2)
    { x := trCenterX + M.cos angle * radius, y := trCenterY + M.sin angle * radius }
  let vertices := vertices ++ (List.range (segments + 1)).map fun (i : ℕ) =>
    let angle := M.PI / 2 + ((i : K) / (segments : K)) * (M.PI / 2)
    { x := tlCenterX + M.cos angle * radius, y := tlCenterY + M.sin angle * radius }
  let vertices := vertices ++ (List.range (segments + 1)).map fun (i : ℕ) =>
    let angle := M.PI + ((i : K) / (segments : K)) * (M.PI / 2)
    { x := blCenterX + M.cos angle * radius, y := blCenterY + M.sin angle * radius }
  let vertices := vertices ++ (List.range (segments + 1)).map fun (i : ℕ) =>
    let angle := (3 * M.PI / 2) + ((i : K) / (segments : K)) * (M.PI / 2)
    { x := brCenterX + M.cos angle * radius, y := brCenterY + M.sin angle * radius }
  vertices ++ [vertices.getD 1 { x := centerX, y := centerY }]

/-- Rounded rectangle as a triangle fan (`geometry.js`, lines 26-107). -/
def createRoundedRectangle (M : JSMath K) (id : String) (now : ℕ) (p1 p2 : Point K)
    (radiusRatio : K) (segments : ℕ) (color : String) : Shape K :=
  { id := id
    name := "roundrect_" ++ toString now
    type := "roundedrect"
    primitiveType := "GL_TRIANGLE_FAN"
    vertices := roundedRectangleVertices M p1 p2 radiusRatio segments
    color := color
    cornerRadius := some radiusRatio
    cornerSegments := some segments }

/-- Circle as a triangle fan (`geometry.js`, lines 109-129). -/
def createCircle (M : JSMath K) (id : String) (now : ℕ) (center edge : Point K)
    (segments : ℕ) (color : String) : Shape K :=
  let radius := M.hypot (edge.x - center.x) (edge.y - center.y)
  let vertices : List (Point K) := [center]
  let vertices := vertices ++ (List.range (segments + 1)).map fun (i : ℕ) =>
    let angle := ((i : K) / (segments : K)) * M.PI * 2
    { x := center.x + M.cos angle * radius, y := center.y + M.sin angle * radius }
  { id := id
    name := "circle_" ++ toString now
    type := "circle"
    primitiveType := "GL_TRIANGLE_FAN"
    vertices := vertices
    color := color
    cornerRadius := none
    cornerSegments := none }

/-- Regular polygon as a triangle fan (`geometry.js`, lines 131-152). -/
def createPolygon (M : JSMath K) (id : String) (now : ℕ) (center edge : Point K)
    (sides : ℕ) (color : String) : Shape K :=
  let radius := M.hypot (edge.x - center.x) (edge.y - center.y)
  let vertices : List (Point K) := [center]
  let angleOffset := -M.PI / 2
  let vertices := vertices ++ (List.range (sides + 1)).map fun (i : ℕ) =>
    let angle := angleOffset + ((i : K) / (sides : K)) * M.PI * 2
    { x := center.x + M.cos angle * radius, y := center.y + M.sin angle * radius }
  { id := id
    name := "polygon_" ++ toString now
    type := "polygon"
    primitiveType := "GL_TRIANGLE_FAN"
    vertices := vertices
    color := color
    cornerRadius := none
    cornerSegments := none }

/-! ## `ui.js`: the "Regenerate Corners" handler -/

/-- The click handler of `btnRegenerateCorners` (`ui.js`, lines 530-552), from the
slider values `newRadius` and `newSegments` on.  `Math.min(...xs)` of an empty
list is `Infinity`, which is no element of `K`: the result is then `none`. -/
def regenerateCorners (M : JSMath K) (id : String) (now : ℕ) (shape : Shape K)
    (newRadius : K) (newSegments : ℕ) : Option (Shape K) :=
  let perimeterVerts := shape.vertices.drop 1
  let xs := perimeterVerts.map fun v => v.x
  let ys := perimeterVerts.map fun v => v.y
  match xs.min?, ys.min?, xs.max?, ys.max? with
  | some x1, some y1, some x2, some y2 =>
      let p1 : Point K := { x := x1, y := y1 }
      let p2 : Point K := { x := x2, y := y2 }
      let newShape := createRoundedRectangle M id now p1 p2 newRadius newSegments shape.color
      some { shape with
        vertices := newShape.vertices
        cornerRadius := some newRadius
        cornerSegments := some newSegments }
  | _, _, _, _ => none

end Generators

/-! ## `geometry.js`: hit testing

A handler that reads a property of `undefined` throws a `TypeError`; such a
result is `none`. -/

section HitTest

variable {K : Type} [LinearOrderedField K]

/-- Distance test against a segment (`geometry.js`, lines 196-208). -/
def pointNearLine (M : JSMath K) (px py : K) (v1 v2 : Point K) (threshold : K)
    (canvas : Canvas K) (viewport : Viewport K) : Bool :=
  let p1 := ndcToScreen v1.x v1.y canvas viewport
  let p2 := ndcToScreen v2.x v2.y canvas viewport
  let lineLen := M.hypot (p2.x - p1.x) (p2.y - p1.y)
  if lineLen = 0 then decide (M.hypot (px - p1.x) (py - p1.y) < threshold)
  else
    let t := max 0 (min 1 (((px - p1.x) * (p2.x - p1.x) + (py - p1.y) * (p2.y - p1.y))
      / (lineLen * lineLen)))
    let projX := p1.x + t * (p2.x - p1.x)
    let projY := p1.y + t * (p2.y - p1.y)
    decide (M.hypot (px - projX) (py - projY) < threshold)

/-- The condition of the `if` in the loop of `pointInPolygon` (`geometry.js`, line 218),
for the current vertex `vi` and the previous one `vj`. -/
def edgeCrossing (px py : K) (vi vj : Point K) : Bool :=
  (decide (vi.y > py) != decide (vj.y > py))
    && decide (px < (vj.x - vi.x) * (py - vi.y) / (vj.y - vi.y) + vi.x)

/-- The loop of `pointInPolygon` (`geometry.js`, lines 214-221): `vj` is the vertex at
index `j`, the list holds the vertices from index `i` on, and `j = i++` makes the
current vertex the next previous one. -/
def pointInPolygonLoop (px py : K) : Point K → List (Point K) → Bool → Bool
  | _, [], inside => inside
  | vj, vi :: rest, inside =>
      pointInPolygonLoop px py vi rest (if edgeCrossing px py vi vj then !inside else inside)

/-- Ray-crossing test (`geometry.js`, lines 210-224).  The loop starts with
`j = length - 1`; on an empty list it does not run. -/
def pointInPolygon (px py : K) (vertices : List (Point K)) (canvas : Canvas K)
    (viewport : Viewport K) : Bool :=
  let screenVerts := vertices.map fun v => ndcToScreen v.x v.y canvas viewport
  match screenVerts.getLast? with
  | none => false
  | some last => pointInPolygonLoop px py last screenVerts false

/-- Per-kind hit predicate (`geometry.js`, lines 166-194).  `none`: the shape is a
'point' without a vertex or a 'line' with fewer than two (`TypeError`). -/
def pointInShape (M : JSMath K) (screenX screenY : K) (shape : Shape K) (canvas : Canvas K)
    (viewport : Viewport K) : Option Bool :=
  let threshold : K := 10
  if shape.type = "point" then
    match shape.vertices[0]? with
    | some v0 =>
        let screen := ndcToScreen v0.x v0.y canvas viewport
        some (decide (M.hypot (screen.x - screenX) (screen.y - screenY) < threshold))
    | none => none
  else if shape.type = "line" then
    match shape.vertices[0]?, shape.vertices[1]? with
    | some v0, some v1 => some (pointNearLine M screenX screenY v0 v1 threshold canvas viewport)
    | _, _ => none
  else if shape.type = "polyline" ∨ shape.type = "lineloop" then
    if (shape.vertices.zip shape.vertices.tail).any
        (fun e => pointNearLine M screenX screenY e.1 e.2 threshold canvas viewport) then
      some true
    else if shape.type = "lineloop" ∧ shape.vertices.length > 2 then
      match shape.vertices.getLast?, shape.vertices.head? with
      | some vlast, some vfirst =>
          some (pointNearLine M screenX screenY vlast vfirst threshold canvas viewport)
      | _, _ => none
    else some false
  else some (pointInPolygon screenX screenY shape.vertices canvas viewport)

/-- The loop of `hitTest` (`geometry.js`, lines 157-162) over the shapes from the
last one down. -/
def hitTestLoop (M : JSMath K) (screenX screenY : K) (canvas : Canvas K)
    (viewport : Viewport K) : List (Shape K) → Option (Option (Shape K))
  | [] => some none
  | shape :: rest =>
      match pointInShape M screenX screenY shape canvas viewport with
      | none => none
      | some true => some (some shape)
      | some false => hitTestLoop M screenX screenY canvas viewport rest

/-- Topmost shape under a display point (`geometry.js`, lines 155-164):
`some (some s)` is the shape returned, `some none` is `null`. -/
def hitTest (M : JSMath K) (screenX screenY : K) (shapes : List (Shape K))
    (canvas : Canvas K) (viewport : Viewport K) : Option (Option (Shape K)) :=
  hitTestLoop M screenX screenY canvas viewport shapes.reverse

end HitTest

/-! ## `state.js`, `config.js`: the application state -/

/-- A group object (`ui.js`, lines 66-70). -/
structure Group where
  id : String
  name : String
  shapes : List String
  deriving DecidableEq, Repr

/-- The fields of `AppState` (`state.js`, lines 3-30).  `null` is `none`; the two
vertex indices use `-1` for "none" as the source does. -/
structure AppState (K : Type) where
  shapes : List (Shape K)
  groups : List Group
  selectedIds : List String
  settings : Settings K
  currentTool : String
  isDrawing : Bool
  drawingPoints : List (Point K)
  tempShape : Option (Shape K)
  dragStart : Option (Point K)
  editingVertexIndex : ℤ
  hoveredVertexIndex : ℤ
  zoom : K
  panX : K
  panY : K
  isPanning : Bool
  panStart : Option (Point K)
  deriving DecidableEq, Repr

/-- The fields of a mouse event read by the handlers of `input.js`, with the origin
of `canvas.getBoundingClientRect()` at the time of the event. -/
structure MouseEvent (K : Type) where
  clientX : K
  clientY : K
  rectLeft : K
  rectTop : K
  button : ℕ
  shiftKey : Bool
  deriving DecidableEq, Repr

section State

variable {K : Type} [LinearOrderedField K]

/-- `DEFAULT_SETTINGS` (`config.js`, lines 1-9): it has no rounded-corner entries. -/
def DEFAULT_SETTINGS : Settings K :=
  { showGrid := true
    gridDivisions := 20
    snapToGrid := false
    snapToVertex := false
    circleSegments := 24
    polygonSides := 6
    defaultColor := "#10b981"
    roundedCornerRadius := none
    roundedCornerSegments := none }

/-- The state built by the constructor of `AppState` (`state.js`, lines 4-30). -/
def initialState : AppState K :=
  { shapes := []
    groups := []
    selectedIds := []
    settings := DEFAULT_SETTINGS
    currentTool := "select"
    isDrawing := false
    drawingPoints := []
    tempShape := none
    dragStart := none
    editingVertexIndex := -1
    hoveredVertexIndex := -1
    zoom := 1
    panX := 0
    panY := 0
    isPanning := false
    panStart := none }

/-- The state object read as a viewport: `input.js` passes `state` where the
transform expects `{ zoom, panX, panY }`. -/
def AppState.viewport (state : AppState K) : Viewport K :=
  { zoom := state.zoom, panX := state.panX, panY := state.panY }

/-- The effect of `const shape = list.find(pred)` followed by an in-place update of
`shape`: the first element satisfying `pred` is replaced by its update. -/
def modifyFirst {α : Type} (pred : α → Bool) (f : α → α) : List α → List α
  | [] => []
  | a :: rest => if pred a then f a :: rest else a :: modifyFirst pred f rest

/-! ## `input.js`: the pointer handlers

A handler returns `none` when it throws a `TypeError` or produces a value the
number model has no element for (an `undefined` coordinate, a sparse array).
`newId` is the value `generateId()` returns during the event and `now` the value
of `Date.now()`; DOM updates, rendering and persistence are not modelled.  A shape
literal without `id` or `name` has the empty string there, which `!shape.id` of
`addShape` treats like a missing one. -/

/-- Commit a shape (`input.js`, lines 382-390). -/
def addShape (newId : String) (shape : Shape K) (state : AppState K) : AppState K :=
  let shape := if shape.id = "" then { shape with id := newId } else shape
  { state with shapes := state.shapes ++ [shape], selectedIds := [shape.id] }

/-- Select tool, pointer-down (`input.js`, lines 224-249). `indexOf` followed by
`splice(idx, 1)` removes the first occurrence. -/
def handleSelectDown (M : JSMath K) (screenX screenY : K) (shiftKey : Bool)
    (canvas : Canvas K) (state : AppState K) : Option (AppState K) :=
  match hitTest M screenX screenY state.shapes canvas state.viewport with
  | none => none
  | some (some hit) =>
      if shiftKey then
        if hit.id ∈ state.selectedIds then
          some { state with selectedIds := state.selectedIds.erase hit.id }
        else
          some { state with selectedIds := state.selectedIds ++ [hit.id] }
      else
        if ¬ hit.id ∈ state.selectedIds then
          some { state with selectedIds := [hit.id] }
        else some state
  | some none =>
      if ¬ shiftKey then some { state with selectedIds := [] } else some state

/-- Move tool, pointer-down (`input.js`, lines 251-256). -/
def handleMoveDown (ndc : Point K) (state : AppState K) : AppState K :=
  if state.selectedIds.length > 0 then
    { state with isDrawing := true, dragStart := some ndc }
  else state

/-- The update of one shape in `handleMoveMove` (`input.js`, lines 265-268). -/
def translateShape (dx dy : K) (shape : Shape K) : Shape K :=
  { shape with vertices := shape.vertices.map fun v =>
      { x := max (-1) (min 1 (v.x + dx)), y := max (-1) (min 1 (v.y + dy)) } }

/-- Move tool, pointer-move during a drag (`input.js`, lines 258-275).  `none`:
`state.dragStart` is `null`. -/
def handleMoveMove (ndc : Point K) (state : AppState K) : Option (AppState K) :=
  match state.dragStart with
  | none => none
  | some dragStart =>
      let dx := ndc.x - dragStart.x
      let dy := ndc.y - dragStart.y
      let shapes := state.selectedIds.foldl
        (fun shapes id => modifyFirst (fun s => decide (s.id = id)) (translateShape dx dy) shapes)
        state.shapes
      some { state with shapes := shapes, dragStart := some ndc }

/-- The `forEach` loop shared by `handleVertexDown` and `handleVertexMove`
(`input.js`, lines 283-293 and 306-316): `i` is the index of the head of the list,
`minDist = none` stands for `Infinity`, and the result is the final index
(`closestIdx`, `hoveredVertexIndex`). -/
def nearestVertexLoop (M : JSMath K) (screenX screenY : K) (canvas : Canvas K)
    (viewport : Viewport K) : List (Point K) → ℕ → Option K → ℤ → ℤ
  | [], _, _, closestIdx => closestIdx
  | v :: rest, i, minDist, closestIdx =>
      let screen := ndcToScreen v.x v.y canvas viewport
      let dist := M.hypot (screen.x - screenX) (screen.y - screenY)
      if (match minDist with
          | none => true
          | some m => decide (dist < m)) && decide (dist < 15) then
        nearestVertexLoop M screenX screenY canvas viewport rest (i + 1) (some dist) (i : ℤ)
      else
        nearestVertexLoop M screenX screenY canvas viewport rest (i + 1) minDist closestIdx

/-- Vertex tool, pointer-down (`input.js`, lines 277-298). -/
def handleVertexDown (M : JSMath K) (screenX screenY : K) (canvas : Canvas K)
    (state : AppState K) : AppState K :=
  match state.selectedIds with
  | [sid] =>
      match state.shapes.find? (fun s => decide (s.id = sid)) with
      | none => state
      | some shape =>
          let closestIdx := nearestVertexLoop M screenX screenY canvas state.viewport
            shape.vertices 0 none (-1)
          if closestIdx ≥ 0 then { state with editingVertexIndex := closestIdx } else state
  | _ => state

/-- The assignment `vertices[k] = v` on a dense array: an overwrite inside the array,
an append at its end, and `none` beyond it (the array would become sparse). -/
def assignVertex (vertices : List (Point K)) (k : ℕ) (v : Point K) : Option (List (Point K)) :=
  if k < vertices.length then some (vertices.set k v)
  else if k = vertices.length then some (vertices ++ [v])
  else none

/-- Vertex tool, pointer-move (`input.js`, lines 300-327). -/
def handleVertexMove (M : JSMath K) (screenX screenY : K) (ndc : Point K) (canvas : Canvas K)
    (state : AppState K) : Option (AppState K) :=
  match state.selectedIds with
  | [sid] =>
      match state.shapes.find? (fun s => decide (s.id = sid)) with
      | none => some state
      | some shape =>
          let hovered := nearestVertexLoop M screenX screenY canvas state.viewport
            shape.vertices 0 none (-1)
          let state : AppState K := { state with hoveredVertexIndex := hovered }
          if state.editingVertexIndex ≥ 0 then
            match assignVertex shape.vertices state.editingVertexIndex.toNat
                { x := max (-1) (min 1 ndc.x), y := max (-1) (min 1 ndc.y) } with
            | none => none
            | some vertices =>
                some { state with
                  shapes := modifyFirst (fun s => decide (s.id = sid))
                    (fun s => { s with vertices := vertices }) state.shapes }
          else some state
  | _ => some state

/-- Point tool, pointer-down (`input.js`, lines 329-339). -/
def addPoint (newId : String) (ndc : Point K) (state : AppState K) : AppState K :=
  addShape newId
    { id := newId
      name := "point_" ++ toString state.shapes.length
      type := "point"
      primitiveType := "GL_POINTS"
      vertices := [ndc]
      color := state.settings.defaultColor
      cornerRadius := none
      cornerSegments := none } state

/-- Line tool, pointer-down (`input.js`, lines 341-357). -/
def handleLineDown (newId : String) (ndc : Point K) (state : AppState K) : AppState K :=
  match state.drawingPoints with
  | [] => { state with drawingPoints := [ndc] }
  | first :: _ =>
      let state := addShape newId
        { id := newId
          name := "line_" ++ toString state.shapes.length
          type := "line"
          primitiveType := "GL_LINES"
          vertices := [first, ndc]
          color := state.settings.defaultColor
          cornerRadius := none
          cornerSegments := none } state
      { state with drawingPoints := [], tempShape := none }

/-- Polyline, line-loop and fan tools, pointer-down (`input.js`, lines 359-362). -/
def handlePolylineDown (ndc : Point K) (state : AppState K) : AppState K :=
  { state with drawingPoints := state.drawingPoints ++ [ndc] }

/-- Triangle tool, pointer-down (`input.js`, lines 364-380). -/
def handleTriangleDown (newId : String) (ndc : Point K) (state : AppState K) : AppState K :=
  let state : AppState K := { state with drawingPoints := state.drawingPoints ++ [ndc] }
  if state.drawingPoints.length = 3 then
    let state := addShape newId
      { id := newId
        name := "triangle_" ++ toString state.shapes.length
        type := "triangle"
        primitiveType := "GL_TRIANGLES"
        vertices := state.drawingPoints
        color := state.settings.defaultColor
        cornerRadius := none
        cornerSegments := none } state
    { state with drawingPoints := [], tempShape := none }
  else state

/-- The primitive type chosen for the polyline, line-loop and fan tools
(`input.js`, lines 139-140 and 211-212). -/
def polylinePrimitive (tool : String) : String :=
  if tool = "polyline" then "GL_LINE_STRIP"
  else if tool = "lineloop" then "GL_LINE_LOOP" else "GL_TRIANGLE_FAN"

end State

section Handlers

variable {K : Type} [LinearOrderedField K] [FloorRing K]

/-- The `mousedown` listener (`input.js`, lines 17-66). -/
def onMouseDown (M : JSMath K) (newId : String) (e : MouseEvent K) (canvas : Canvas K)
    (state : AppState K) : Option (AppState K) :=
  let screenX := e.clientX - e.rectLeft
  let screenY := e.clientY - e.rectTop
  let ndc := screenToNDC screenX screenY canvas state.viewport (some state.settings)
  if e.button = 1 then
    some { state with isPanning := true, panStart := some { x := e.clientX, y := e.clientY } }
  else if e.button ≠ 0 then some state
  else if state.currentTool = "select" then
    handleSelectDown M screenX screenY e.shiftKey canvas state
  else if state.currentTool = "move" then some (handleMoveDown ndc state)
  else if state.currentTool = "vertex" then
    some (handleVertexDown M screenX screenY canvas state)
  else if state.currentTool = "point" then some (addPoint newId ndc state)
  else if state.currentTool = "line" then some (handleLineDown newId ndc state)
  else if state.currentTool = "polyline" ∨ state.currentTool = "lineloop"
      ∨ state.currentTool = "fan" then
    some (handlePolylineDown ndc state)
  else if state.currentTool = "triangle" then some (handleTriangleDown newId ndc state)
  else if state.currentTool = "rectangle" ∨ state.currentTool = "roundedrect"
      ∨ state.currentTool = "circle" ∨ state.currentTool = "polygon" then
    some { state with isDrawing := true, drawingPoints := [ndc] }
  else some state

/-- The `mousemove` listener (`input.js`, lines 68-159).  `none`: the anchor
`drawingPoints[0]` or `dragStart` is missing, or a rounded-corner setting is
`undefined`. -/
def onMouseMove (M : JSMath K) (newId : String) (now : ℕ) (e : MouseEvent K)
    (canvas : Canvas K) (state : AppState K) : Option (AppState K) :=
  let screenX := e.clientX - e.rectLeft
  let screenY := e.clientY - e.rectTop
  let ndc := screenToNDC screenX screenY canvas state.viewport (some state.settings)
  if state.isPanning then
    match state.panStart with
    | none => none
    | some panStart =>
        some { state with
          panX := state.panX + (e.clientX - panStart.x)
          panY := state.panY + (e.clientY - panStart.y)
          panStart := some { x := e.clientX, y := e.clientY } }
  else if state.currentTool = "move" then
    if state.isDrawing ∧ state.selectedIds.length > 0 then handleMoveMove ndc state
    else some state
  else if state.currentTool = "vertex" then
    handleVertexMove M screenX screenY ndc canvas state
  else if state.currentTool = "rectangle" then
    if state.isDrawing then
      match state.drawingPoints[0]? with
      | none => none
      | some p0 =>
          some { state with
            tempShape := some (createRectangle newId now p0 ndc state.settings.defaultColor) }
    else some state
  else if state.currentTool = "roundedrect" then
    if state.isDrawing then
      match state.drawingPoints[0]?, state.settings.roundedCornerRadius,
          state.settings.roundedCornerSegments with
      | some p0, some radius, some segments =>
          some { state with
            tempShape := some (createRoundedRectangle M newId now p0 ndc radius segments
              state.settings.defaultColor) }
      | _, _, _ => none
    else some state
  else if state.currentTool = "circle" then
    if state.isDrawing then
      match state.drawingPoints[0]? with
      | none => none
      | some p0 =>
          some { state with
            tempShape := some (createCircle M newId now p0 ndc state.settings.circleSegments
              state.settings.defaultColor) }
    else some state
  else if state.currentTool = "polygon" then
    if state.isDrawing then
      match state.drawingPoints[0]? with
      | none => none
      | some p0 =>
          some { state with
            tempShape := some (createPolygon M newId now p0 ndc state.settings.polygonSides
              state.settings.defaultColor) }
    else some state
  else if state.currentTool = "line" then
    match state.drawingPoints with
    | [first] =>
        some { state with
          tempShape := some
            { id := ""
              name := ""
              type := "line"
              primitiveType := "GL_LINES"
              vertices := [first, ndc]
              color := state.settings.defaultColor
              cornerRadius := none
              cornerSegments := none } }
    | _ => some state
  else if state.currentTool = "polyline" ∨ state.currentTool = "lineloop"
      ∨ state.currentTool = "fan" then
    if state.drawingPoints.length > 0 then
      some { state with
        tempShape := some
          { id := ""
            name := ""
            type := state.currentTool
            primitiveType := polylinePrimitive state.currentTool
            vertices := state.drawingPoints ++ [ndc]
            color := state.settings.defaultColor
            cornerRadius := none
            cornerSegments := none } }
    else some state
  else if state.currentTool = "triangle" then
    if state.drawingPoints.length > 0 ∧ state.drawingPoints.length < 3 then
      some { state with
        tempShape := some
          { id := ""
            name := ""
            type := "triangle"
            primitiveType := "GL_TRIANGLES"
            vertices := state.drawingPoints ++ [ndc]
            color := state.settings.defaultColor
            cornerRadius := none
            cornerSegments := none } }
    else some state
  else some state

/-- The `mouseup` listener (`input.js`, lines 161-194). -/
def onMouseUp (newId : String) (e : MouseEvent K) (state : AppState K) : AppState K :=
  if e.button = 1 then { state with isPanning := false }
  else if state.currentTool = "move" then { state with isDrawing := false }
  else if state.currentTool = "vertex" then { state with editingVertexIndex := -1 }
  else if state.currentTool = "rectangle" ∨ state.currentTool = "roundedrect"
      ∨ state.currentTool = "circle" ∨ state.currentTool = "polygon" then
    let state :=
      match state.isDrawing, state.tempShape with
      | true, some tempShape => { addShape newId tempShape state with tempShape := none }
      | _, _ => state
    { state with isDrawing := false, drawingPoints := [] }
  else state

/-- The `wheel` listener (`input.js`, lines 196-202). -/
def onWheel (deltaY : K) (state : AppState K) : AppState K :=
  let delta : K := if deltaY > 0 then 9 / 10 else 11 / 10
  { state with zoom := max (1 / 4) (min 4 (state.zoom * delta)) }

/-- The `dblclick` listener (`input.js`, lines 204-221). -/
def onDoubleClick (newId : String) (state : AppState K) : AppState K :=
  if (state.currentTool = "polyline" ∨ state.currentTool = "lineloop"
      ∨ state.currentTool = "fan") ∧ state.drawingPoints.length ≥ 2 then
    let state := addShape newId
      { id := newId
        name := state.currentTool ++ "_" ++ toString state.shapes.length
        type := state.currentTool
        primitiveType := polylinePrimitive state.currentTool
        vertices := state.drawingPoints
        color := state.settings.defaultColor
        cornerRadius := none
        cornerSegments := none } state
    { state with drawingPoints := [], tempShape := none }
  else state

/-! ## `ui.js`: toolbar, keyboard and hierarchy handlers -/

/-- The click listener of a tool button (`ui.js`, lines 19-26); `tool` is the
button's `data-tool`. -/
def toolClick (tool : String) (state : AppState K) : AppState K :=
  { state with currentTool := tool, drawingPoints := [], tempShape := none }

/-- The escape branch of the `keydown` listener (`ui.js`, lines 262-269). -/
def keyEscape (state : AppState K) : AppState K :=
  { state with selectedIds := [], drawingPoints := [], tempShape := none }

/-- The click listener of `btnDeleteSelected` (`ui.js`, lines 76-84). -/
def deleteSelected (state : AppState K) : AppState K :=
  { state with
    shapes := state.shapes.filter fun s => ! decide (s.id ∈ state.selectedIds)
    selectedIds := [] }

/-- The delete branch of the `keydown` listener (`ui.js`, lines 251-260). -/
def keyDelete (state : AppState K) : AppState K :=
  if state.selectedIds.length > 0 then deleteSelected state else state

/-- The copy made by both duplicate actions (`ui.js`, lines 287-293 and 389-395). -/
def duplicateShape (newId : String) (shape : Shape K) : Shape K :=
  { shape with
    id := newId
    name := shape.name ++ "_copy"
    vertices := shape.vertices.map fun v => { x := v.x + 5 / 100, y := v.y + 5 / 100 } }

/-- The Ctrl+D branch of the `keydown` listener (`ui.js`, lines 282-303). -/
def keyDuplicate (newId : String) (state : AppState K) : AppState K :=
  match state.selectedIds with
  | [sid] =>
      match state.shapes.find? (fun s => decide (s.id = sid)) with
      | none => state
      | some shape =>
          { state with
            shapes := state.shapes ++ [duplicateShape newId shape]
            selectedIds := [newId] }
  | _ => state

/-- The click listener of a hierarchy item (`ui.js`, lines 355-372). -/
def hierarchyClick (id : String) (shiftKey : Bool) (state : AppState K) : AppState K :=
  if shiftKey then
    if id ∈ state.selectedIds then { state with selectedIds := state.selectedIds.erase id }
    else { state with selectedIds := state.selectedIds ++ [id] }
  else { state with selectedIds := [id] }

/-- The delete action of a hierarchy item (`ui.js`, lines 383-385). -/
def hierarchyDelete (id : String) (state : AppState K) : AppState K :=
  { state with
    shapes := state.shapes.filter fun s => ! decide (s.id = id)
    selectedIds := state.selectedIds.filter fun i => ! decide (i = id) }

/-- The duplicate action of a hierarchy item (`ui.js`, lines 386-398). -/
def hierarchyDuplicate (id newId : String) (state : AppState K) : AppState K :=
  match state.shapes.find? (fun s => decide (s.id = id)) with
  | none => state
  | some shape =>
      { state with
        shapes := state.shapes ++ [duplicateShape newId shape]
        selectedIds := [newId] }

/-- The user events that change the scene or the tool session. -/
inductive Event (K : Type) where
  | mouseDown (newId : String) (e : MouseEvent K) (canvas : Canvas K)
  | mouseMove (newId : String) (now : ℕ) (e : MouseEvent K) (canvas : Canvas K)
  | mouseUp (newId : String) (e : MouseEvent K)
  | wheel (deltaY : K)
  | doubleClick (newId : String)
  | toolClick (tool : String)
  | keyEscape
  | keyDelete
  | deleteSelected
  | keyDuplicate (newId : String)
  | hierarchyClick (id : String) (shiftKey : Bool)
  | hierarchyDelete (id : String)
  | hierarchyDuplicate (id newId : String)

/-- One event handled to completion; `none` when the handler has no result. -/
def step (M : JSMath K) (ev : Event K) (state : AppState K) : Option (AppState K) :=
  match ev with
  | .mouseDown newId e canvas => onMouseDown M newId e canvas state
  | .mouseMove newId now e canvas => onMouseMove M newId now e canvas state
  | .mouseUp newId e => some (onMouseUp newId e state)
  | .wheel deltaY => some (onWheel deltaY state)
  | .doubleClick newId => some (onDoubleClick newId state)
  | .toolClick tool => some (toolClick tool state)
  | .keyEscape => some (keyEscape state)
  | .keyDelete => some (keyDelete state)
  | .deleteSelected => some (deleteSelected state)
  | .keyDuplicate newId => some (keyDuplicate newId state)
  | .hierarchyClick id shiftKey => some (hierarchyClick id shiftKey state)
  | .hierarchyDelete id => some (hierarchyDelete id state)
  | .hierarchyDuplicate id newId => some (hierarchyDuplicate id newId state)

/-- The states reached from the initial state by handled events. -/
inductive Reachable (M : JSMath K) : AppState K → Prop where
  | init : Reachable M initialState
  | next (ev : Event K) (state state' : AppState K) :
      Reachable M state → step M ev state = some state' → Reachable M state'

end Handlers

/-! ## A small scene for worked examples -/

section Demo

variable {K : Type} [LinearOrderedField K]

/-- An 800 by 600 canvas. -/
def demoCanvas : Canvas K := { width := 800, height := 600 }

/-- The rectangle with corners (-1/2, -1/2) and (0, 0). -/
def demoRectA : Shape K := createRectangle "shape_a" 0 ⟨-1 / 2, -1 / 2⟩ ⟨0, 0⟩ "#10b981"

/-- The rectangle with corners (0, 0) and (1/2, 1/2); on `demoCanvas` at zoom 1 its
centre (1/4, 1/4) is shown at (475, 225). -/
def demoRectB : Shape K := createRectangle "shape_b" 1 ⟨0, 0⟩ ⟨1 / 2, 1 / 2⟩ "#10b981"

/-- The initial state with the two rectangles in the scene, both selected. -/
def demoScene : AppState K :=
  { (initialState : AppState K) with
    shapes := [demoRectA, demoRectB]
    selectedIds := ["shape_a", "shape_b"] }

/-- A mouse event at display point (475, 225) with the given button and modifier. -/
def demoClick (button : ℕ) (shiftKey : Bool) : MouseEvent K :=
  { clientX := 475, clientY := 225, rectLeft := 0, rectTop := 0, button := button,
    shiftKey := shiftKey }

/-- A point shape with its vertex at (0.98, 0). -/
def demoPoint : Shape K :=
  { id := "shape_p"
    name := "point_0"
    type := "point"
    primitiveType := "GL_POINTS"
    vertices := [⟨49 / 50, 0⟩]
    color := "#10b981"
    cornerRadius := none
    cornerSegments := none }

/-- The move tool in the middle of a drag of `demoPoint` with anchor (0, 0). -/
def demoMoveState : AppState K :=
  { (initialState : AppState K) with
    shapes := [demoPoint]
    selectedIds := ["shape_p"]
    currentTool := "move"
    isDrawing := true
    dragStart := some ⟨0, 0⟩ }

/-- The vertex tool with `demoRectB` as the sole selection. -/
def demoVertexState : AppState K :=
  { (demoScene : AppState K) with
    selectedIds := ["shape_b"]
    currentTool := "vertex" }

/-- The polyline tool after pointer-downs at (0, 0), (1/2, 0) and (1/2, 1/2). -/
def demoPolylineState : AppState K :=
  { (initialState : AppState K) with
    currentTool := "polyline"
    drawingPoints := [⟨0, 0⟩, ⟨1 / 2, 0⟩, ⟨1 / 2, 1 / 2⟩] }

end Demo

/-! ## Event traces and the selection invariant -/

section Traces

variable {K : Type} [LinearOrderedField K] [FloorRing K]

/-- A list of events handled in order; `none` as soon as a handler has no result. -/
def runEvents (M : JSMath K) : List (Event K) → AppState K → Option (AppState K)
  | [], state => some state
  | ev :: rest, state =>
      match step M ev state with
      | none => none
      | some state' => runEvents M rest state'

/-- The hierarchy panel holds one item per shape of the shape list, rebuilt by
`updateHierarchy` (`ui.js`, lines 307-351) after every change of the list, and its
listeners read the identity from the item (`item.dataset.id`): a hierarchy event
carries the identity of a shape in the list.  Every other event can occur in every
state. -/
def Event.deliverable (ev : Event K) (state : AppState K) : Bool :=
  match ev with
  | .hierarchyClick id _ => decide (id ∈ state.shapes.map fun s => s.id)
  | .hierarchyDelete id => decide (id ∈ state.shapes.map fun s => s.id)
  | .hierarchyDuplicate id _ => decide (id ∈ state.shapes.map fun s => s.id)
  | _ => true

/-- The states reached from the initial state by events the page can deliver. -/
inductive UserReachable (M : JSMath K) : AppState K → Prop where
  | init : UserReachable M initialState
  | next (ev : Event K) (state state' : AppState K) :
      UserReachable M state → ev.deliverable state = true → step M ev state = some state' →
      UserReachable M state'

end Traces

section Checked

variable {K : Type} [LinearOrderedField K]

/-- The selection invariant of the data model: no identity occurs twice in the
selection, and every selected identity is that of a shape in the shape list. -/
def AppState.selectionLive (state : AppState K) : Prop :=
  state.selectedIds.Nodup ∧ ∀ id ∈ state.selectedIds, id ∈ state.shapes.map fun s => s.id

instance (state : AppState K) : Decidable state.selectionLive := by
  unfold AppState.selectionLive
  exact inferInstance

/-- The quotient `a / b` when JavaScript yields a number for it: for `b = 0` it
yields `NaN` or an infinity, which are no elements of `K`. -/
def jsDiv (a b : K) : Option K := if b = 0 then none else some (a / b)

/-- All results of a list of fallible computations, `none` if one of them has
none. -/
def allSome {α : Type} : List (Option α) → Option (List α)
  | [] => some []
  | none :: _ => none
  | some a :: rest =>
      match allSome rest with
      | none => none
      | some as => some (a :: as)

/-- The function `createCircle` (`geometry.js`, lines 109-129) with the division
`i / segments` of line 114 checked: `none` when a coordinate of an emitted vertex
is not a number. -/
def createCircleChecked (M : JSMath K) (id : String) (now : ℕ) (center edge : Point K)
    (segments : ℕ) (color : String) : Option (Shape K) :=
  let radius := M.hypot (edge.x - center.x) (edge.y - center.y)
  let pushed : List (Option (Point K)) := (List.range (segments + 1)).map fun (i : ℕ) =>
    match jsDiv (i : K) (segments : K) with
    | none => none
    | some q =>
        let angle := q * M.PI * 2
        some { x := center.x + M.cos angle * radius, y := center.y + M.sin angle * radius }
  match allSome pushed with
  | none => none
  | some perimeter =>
      some
        { id := id
          name := "circle_" ++ toString now
          type := "circle"
          primitiveType := "GL_TRIANGLE_FAN"
          vertices := [center] ++ perimeter
          color := color
          cornerRadius := none
          cornerSegments := none }

end Checked

/-! ## Event sequences for worked examples -/

section DemoTraces

variable {K : Type} [LinearOrderedField K]

/-- A primary-button mouse event at the display point `(x, y)`. -/
def demoEvent (x y : K) : MouseEvent K :=
  { clientX := x, clientY := y, rectLeft := 0, rectTop := 0, button := 0, shiftKey := false }

/-- The scene with `demoPoint` as the only shape, selected. -/
def demoPointScene : AppState K :=
  { (initialState : AppState K) with
    shapes := [demoPoint]
    selectedIds := ["shape_p"] }

/-- The line from (0, 0) to (1/2, 0), shown from (400, 300) to (550, 300) on
`demoCanvas`. -/
def demoLine : Shape K :=
  { id := "shape_l"
    name := "line_0"
    type := "line"
    primitiveType := "GL_LINES"
    vertices := [⟨0, 0⟩, ⟨1 / 2, 0⟩]
    color := "#10b981"
    cornerRadius := none
    cornerSegments := none }

/-- The point at (0, 0), committed as the second shape of a scene. -/
def demoOrigin : Shape K :=
  { id := "shape_o"
    name := "point_1"
    type := "point"
    primitiveType := "GL_POINTS"
    vertices := [⟨0, 0⟩]
    color := "#10b981"
    cornerRadius := none
    cornerSegments := none }

/-- Rectangle tool, pointer-down, escape with the button still held. -/
def cancelledDragEvents : List (Event K) :=
  [ .toolClick "rectangle",
    .mouseDown "shape_1" (demoEvent 400 300) demoCanvas,
    .keyEscape ]

/-- The state after `cancelledDragEvents`: the drawing flag is set and no point
is accumulated. -/
def cancelledDragState : AppState K :=
  { (initialState : AppState K) with
    currentTool := "rectangle"
    isDrawing := true }

/-- Line tool: two clicks commit `demoLine`.  Vertex tool: pointer-down on the
second end point of the line; with the button held, the point tool is chosen
(key P) and the button released.  A click then commits `demoOrigin`, and the
vertex tool is chosen again (key E). -/
def staleFocusEvents : List (Event K) :=
  [ .toolClick "line",
    .mouseDown "shape_1" (demoEvent 400 300) demoCanvas,
    .mouseUp "shape_2" (demoEvent 400 300),
    .mouseDown "shape_l" (demoEvent 550 300) demoCanvas,
    .mouseUp "shape_3" (demoEvent 550 300),
    .toolClick "vertex",
    .mouseDown "shape_4" (demoEvent 550 300) demoCanvas,
    .toolClick "point",
    .mouseUp "shape_5" (demoEvent 550 300),
    .mouseDown "shape_o" (demoEvent 400 300) demoCanvas,
    .mouseUp "shape_6" (demoEvent 400 300),
    .toolClick "vertex" ]

/-- The state after `staleFocusEvents`: the vertex-edit focus is 1 and the sole
selected shape has one vertex. -/
def staleFocusState : AppState K :=
  { (initialState : AppState K) with
    shapes := [demoLine, demoOrigin]
    selectedIds := ["shape_o"]
    currentTool := "vertex"
    editingVertexIndex := 1 }

end DemoTraces

/-! ## The inspector of a rounded rectangle (`ui.js`, lines 460-553) -/

section Inspector

variable {K : Type} [LinearOrderedField K] [FloorRing K]

/-- The value held by an `<input type="range">` with step 1 and the limits `lo` and
`hi` whose `value` attribute is the integer `value`: the browser brings it into
the range. -/
def rangeInputValue (lo hi value : ℤ) : ℤ := max lo (min hi value)

/-- The value of the inspector's radius slider after `updateInspector` has rendered
it for `shape` (`ui.js`, line 469): `min="5" max="50"
value="${Math.round((shape.cornerRadius || 0.2) * 100)}"`.  A missing or zero
`cornerRadius` is falsy and gives 0.2. -/
def inspectorRadiusValue (shape : Shape K) : ℤ :=
  let cornerRadius : K :=
    match shape.cornerRadius with
    | some r => if r = 0 then 2 / 10 else r
    | none => 2 / 10
  rangeInputValue 5 50 (mathRound (cornerRadius * 100))

/-- The value of the inspector's segment slider after `updateInspector` has rendered
it for `shape` (`ui.js`, line 476): `min="2" max="16"
value="${shape.cornerSegments || 8}"`. -/
def inspectorSegmentsValue (shape : Shape K) : ℤ :=
  let cornerSegments : ℕ :=
    match shape.cornerSegments with
    | some s => if s = 0 then 8 else s
    | none => 8
  rangeInputValue 2 16 cornerSegments

/-- The click handler of `btnRegenerateCorners` (`ui.js`, lines 530-552) run on
`shape` with the two sliders as the inspector rendered them from the shape's
stored metadata: `newRadius = parseInt(radiusSlider.value) / 100` and
`newSegments = parseInt(segmentsSlider.value)`. -/
def regenerateFromInspector (M : JSMath K) (id : String) (now : ℕ) (shape : Shape K) :
    Option (Shape K) :=
  regenerateCorners M id now shape ((inspectorRadiusValue shape : K) / 100)
    (inspectorSegmentsValue shape).toNat

end Inspector

/-! ## The events of a double-click -/

section GestureDefs

variable {K : Type} [LinearOrderedField K]

/-- The events a browser dispatches to the canvas for one double-click at the
position of `e`: `mousedown`, `mouseup`, `mousedown`, `mouseup`, `dblclick` (the
`click` events have no listener, `input.js` lines 9-14). -/
def doubleClickGesture (id1 id2 id3 id4 id5 : String) (e : MouseEvent K) (canvas : Canvas K) :
    List (Event K) :=
  [ .mouseDown id1 e canvas,
    .mouseUp id2 e,
    .mouseDown id3 e canvas,
    .mouseUp id4 e,
    .doubleClick id5 ]

/-- Scenario B on `demoCanvas`: polyline tool, clicks at (400, 300), (550, 300) and
(550, 150), the logical points (0, 0), (1/2, 0) and (1/2, 1/2), then a double-click
at (700, 0), the logical point (1, 1). -/
def scenarioBEvents : List (Event K) :=
  [ .toolClick "polyline",
    .mouseDown "shape_1" (demoEvent 400 300) demoCanvas,
    .mouseUp "shape_1" (demoEvent 400 300),
    .mouseDown "shape_2" (demoEvent 550 300) demoCanvas,
    .mouseUp "shape_2" (demoEvent 550 300),
    .mouseDown "shape_3" (demoEvent 550 150) demoCanvas,
    .mouseUp "shape_3" (demoEvent 550 150) ]
    ++ doubleClickGesture "shape_4" "shape_4" "shape_5" "shape_5" "shape_6" (demoEvent 700 0)
      demoCanvas

end GestureDefs

/-! ## Binary64 arithmetic

JavaScript numbers are IEEE 754 binary64 values: every `+`, `-`, `*` and `/` returns
the exact result rounded to the nearest value with 53 significant bits, ties to
the even one.  Every such value is a rational, so the rounded operations are
functions on `ℚ`.  Overflow, subnormal values and the sign of zero are not
modelled: the coordinates of this program lie far inside the normal range. -/

/-- The number of halvings that bring `n` below 2, i.e. `⌊log₂ n⌋` for `n ≥ 1`
(with `fuel ≥ ⌊log₂ n⌋`). -/
def log2Fuel : ℕ → ℕ → ℕ
  | 0, _ => 0
  | fuel + 1, n => if n < 2 then 0 else log2Fuel fuel (n / 2) + 1

/-- The exponent `e` with `2 ^ e ≤ |x| < 2 ^ (e + 1)` of a non-zero rational: the
difference of the bit lengths of numerator and denominator, or one less. -/
def binade (x : ℚ) : ℤ :=
  let e0 : ℤ := (log2Fuel x.num.natAbs x.num.natAbs : ℤ) - (log2Fuel x.den x.den : ℤ)
  if (2 : ℚ) ^ e0 ≤ |x| then e0 else e0 - 1

/-- The nearest integer, a tie going to the even one. -/
def roundHalfEven (q : ℚ) : ℤ :=
  let f := ⌊q⌋
  if q - f < 1 / 2 then f
  else if 1 / 2 < q - f then f + 1
  else if f % 2 = 0 then f else f + 1

/-- The binary64 value of the exact result `x` of an operation: `x` rounded to 53
significant bits, i.e. to the nearest multiple of `2 ^ (binade x - 52)`. -/
def fl (x : ℚ) : ℚ :=
  if x = 0 then 0
  else
    let e := binade x - 52
    (roundHalfEven (x / 2 ^ e) : ℚ) * 2 ^ e

/-! ## The transform, the hit test and the rounded rectangle in binary64 arithmetic -/

/-- The function `ndcToScreen` (`utils.js`, lines 32-41) with every operation
rounded. -/
def ndcToScreenF (ndcX ndcY : ℚ) (canvas : Canvas ℚ) (viewport : Viewport ℚ) : Point ℚ :=
  let centerX := fl (fl (canvas.width / 2) + viewport.panX)
  let centerY := fl (fl (canvas.height / 2) + viewport.panY)
  let scale := fl (fl (min canvas.width canvas.height / 2) * viewport.zoom)
  { x := fl (centerX + fl (ndcX * scale)), y := fl (centerY - fl (ndcY * scale)) }

/-- The snapping step of `screenToNDC` (`utils.js`, lines 19-23) with every operation
rounded; `Math.round` is exact. -/
def snapCoordF (settings : Option (Settings ℚ)) (c : ℚ) : ℚ :=
  match settings with
  | some s =>
      if s.snapToGrid then
        let gridStep : ℚ := fl (2 / (s.gridDivisions : ℚ))
        fl ((mathRound (fl (c / gridStep)) : ℚ) * gridStep)
      else c
  | none => c

/-- The function `screenToNDC` (`utils.js`, lines 10-30) with every operation
rounded. -/
def screenToNDCF (screenX screenY : ℚ) (canvas : Canvas ℚ) (viewport : Viewport ℚ)
    (settings : Option (Settings ℚ)) : Point ℚ :=
  let centerX := fl (fl (canvas.width / 2) + viewport.panX)
  let centerY := fl (fl (canvas.height / 2) + viewport.panY)
  let scale := fl (fl (min canvas.width canvas.height / 2) * viewport.zoom)
  let x := fl (fl (screenX - centerX) / scale)
  let y := fl (-fl (screenY - centerY) / scale)
  let x := snapCoordF settings x
  let y := snapCoordF settings y
  { x := clampNDC x, y := clampNDC y }

/-- The condition of the `if` in the loop of `pointInPolygon` (`geometry.js`, line 218)
with every operation rounded. -/
def edgeCrossingF (px py : ℚ) (vi vj : Point ℚ) : Bool :=
  (decide (vi.y > py) != decide (vj.y > py))
    && decide (px < fl (fl (fl (fl (vj.x - vi.x) * fl (py - vi.y)) / fl (vj.y - vi.y)) + vi.x))

/-- The loop of `pointInPolygon` (`geometry.js`, lines 214-221) over the rounded
display vertices. -/
def pointInPolygonLoopF (px py : ℚ) : Point ℚ → List (Point ℚ) → Bool → Bool
  | _, [], inside => inside
  | vj, vi :: rest, inside =>
      pointInPolygonLoopF px py vi rest (if edgeCrossingF px py vi vj then !inside else inside)

/-- The function `pointInPolygon` (`geometry.js`, lines 210-224) with every operation
rounded. -/
def pointInPolygonF (px py : ℚ) (vertices : List (Point ℚ)) (canvas : Canvas ℚ)
    (viewport : Viewport ℚ) : Bool :=
  let screenVerts := vertices.map fun v => ndcToScreenF v.x v.y canvas viewport
  match screenVerts.getLast? with
  | none => false
  | some last => pointInPolygonLoopF px py last screenVerts false

/-- The effective corner radius of `createRoundedRectangle` (`geometry.js`,
lines 32-37) with every operation rounded. -/
def cornerRadiusOfF (p1 p2 : Point ℚ) (radiusRatio : ℚ) : ℚ :=
  let minX := min p1.x p2.x
  let maxX := max p1.x p2.x
  let minY := min p1.y p2.y
  let maxY := max p1.y p2.y
  let width := fl (maxX - minX)
  let height := fl (maxY - minY)
  let maxRadius := fl (min width height / 2)
  min maxRadius (fl (min width height * min radiusRatio (1 / 2)))

/-- The vertex list built by `createRoundedRectangle` (`geometry.js`, lines 27-95)
with every operation rounded; `M` holds the values of `Math.cos`, `Math.sin` and
`Math.PI`. -/
def roundedRectangleVerticesF (M : JSMath ℚ) (p1 p2 : Point ℚ) (radiusRatio : ℚ)
    (segments : ℕ) : List (Point ℚ) :=
  let minX := min p1.x p2.x
  let maxX := max p1.x p2.x
  let minY := min p1.y p2.y
  let maxY := max p1.y p2.y
  let radius := cornerRadiusOfF p1 p2 radiusRatio
  let centerX := fl (fl (minX + maxX) / 2)
  let centerY := fl (fl (minY + maxY) / 2)
  let trCenterX := fl (maxX - radius)
  let trCenterY := fl (maxY - radius)
  let tlCenterX := fl (minX + radius)
  let tlCenterY := fl (maxY - radius)
  let blCenterX := fl (minX + radius)
  let blCenterY := fl (minY + radius)
  let brCenterX := fl (maxX - radius)
  let brCenterY := fl (minY + radius)
  let vertices : List (Point ℚ) := [{ x := centerX, y := centerY }]
  let vertices := vertices ++ (List.range (segments + 1)).map fun (i : ℕ) =>
    let angle := fl (fl ((i : ℚ) / (segments : ℚ)) * fl (M.PI / 2))
    { x := fl (trCenterX + fl (M.cos angle * radius))
      y := fl (trCenterY + fl (M.sin angle * radius)) }
  let vertices := vertices ++ (List.range (segments + 1)).map fun (i : ℕ) =>
    let angle := fl (fl (M.PI / 2) + fl (fl ((i : ℚ) / (segments : ℚ)) * fl (M.PI / 2)))
    { x := fl (tlCenterX + fl (M.cos angle * radius))
      y := fl (tlCenterY + fl (M.sin angle * radius)) }
  let vertices := vertices ++ (List.range (segments + 1)).map fun (i : ℕ) =>
    let angle := fl (M.PI + fl (fl ((i : ℚ) / (segments : ℚ)) * fl (M.PI / 2)))
    { x := fl (blCenterX + fl (M.cos angle * radius))
      y := fl (blCenterY + fl (M.sin angle * radius)) }
  let vertices := vertices ++ (List.range (segments + 1)).map fun (i : ℕ) =>
    let angle := fl (fl (fl (3 * M.PI) / 2) + fl (fl ((i : ℚ) / (segments : ℚ)) * fl (M.PI / 2)))
    { x := fl (brCenterX + fl (M.cos angle * radius))
      y := fl (brCenterY + fl (M.sin angle * radius)) }
  vertices ++ [vertices.getD 1 { x := centerX, y := centerY }]

/-- The vertex pushed by the first iteration (`i = 0`) of the first loop of
`createRoundedRectangle` (`geometry.js`, lines 59-64), i.e. `vertices[1]`, with
every operation rounded: the angle is `(0 / segments) * (Math.PI / 2) = 0`, and the
language fixes `Math.cos(0) = 1` and `Math.sin(0) = 0`. -/
def roundedRectangleArcStartF (p1 p2 : Point ℚ) (radiusRatio : ℚ) : Point ℚ :=
  let radius := cornerRadiusOfF p1 p2 radiusRatio
  let trCenterX := fl (max p1.x p2.x - radius)
  let trCenterY := fl (max p1.y p2.y - radius)
  { x := fl (trCenterX + fl (1 * radius)), y := fl (trCenterY + fl (0 * radius)) }

/-! ## Inputs of the binary64 examples -/

/-- The viewport at zoom 1 without pan. -/
def unitViewport : Viewport ℚ := { zoom := 1, panX := 0, panY := 0 }

/-- The logical point `screenToNDC` returns for the pixel `(x, y)` of `demoCanvas` at
zoom 1 without pan and without snapping, in binary64 arithmetic. -/
def pixelF (x y : ℚ) : Point ℚ := screenToNDCF x y demoCanvas unitViewport (some DEFAULT_SETTINGS)

/-- The triangle clicked at the pixels (640, 315), (193, 277) and (630, 385). -/
def demoTriangleF : List (Point ℚ) := [pixelF 640 315, pixelF 193 277, pixelF 630 385]

/-- The rectangle dragged from the pixel (124, 300) to the pixel (154, 420). -/
def demoRectF : Shape ℚ := createRectangle "shape_1" 0 (pixelF 124 300) (pixelF 154 420) "#10b981"

/-- The list built by one push of `c`, four loops pushing `f 0, ..., f n` each, and a
final push of a copy of the element at index 1 (proof device: the common list
shape of `createRoundedRectangle`). -/
def fanList {α : Type} (c d : α) (f1 f2 f3 f4 : ℕ → α) (n : ℕ) : List α :=
  let L := [c] ++ (List.range (n + 1)).map f1 ++ (List.range (n + 1)).map f2
    ++ (List.range (n + 1)).map f3 ++ (List.range (n + 1)).map f4
  L ++ [L.getD 1 d]

/-- The point at `angle` on the circle of the given centre and radius, as each loop
body of the generators computes it (proof device). -/
def arcPoint {K : Type} [LinearOrderedField K] (M : JSMath K) (cx cy radius angle : K) :
    Point K :=
  { x := cx + M.cos angle * radius, y := cy + M.sin angle * radius }

/-- The `Math` object in exact real arithmetic. -/
noncomputable def realMath : JSMath ℝ where
  cos := Real.cos
  sin := Real.sin
  PI := Real.pi
  hypot := fun a b => Real.sqrt (a ^ 2 + b ^ 2)

/-! ## Theorems: coordinate transform -/

section TransformTheorems

variable {K : Type} [LinearOrderedField K]

theorem clampNDC_of_mem {c : K} (h1 : -1 ≤ c) (h2 : c ≤ 1) : clampNDC c = c := by
  unfold clampNDC
  rw [min_eq_right h2, max_eq_right h1]

theorem clampNDC_mem (c : K) : -1 ≤ clampNDC c ∧ clampNDC c ≤ 1 := by
  unfold clampNDC
  refine ⟨le_max_left _ _, max_le (by norm_num) (min_le_left _ _)⟩

theorem clampNDC_cases (c : K) : clampNDC c = c ∨ clampNDC c = 1 ∨ clampNDC c = -1 := by
  unfold clampNDC
  rcases le_total c 1 with h | h
  · rw [min_eq_right h]
    rcases le_total (-1) c with h1 | h1
    · exact Or.inl (max_eq_right h1)
    · exact Or.inr (Or.inr (max_eq_left h1))
  · rw [min_eq_left h]
    exact Or.inr (Or.inl (max_eq_right (by norm_num)))

variable [FloorRing K]

theorem snapCoord_off (settings : Option (Settings K))
    (hoff : ∀ s, settings = some s → s.snapToGrid = false) (c : K) :
    snapCoord settings c = c := by
  cases settings with
  | none => rfl
  | some s => simp [snapCoord, hoff s rfl]

/-- C1. Round trip of the coordinate transform: for a canvas with positive width
and height, a zoom in `[0.25, 4]`, any pan and any logical point of `[-1,1]²`,
`screenToNDC` with grid-snapping disabled (no settings, or `snapToGrid` false)
applied to the `ndcToScreen` image of the point gives the point back exactly. -/
theorem screenToNDC_ndcToScreen (canvas : Canvas K) (viewport : Viewport K)
    (settings : Option (Settings K)) (x y : K)
    (hw : 0 < canvas.width) (hh : 0 < canvas.height)
    (hz1 : 1 / 4 ≤ viewport.zoom) (_hz2 : viewport.zoom ≤ 4)
    (hoff : ∀ s, settings = some s → s.snapToGrid = false)
    (hx1 : -1 ≤ x) (hx2 : x ≤ 1) (hy1 : -1 ≤ y) (hy2 : y ≤ 1) :
    screenToNDC (ndcToScreen x y canvas viewport).x (ndcToScreen x y canvas viewport).y
      canvas viewport settings = { x := x, y := y } := by
  have hz : 0 < viewport.zoom := lt_of_lt_of_le (by norm_num) hz1
  have hs : min canvas.width canvas.height / 2 * viewport.zoom ≠ 0 :=
    ne_of_gt (mul_pos (div_pos (lt_min hw hh) (by norm_num)) hz)
  have ex : (canvas.width / 2 + viewport.panX
      + x * (min canvas.width canvas.height / 2 * viewport.zoom)
      - (canvas.width / 2 + viewport.panX))
      / (min canvas.width canvas.height / 2 * viewport.zoom) = x := by
    field_simp
  have ey : -(canvas.height / 2 + viewport.panY
      - y * (min canvas.width canvas.height / 2 * viewport.zoom)
      - (canvas.height / 2 + viewport.panY))
      / (min canvas.width canvas.height / 2 * viewport.zoom) = y := by
    field_simp
  simp only [screenToNDC, ndcToScreen, snapCoord_off settings hoff, ex, ey,
    clampNDC_of_mem hx1 hx2, clampNDC_of_mem hy1 hy2]

/-- Witness for C1 on an 800 by 600 canvas at zoom 2 with the default settings
(snapping off), over the rationals. -/
theorem screenToNDC_ndcToScreen_witness :
    screenToNDC (ndcToScreen (1 / 2 : ℚ) (-1 / 4) ⟨800, 600⟩ ⟨2, 10, -20⟩).x
      (ndcToScreen (1 / 2 : ℚ) (-1 / 4) ⟨800, 600⟩ ⟨2, 10, -20⟩).y
      ⟨800, 600⟩ ⟨2, 10, -20⟩ (some ⟨true, 20, false, false, 24, 6, "#10b981", none, none⟩)
      = { x := 1 / 2, y := -1 / 4 } :=
  screenToNDC_ndcToScreen ⟨800, 600⟩ ⟨2, 10, -20⟩
    (some ⟨true, 20, false, false, 24, 6, "#10b981", none, none⟩) (1 / 2) (-1 / 4)
    (by norm_num) (by norm_num) (by norm_num) (by norm_num)
    (fun s h => by cases h; rfl)
    (by norm_num) (by norm_num) (by norm_num) (by norm_num)

theorem snapCoord_on (s : Settings K) (hs : s.snapToGrid = true) (c : K) :
    snapCoord (some s) c
      = (mathRound (c / (2 / (s.gridDivisions : K))) : K) * (2 / (s.gridDivisions : K)) := by
  simp [snapCoord, hs]

/-- A clamped grid multiple is a grid multiple, or one of the clamp bounds. -/
theorem clampNDC_snapCoord_on (s : Settings K) (hs : s.snapToGrid = true) (c : K) :
    (∃ k : ℤ, clampNDC (snapCoord (some s) c) = (k : K) * (2 / (s.gridDivisions : K)))
      ∨ clampNDC (snapCoord (some s) c) = 1 ∨ clampNDC (snapCoord (some s) c) = -1 := by
  rcases clampNDC_cases (snapCoord (some s) c) with h | h | h
  · exact Or.inl ⟨_, h.trans (snapCoord_on s hs c)⟩
  · exact Or.inr (Or.inl h)
  · exact Or.inr (Or.inr h)

/-- For an even number of divisions the clamp bounds are grid multiples too. -/
theorem clampNDC_snapCoord_even (s : Settings K) (hs : s.snapToGrid = true)
    (hg : 0 < s.gridDivisions) (he : Even s.gridDivisions) (c : K) :
    ∃ k : ℤ, clampNDC (snapCoord (some s) c) = (k : K) * (2 / (s.gridDivisions : K)) := by
  obtain ⟨m, hm⟩ := he
  have hm0 : (m : K) ≠ 0 := by
    have : 0 < m := by omega
    exact_mod_cast this.ne'
  have h1 : ((m : ℤ) : K) * (2 / (s.gridDivisions : K)) = 1 := by
    rw [hm]; push_cast
    rw [← two_mul]
    field_simp
    ring
  rcases clampNDC_snapCoord_on s hs c with h | h | h
  · exact h
  · exact ⟨m, by rw [h, h1]⟩
  · exact ⟨-m, by rw [h]; push_cast; rw [neg_mul, h1]⟩

/-- C2 (counterexample). With 3 grid divisions on an 800 by 600 canvas at zoom 1,
the display point (700, 300) snaps to logical x = 4/3, which the clamp turns
into 1; 1 is no integer multiple of the grid step 2/3. -/
theorem screenToNDC_snap_not_grid_multiple :
    (screenToNDC (700 : ℚ) 300 ⟨800, 600⟩ ⟨1, 0, 0⟩
        (some ⟨true, 3, true, false, 24, 6, "#10b981", none, none⟩)).x = 1
      ∧ ¬ ∃ k : ℤ, (screenToNDC (700 : ℚ) 300 ⟨800, 600⟩ ⟨1, 0, 0⟩
        (some ⟨true, 3, true, false, 24, 6, "#10b981", none, none⟩)).x
          = (k : ℚ) * (2 / ((3 : ℤ) : ℚ)) := by
  have hx : (screenToNDC (700 : ℚ) 300 ⟨800, 600⟩ ⟨1, 0, 0⟩
      (some ⟨true, 3, true, false, 24, 6, "#10b981", none, none⟩)).x = 1 := by
    have hf : ⌊(2 : ℚ)⌋ = 2 := Int.floor_ofNat 2
    norm_num [screenToNDC, snapCoord, mathRound, clampNDC, hf]
  refine ⟨hx, ?_⟩
  rw [hx]
  rintro ⟨k, hk⟩
  have h3 : (3 : ℚ) = ((2 * k : ℤ) : ℚ) := by
    push_cast
    push_cast at hk
    linarith
  have h3z : (3 : ℤ) = 2 * k := by exact_mod_cast h3
  omega

/-- C2 (amended). With snapping on, a positive number of grid divisions and a
valid viewport, each coordinate returned by `screenToNDC` is an integer multiple
of the grid step `2 / gridDivisions` or one of the clamp bounds `1`, `-1`; when
the number of divisions is even it is always an integer multiple of the step. -/
theorem screenToNDC_snap_on_grid_or_bound (screenX screenY : K) (canvas : Canvas K)
    (viewport : Viewport K) (s : Settings K)
    (_hwh : 0 < min canvas.width canvas.height) (_hz : 0 < viewport.zoom)
    (hs : s.snapToGrid = true) (hg : 0 < s.gridDivisions) :
    (((∃ k : ℤ, (screenToNDC screenX screenY canvas viewport (some s)).x
            = (k : K) * (2 / (s.gridDivisions : K)))
        ∨ (screenToNDC screenX screenY canvas viewport (some s)).x = 1
        ∨ (screenToNDC screenX screenY canvas viewport (some s)).x = -1)
      ∧ ((∃ k : ℤ, (screenToNDC screenX screenY canvas viewport (some s)).y
            = (k : K) * (2 / (s.gridDivisions : K)))
        ∨ (screenToNDC screenX screenY canvas viewport (some s)).y = 1
        ∨ (screenToNDC screenX screenY canvas viewport (some s)).y = -1))
    ∧ (Even s.gridDivisions →
        (∃ k : ℤ, (screenToNDC screenX screenY canvas viewport (some s)).x
            = (k : K) * (2 / (s.gridDivisions : K)))
        ∧ (∃ k : ℤ, (screenToNDC screenX screenY canvas viewport (some s)).y
            = (k : K) * (2 / (s.gridDivisions : K)))) :=
  ⟨⟨clampNDC_snapCoord_on s hs _, clampNDC_snapCoord_on s hs _⟩,
    fun he => ⟨clampNDC_snapCoord_even s hs hg he _, clampNDC_snapCoord_even s hs hg he _⟩⟩

/-- Witness for C2 (amended): the default 20 divisions, 800 by 600 canvas. -/
theorem screenToNDC_snap_on_grid_or_bound_witness :
    (((∃ k : ℤ, (screenToNDC (123 : ℚ) 456 ⟨800, 600⟩ ⟨1, 0, 0⟩
            (some ⟨true, 20, true, false, 24, 6, "#10b981", none, none⟩)).x
            = (k : ℚ) * (2 / ((20 : ℤ) : ℚ)))
        ∨ (screenToNDC (123 : ℚ) 456 ⟨800, 600⟩ ⟨1, 0, 0⟩
            (some ⟨true, 20, true, false, 24, 6, "#10b981", none, none⟩)).x = 1
        ∨ (screenToNDC (123 : ℚ) 456 ⟨800, 600⟩ ⟨1, 0, 0⟩
            (some ⟨true, 20, true, false, 24, 6, "#10b981", none, none⟩)).x = -1)
      ∧ ((∃ k : ℤ, (screenToNDC (123 : ℚ) 456 ⟨800, 600⟩ ⟨1, 0, 0⟩
            (some ⟨true, 20, true, false, 24, 6, "#10b981", none, none⟩)).y
            = (k : ℚ) * (2 / ((20 : ℤ) : ℚ)))
        ∨ (screenToNDC (123 : ℚ) 456 ⟨800, 600⟩ ⟨1, 0, 0⟩
            (some ⟨true, 20, true, false, 24, 6, "#10b981", none, none⟩)).y = 1
        ∨ (screenToNDC (123 : ℚ) 456 ⟨800, 600⟩ ⟨1, 0, 0⟩
            (some ⟨true, 20, true, false, 24, 6, "#10b981", none, none⟩)).y = -1))
    ∧ (Even (20 : ℤ) →
        (∃ k : ℤ, (screenToNDC (123 : ℚ) 456 ⟨800, 600⟩ ⟨1, 0, 0⟩
            (some ⟨true, 20, true, false, 24, 6, "#10b981", none, none⟩)).x
            = (k : ℚ) * (2 / ((20 : ℤ) : ℚ)))
        ∧ (∃ k : ℤ, (screenToNDC (123 : ℚ) 456 ⟨800, 600⟩ ⟨1, 0, 0⟩
            (some ⟨true, 20, true, false, 24, 6, "#10b981", none, none⟩)).y
            = (k : ℚ) * (2 / ((20 : ℤ) : ℚ)))) :=
  screenToNDC_snap_on_grid_or_bound (123 : ℚ) 456 ⟨800, 600⟩ ⟨1, 0, 0⟩
    ⟨true, 20, true, false, 24, 6, "#10b981", none, none⟩
    (by norm_num) (by norm_num) rfl (by norm_num)

/-- C3. For a valid viewport and settings with snapping off or with a positive
number of grid divisions, both coordinates returned by `screenToNDC` lie in
`[-1, 1]`. -/
theorem screenToNDC_mem_range (screenX screenY : K) (canvas : Canvas K)
    (viewport : Viewport K) (settings : Option (Settings K))
    (_hwh : 0 < min canvas.width canvas.height) (_hz : 0 < viewport.zoom)
    (_hs : ∀ s, settings = some s → s.snapToGrid = true → 0 < s.gridDivisions) :
    (-1 ≤ (screenToNDC screenX screenY canvas viewport settings).x
        ∧ (screenToNDC screenX screenY canvas viewport settings).x ≤ 1)
      ∧ (-1 ≤ (screenToNDC screenX screenY canvas viewport settings).y
        ∧ (screenToNDC screenX screenY canvas viewport settings).y ≤ 1) :=
  ⟨clampNDC_mem _, clampNDC_mem _⟩

/-- Witness for C3: a display point far outside an 800 by 600 canvas, snapping on. -/
theorem screenToNDC_mem_range_witness :
    (-1 ≤ (screenToNDC (5000 : ℚ) (-7000) ⟨800, 600⟩ ⟨1 / 4, 30, 40⟩
          (some ⟨true, 20, true, false, 24, 6, "#10b981", none, none⟩)).x
        ∧ (screenToNDC (5000 : ℚ) (-7000) ⟨800, 600⟩ ⟨1 / 4, 30, 40⟩
          (some ⟨true, 20, true, false, 24, 6, "#10b981", none, none⟩)).x ≤ 1)
      ∧ (-1 ≤ (screenToNDC (5000 : ℚ) (-7000) ⟨800, 600⟩ ⟨1 / 4, 30, 40⟩
          (some ⟨true, 20, true, false, 24, 6, "#10b981", none, none⟩)).y
        ∧ (screenToNDC (5000 : ℚ) (-7000) ⟨800, 600⟩ ⟨1 / 4, 30, 40⟩
          (some ⟨true, 20, true, false, 24, 6, "#10b981", none, none⟩)).y ≤ 1) :=
  screenToNDC_mem_range (5000 : ℚ) (-7000) ⟨800, 600⟩ ⟨1 / 4, 30, 40⟩
    (some ⟨true, 20, true, false, 24, 6, "#10b981", none, none⟩)
    (by norm_num) (by norm_num)
    (fun s h _ => by cases h; norm_num)

end TransformTheorems

/-! ## Theorems: shape generators -/

section ListLemmas

/-- Indexing a loop that pushes `f 0, ..., f (n - 1)`. -/
theorem map_range_getElem? {α : Type} (f : ℕ → α) (n i : ℕ) (h : i < n) :
    ((List.range n).map f)[i]? = some (f i) := by
  simp [List.getElem?_range h]

/-- The fan list, flattened. -/
theorem fanList_eq {α : Type} (c d : α) (f1 f2 f3 f4 : ℕ → α) (n : ℕ) :
    fanList c d f1 f2 f3 f4 n
      = c :: ((List.range (n + 1)).map f1 ++ ((List.range (n + 1)).map f2
        ++ ((List.range (n + 1)).map f3 ++ ((List.range (n + 1)).map f4 ++ [f1 0])))) := by
  have hL : [c] ++ (List.range (n + 1)).map f1 ++ (List.range (n + 1)).map f2
      ++ (List.range (n + 1)).map f3 ++ (List.range (n + 1)).map f4
      = c :: ((List.range (n + 1)).map f1 ++ ((List.range (n + 1)).map f2
        ++ ((List.range (n + 1)).map f3 ++ (List.range (n + 1)).map f4))) := by
    simp
  unfold fanList
  simp only [hL]
  rw [List.getD_eq_getElem?_getD, List.getElem?_cons_succ, List.getElem?_append_left (by simp),
    map_range_getElem? f1 _ _ (by omega)]
  simp

/-- Indexing the list built by one centre push, four loops of `n + 1` pushes each
and the final push of a copy of the element at index 1. -/
theorem fan_getElem? {α : Type} (c d : α) (f1 f2 f3 f4 : ℕ → α) (n : ℕ) :
    (fanList c d f1 f2 f3 f4 n).length = 4 * (n + 1) + 2
      ∧ (fanList c d f1 f2 f3 f4 n)[0]? = some c
      ∧ (∀ i, i ≤ n → (fanList c d f1 f2 f3 f4 n)[1 + i]? = some (f1 i))
      ∧ (∀ i, i ≤ n → (fanList c d f1 f2 f3 f4 n)[1 + (n + 1) + i]? = some (f2 i))
      ∧ (∀ i, i ≤ n → (fanList c d f1 f2 f3 f4 n)[1 + 2 * (n + 1) + i]? = some (f3 i))
      ∧ (∀ i, i ≤ n → (fanList c d f1 f2 f3 f4 n)[1 + 3 * (n + 1) + i]? = some (f4 i))
      ∧ (fanList c d f1 f2 f3 f4 n)[4 * (n + 1) + 1]? = some (f1 0) := by
  have hV := fanList_eq c d f1 f2 f3 f4 n
  rw [hV]
  refine ⟨by simp; omega, by simp, ?_, ?_, ?_, ?_, ?_⟩
  · intro i hi
    rw [show 1 + i = i + 1 by omega, List.getElem?_cons_succ,
      List.getElem?_append_left (by simp only [List.length_map, List.length_range]; omega)]
    exact map_range_getElem? f1 _ _ (by omega)
  · intro i hi
    rw [show 1 + (n + 1) + i = (n + 1 + i) + 1 by omega, List.getElem?_cons_succ,
      List.getElem?_append_right (by simp only [List.length_map, List.length_range]; omega),
      List.getElem?_append_left (by simp only [List.length_map, List.length_range]; omega)]
    simp only [List.length_map, List.length_range]
    rw [show n + 1 + i - (n + 1) = i by omega]
    exact map_range_getElem? f2 _ _ (by omega)
  · intro i hi
    rw [show 1 + 2 * (n + 1) + i = (2 * (n + 1) + i) + 1 by omega, List.getElem?_cons_succ,
      List.getElem?_append_right (by simp only [List.length_map, List.length_range]; omega),
      List.getElem?_append_right (by simp only [List.length_map, List.length_range]; omega),
      List.getElem?_append_left (by simp only [List.length_map, List.length_range]; omega)]
    simp only [List.length_map, List.length_range]
    rw [show 2 * (n + 1) + i - (n + 1) - (n + 1) = i by omega]
    exact map_range_getElem? f3 _ _ (by omega)
  · intro i hi
    rw [show 1 + 3 * (n + 1) + i = (3 * (n + 1) + i) + 1 by omega, List.getElem?_cons_succ,
      List.getElem?_append_right (by simp only [List.length_map, List.length_range]; omega),
      List.getElem?_append_right (by simp only [List.length_map, List.length_range]; omega),
      List.getElem?_append_right (by simp only [List.length_map, List.length_range]; omega),
      List.getElem?_append_left (by simp only [List.length_map, List.length_range]; omega)]
    simp only [List.length_map, List.length_range]
    rw [show 3 * (n + 1) + i - (n + 1) - (n + 1) - (n + 1) = i by omega]
    exact map_range_getElem? f4 _ _ (by omega)
  · rw [List.getElem?_cons_succ,
      List.getElem?_append_right (by simp only [List.length_map, List.length_range]; omega),
      List.getElem?_append_right (by simp only [List.length_map, List.length_range]; omega),
      List.getElem?_append_right (by simp only [List.length_map, List.length_range]; omega),
      List.getElem?_append_right (by simp only [List.length_map, List.length_range]; omega)]
    simp only [List.length_map, List.length_range]
    rw [show 4 * (n + 1) - (n + 1) - (n + 1) - (n + 1) - (n + 1) = 0 by omega]
    rfl

/-- `Math.min(...l)` is the element of `l` below all others. -/
theorem min?_eq_some_of {K : Type} [LinearOrder K] {l : List K} {a : K} (hmem : a ∈ l)
    (hle : ∀ b ∈ l, a ≤ b) : l.min? = some a :=
  haveI : Std.Antisymm (fun (x y : K) => x ≤ y) := ⟨fun h1 h2 => le_antisymm h1 h2⟩
  (List.min?_eq_some_iff (fun _ => le_rfl) (fun a b => min_choice a b)
    (fun _ _ _ => le_min_iff)).mpr ⟨hmem, hle⟩

/-- `Math.max(...l)` is the element of `l` above all others. -/
theorem max?_eq_some_of {K : Type} [LinearOrder K] {l : List K} {a : K} (hmem : a ∈ l)
    (hle : ∀ b ∈ l, b ≤ a) : l.max? = some a :=
  haveI : Std.Antisymm (fun (x y : K) => x ≤ y) := ⟨fun h1 h2 => le_antisymm h1 h2⟩
  (List.max?_eq_some_iff (fun _ => le_rfl) (fun a b => max_choice a b)
    (fun _ _ _ => max_le_iff)).mpr ⟨hmem, hle⟩

/-- The perimeter (all but vertex 0) of a fan list consists of the four loops' values. -/
theorem mem_drop_fanList {α : Type} (c d : α) (f1 f2 f3 f4 : ℕ → α) (n : ℕ) (v : α) :
    v ∈ (fanList c d f1 f2 f3 f4 n).drop 1
      ↔ (∃ i, i ≤ n ∧ f1 i = v) ∨ (∃ i, i ≤ n ∧ f2 i = v) ∨ (∃ i, i ≤ n ∧ f3 i = v)
        ∨ (∃ i, i ≤ n ∧ f4 i = v) := by
  rw [fanList_eq]
  simp only [List.drop_succ_cons, List.drop_zero, List.mem_append, List.mem_map,
    List.mem_range, Nat.lt_succ_iff, List.mem_singleton]
  constructor
  · rintro (h | h | h | h | h)
    · exact Or.inl h
    · exact Or.inr (Or.inl h)
    · exact Or.inr (Or.inr (Or.inl h))
    · exact Or.inr (Or.inr (Or.inr h))
    · exact Or.inl ⟨0, Nat.zero_le _, h.symm⟩
  · rintro (h | h | h | h)
    · exact Or.inl h
    · exact Or.inr (Or.inl h)
    · exact Or.inr (Or.inr (Or.inl h))
    · exact Or.inr (Or.inr (Or.inr (Or.inl h)))

end ListLemmas

section GeneratorTheorems

variable {K : Type} [LinearOrderedField K]

/-- C4. `createRectangle` returns kind 'rectangle' with exactly the 6 vertices
(minX,minY), (maxX,minY), (maxX,maxY), (minX,minY), (maxX,maxY), (minX,maxY) of
the bounding box of its two corner points, in this order; swapping the two
corner points gives the same vertex list. -/
theorem createRectangle_vertices (id id' : String) (now now' : ℕ) (p1 p2 : Point K)
    (color color' : String) :
    (createRectangle id now p1 p2 color).type = "rectangle"
      ∧ (createRectangle id now p1 p2 color).vertices.length = 6
      ∧ (createRectangle id now p1 p2 color).vertices =
        [⟨min p1.x p2.x, min p1.y p2.y⟩, ⟨max p1.x p2.x, min p1.y p2.y⟩,
          ⟨max p1.x p2.x, max p1.y p2.y⟩, ⟨min p1.x p2.x, min p1.y p2.y⟩,
          ⟨max p1.x p2.x, max p1.y p2.y⟩, ⟨min p1.x p2.x, max p1.y p2.y⟩]
      ∧ (createRectangle id' now' p2 p1 color').vertices
        = (createRectangle id now p1 p2 color).vertices := by
  refine ⟨rfl, rfl, rfl, ?_⟩
  simp only [createRectangle, min_comm p2.x p1.x, max_comm p2.x p1.x, min_comm p2.y p1.y,
    max_comm p2.y p1.y]

/-- C5. For a radius ratio in `[0, 0.5]` and `s ≥ 1` segments, `createRoundedRectangle`
emits `4 * (s + 1) + 2` vertices: vertex 0 is the centre of the bounding box,
then come the `s + 1` points of the top-right arc, of the top-left arc, of the
bottom-left arc and of the bottom-right arc (point `i` of an arc sits at the
arc's start angle plus `i / s` of a quarter turn around its corner centre), and
the last vertex equals vertex 1. -/
theorem createRoundedRectangle_vertices (M : JSMath K) (id : String) (now : ℕ)
    (p1 p2 : Point K) (radiusRatio : K) (segments : ℕ) (color : String)
    (_h0 : 0 ≤ radiusRatio) (_h1 : radiusRatio ≤ 1 / 2) (_hs : 1 ≤ segments) :
    let V := (createRoundedRectangle M id now p1 p2 radiusRatio segments color).vertices
    let r := cornerRadiusOf p1 p2 radiusRatio
    let minX := min p1.x p2.x
    let maxX := max p1.x p2.x
    let minY := min p1.y p2.y
    let maxY := max p1.y p2.y
    V.length = 4 * (segments + 1) + 2
      ∧ V[0]? = some ⟨(minX + maxX) / 2, (minY + maxY) / 2⟩
      ∧ (∀ i, i ≤ segments → V[1 + i]? = some
          ⟨maxX - r + M.cos (((i : K) / (segments : K)) * (M.PI / 2)) * r,
            maxY - r + M.sin (((i : K) / (segments : K)) * (M.PI / 2)) * r⟩)
      ∧ (∀ i, i ≤ segments → V[1 + (segments + 1) + i]? = some
          ⟨minX + r + M.cos (M.PI / 2 + ((i : K) / (segments : K)) * (M.PI / 2)) * r,
            maxY - r + M.sin (M.PI / 2 + ((i : K) / (segments : K)) * (M.PI / 2)) * r⟩)
      ∧ (∀ i, i ≤ segments → V[1 + 2 * (segments + 1) + i]? = some
          ⟨minX + r + M.cos (M.PI + ((i : K) / (segments : K)) * (M.PI / 2)) * r,
            minY + r + M.sin (M.PI + ((i : K) / (segments : K)) * (M.PI / 2)) * r⟩)
      ∧ (∀ i, i ≤ segments → V[1 + 3 * (segments + 1) + i]? = some
          ⟨maxX - r + M.cos ((3 * M.PI / 2) + ((i : K) / (segments : K)) * (M.PI / 2)) * r,
            minY + r + M.sin ((3 * M.PI / 2) + ((i : K) / (segments : K)) * (M.PI / 2)) * r⟩)
      ∧ V[4 * (segments + 1) + 1]? = V[1]? := by
  intro V r minX maxX minY maxY
  have hV : V = fanList
      (⟨(minX + maxX) / 2, (minY + maxY) / 2⟩ : Point K)
      (⟨(minX + maxX) / 2, (minY + maxY) / 2⟩ : Point K)
      (fun i : ℕ => (⟨maxX - r + M.cos (((i : K) / (segments : K)) * (M.PI / 2)) * r,
        maxY - r + M.sin (((i : K) / (segments : K)) * (M.PI / 2)) * r⟩ : Point K))
      (fun i : ℕ => (⟨minX + r + M.cos (M.PI / 2 + ((i : K) / (segments : K)) * (M.PI / 2)) * r,
        maxY - r + M.sin (M.PI / 2 + ((i : K) / (segments : K)) * (M.PI / 2)) * r⟩ : Point K))
      (fun i : ℕ => (⟨minX + r + M.cos (M.PI + ((i : K) / (segments : K)) * (M.PI / 2)) * r,
        minY + r + M.sin (M.PI + ((i : K) / (segments : K)) * (M.PI / 2)) * r⟩ : Point K))
      (fun i : ℕ => (⟨maxX - r + M.cos ((3 * M.PI / 2) + ((i : K) / (segments : K)) * (M.PI / 2)) * r,
        minY + r + M.sin ((3 * M.PI / 2) + ((i : K) / (segments : K)) * (M.PI / 2)) * r⟩ : Point K))
      segments := rfl
  rw [hV]
  obtain ⟨hlen, h0, htr, htl, hbl, hbr, hlast⟩ := fan_getElem? _ _ _ _ _ _ segments
  exact ⟨hlen, h0, htr, htl, hbl, hbr, hlast.trans (htr 0 (Nat.zero_le _)).symm⟩

/-- Witness for C5: the box with corners (0, 0) and (2, 1), ratio 1/4, 8 segments,
real `Math`: 38 vertices, the last equal to vertex 1. -/
theorem createRoundedRectangle_vertices_witness :
    (createRoundedRectangle realMath "shape_1" 0 ⟨0, 0⟩ ⟨2, 1⟩ (1 / 4) 8 "#10b981").vertices.length
        = 4 * (8 + 1) + 2
      ∧ (createRoundedRectangle realMath "shape_1" 0 ⟨0, 0⟩ ⟨2, 1⟩ (1 / 4) 8
          "#10b981").vertices[4 * (8 + 1) + 1]?
        = (createRoundedRectangle realMath "shape_1" 0 ⟨0, 0⟩ ⟨2, 1⟩ (1 / 4) 8
          "#10b981").vertices[1]? :=
  have h := createRoundedRectangle_vertices realMath "shape_1" 0 ⟨0, 0⟩ ⟨2, 1⟩ (1 / 4) 8
    "#10b981" (by norm_num) (by norm_num) (by norm_num)
  ⟨h.1, h.2.2.2.2.2.2⟩

/-- The vertex list of `createRoundedRectangle` as a fan list of arc points. -/
theorem roundedRectangleVertices_eq_fanList (M : JSMath K) (p1 p2 : Point K)
    (radiusRatio : K) (segments : ℕ) :
    roundedRectangleVertices M p1 p2 radiusRatio segments = fanList
      (⟨(min p1.x p2.x + max p1.x p2.x) / 2, (min p1.y p2.y + max p1.y p2.y) / 2⟩ : Point K)
      (⟨(min p1.x p2.x + max p1.x p2.x) / 2, (min p1.y p2.y + max p1.y p2.y) / 2⟩ : Point K)
      (fun i : ℕ => arcPoint M (max p1.x p2.x - cornerRadiusOf p1 p2 radiusRatio)
        (max p1.y p2.y - cornerRadiusOf p1 p2 radiusRatio) (cornerRadiusOf p1 p2 radiusRatio)
        (((i : K) / (segments : K)) * (M.PI / 2)))
      (fun i : ℕ => arcPoint M (min p1.x p2.x + cornerRadiusOf p1 p2 radiusRatio)
        (max p1.y p2.y - cornerRadiusOf p1 p2 radiusRatio) (cornerRadiusOf p1 p2 radiusRatio)
        (M.PI / 2 + ((i : K) / (segments : K)) * (M.PI / 2)))
      (fun i : ℕ => arcPoint M (min p1.x p2.x + cornerRadiusOf p1 p2 radiusRatio)
        (min p1.y p2.y + cornerRadiusOf p1 p2 radiusRatio) (cornerRadiusOf p1 p2 radiusRatio)
        (M.PI + ((i : K) / (segments : K)) * (M.PI / 2)))
      (fun i : ℕ => arcPoint M (max p1.x p2.x - cornerRadiusOf p1 p2 radiusRatio)
        (min p1.y p2.y + cornerRadiusOf p1 p2 radiusRatio) (cornerRadiusOf p1 p2 radiusRatio)
        ((3 * M.PI / 2) + ((i : K) / (segments : K)) * (M.PI / 2)))
      segments := rfl

theorem min_le_max_coord (a b : K) : min a b ≤ max a b :=
  le_trans (min_le_left a b) (le_max_left a b)

/-- The effective radius is non-negative for a non-negative ratio. -/
theorem cornerRadiusOf_nonneg (p1 p2 : Point K) (radiusRatio : K) (h0 : 0 ≤ radiusRatio) :
    0 ≤ cornerRadiusOf p1 p2 radiusRatio := by
  have hw : 0 ≤ max p1.x p2.x - min p1.x p2.x := sub_nonneg.mpr (min_le_max_coord _ _)
  have hh : 0 ≤ max p1.y p2.y - min p1.y p2.y := sub_nonneg.mpr (min_le_max_coord _ _)
  have hm : 0 ≤ min (max p1.x p2.x - min p1.x p2.x) (max p1.y p2.y - min p1.y p2.y) :=
    le_min hw hh
  unfold cornerRadiusOf
  exact le_min (div_nonneg hm (by norm_num))
    (mul_nonneg hm (le_min h0 (by norm_num)))

/-- Twice the effective radius fits into the width and into the height. -/
theorem cornerRadiusOf_le (p1 p2 : Point K) (radiusRatio : K) :
    2 * cornerRadiusOf p1 p2 radiusRatio ≤ max p1.x p2.x - min p1.x p2.x
      ∧ 2 * cornerRadiusOf p1 p2 radiusRatio ≤ max p1.y p2.y - min p1.y p2.y := by
  have h : cornerRadiusOf p1 p2 radiusRatio
      ≤ min (max p1.x p2.x - min p1.x p2.x) (max p1.y p2.y - min p1.y p2.y) / 2 := by
    unfold cornerRadiusOf
    exact min_le_left _ _
  have h2 : 2 * cornerRadiusOf p1 p2 radiusRatio
      ≤ min (max p1.x p2.x - min p1.x p2.x) (max p1.y p2.y - min p1.y p2.y) := by
    linarith
  exact ⟨le_trans h2 (min_le_left _ _), le_trans h2 (min_le_right _ _)⟩

/-- With ratio 0 the effective radius is 0. -/
theorem cornerRadiusOf_zero (p1 p2 : Point K) : cornerRadiusOf p1 p2 0 = 0 := by
  apply le_antisymm _ (cornerRadiusOf_nonneg p1 p2 0 le_rfl)
  unfold cornerRadiusOf
  refine le_trans (min_le_right _ _) ?_
  rw [min_eq_left (by norm_num : (0 : K) ≤ 1 / 2), mul_zero]

theorem mem_map_const_range {α : Type} (c v : α) (n : ℕ) :
    v ∈ (List.range (n + 1)).map (fun _ => c) ↔ v = c := by
  simp only [List.mem_map, List.mem_range]
  constructor
  · rintro ⟨_, _, h⟩
    exact h.symm
  · intro h
    exact ⟨0, Nat.succ_pos n, h.symm⟩

/-- C6. Degenerate equivalence: for `s ≥ 1` segments, a vertex is a perimeter vertex
(any vertex but vertex 0) of `createRoundedRectangle(p1, p2, 0, s)` exactly when
it is a vertex of `createRectangle(p1, p2)`, and these are exactly the four
corners of the bounding box of `p1` and `p2`. -/
theorem createRoundedRectangle_zero_eq_rectangle (M : JSMath K) (id id' : String)
    (now now' : ℕ) (p1 p2 : Point K) (segments : ℕ) (color color' : String)
    (_hs : 1 ≤ segments) (v : Point K) :
    (v ∈ (createRoundedRectangle M id now p1 p2 0 segments color).vertices.drop 1
        ↔ v ∈ (createRectangle id' now' p1 p2 color').vertices)
      ∧ (v ∈ (createRectangle id' now' p1 p2 color').vertices
        ↔ v ∈ [(⟨min p1.x p2.x, min p1.y p2.y⟩ : Point K), ⟨max p1.x p2.x, min p1.y p2.y⟩,
            ⟨max p1.x p2.x, max p1.y p2.y⟩, ⟨min p1.x p2.x, max p1.y p2.y⟩]) := by
  have hrect : v ∈ (createRectangle id' now' p1 p2 color').vertices
      ↔ v ∈ [(⟨min p1.x p2.x, min p1.y p2.y⟩ : Point K), ⟨max p1.x p2.x, min p1.y p2.y⟩,
          ⟨max p1.x p2.x, max p1.y p2.y⟩, ⟨min p1.x p2.x, max p1.y p2.y⟩] := by
    simp only [createRectangle, List.mem_cons, List.mem_singleton, List.not_mem_nil, or_false]
    tauto
  refine ⟨?_, hrect⟩
  rw [hrect]
  show v ∈ (roundedRectangleVertices M p1 p2 0 segments).drop 1 ↔ _
  rw [roundedRectangleVertices_eq_fanList, fanList_eq, cornerRadiusOf_zero]
  simp only [arcPoint, mul_zero, add_zero, sub_zero, List.drop_succ_cons, List.drop_zero,
    List.mem_append, mem_map_const_range, List.mem_cons, List.mem_singleton,
    List.not_mem_nil, or_false]
  tauto

/-- Witness for C6: the box with corners (0, 0) and (2, 1), 8 segments, real `Math`;
the top-left corner (0, 1) is a perimeter vertex and a rectangle vertex. -/
theorem createRoundedRectangle_zero_eq_rectangle_witness :
    ((⟨0, 1⟩ : Point ℝ) ∈ (createRoundedRectangle realMath "shape_1" 0 ⟨0, 0⟩ ⟨2, 1⟩ 0 8
          "#10b981").vertices.drop 1
        ↔ (⟨0, 1⟩ : Point ℝ) ∈ (createRectangle "shape_2" 1 ⟨0, 0⟩ ⟨2, 1⟩ "#10b981").vertices)
      ∧ ((⟨0, 1⟩ : Point ℝ) ∈ (createRectangle "shape_2" 1 ⟨0, 0⟩ ⟨2, 1⟩ "#10b981").vertices
        ↔ (⟨0, 1⟩ : Point ℝ) ∈ [(⟨min 0 2, min 0 1⟩ : Point ℝ), ⟨max 0 2, min 0 1⟩,
            ⟨max 0 2, max 0 1⟩, ⟨min 0 2, max 0 1⟩]) :=
  createRoundedRectangle_zero_eq_rectangle realMath "shape_1" "shape_2" 0 1 ⟨0, 0⟩ ⟨2, 1⟩ 8
    "#10b981" "#10b981" (by norm_num) ⟨0, 1⟩

/-- Regenerating from the bounding box corners gives the same vertex list. -/
theorem roundedRectangleVertices_bbox (M : JSMath K) (p1 p2 : Point K) (radiusRatio : K)
    (segments : ℕ) :
    roundedRectangleVertices M ⟨min p1.x p2.x, min p1.y p2.y⟩ ⟨max p1.x p2.x, max p1.y p2.y⟩
        radiusRatio segments
      = roundedRectangleVertices M p1 p2 radiusRatio segments := by
  simp only [roundedRectangleVertices, cornerRadiusOf,
    min_eq_left (min_le_max_coord p1.x p2.x), max_eq_right (min_le_max_coord p1.x p2.x),
    min_eq_left (min_le_max_coord p1.y p2.y), max_eq_right (min_le_max_coord p1.y p2.y)]

end GeneratorTheorems

/-! ## Theorems in exact real arithmetic -/

section RealTheorems

/-- The list built by one push of the centre and one loop of `n + 1` pushes. -/
theorem ring_getElem? {α : Type} (c : α) (f : ℕ → α) (n : ℕ) :
    ([c] ++ (List.range (n + 1)).map f).length = n + 2
      ∧ ([c] ++ (List.range (n + 1)).map f)[0]? = some c
      ∧ (∀ i, i ≤ n → ([c] ++ (List.range (n + 1)).map f)[i + 1]? = some (f i)) := by
  refine ⟨by simp, by simp, ?_⟩
  intro i hi
  rw [List.singleton_append, List.getElem?_cons_succ]
  exact map_range_getElem? f _ _ (by omega)

/-- C7. For `n ≥ 3`, `createCircle` and `createPolygon` each emit exactly `n + 2`
vertices, the first being the centre, and vertex `n + 1` (the last one) equals
vertex 1 (the first perimeter vertex), in exact real arithmetic. -/
theorem createCircle_createPolygon_closed (id id' : String) (now now' : ℕ)
    (center edge : Point ℝ) (n : ℕ) (color color' : String) (hn : 3 ≤ n) :
    ((createCircle realMath id now center edge n color).vertices.length = n + 2
        ∧ (createCircle realMath id now center edge n color).vertices[0]? = some center
        ∧ ∃ v, (createCircle realMath id now center edge n color).vertices[1]? = some v
          ∧ (createCircle realMath id now center edge n color).vertices[n + 1]? = some v)
      ∧ ((createPolygon realMath id' now' center edge n color').vertices.length = n + 2
        ∧ (createPolygon realMath id' now' center edge n color').vertices[0]? = some center
        ∧ ∃ v, (createPolygon realMath id' now' center edge n color').vertices[1]? = some v
          ∧ (createPolygon realMath id' now' center edge n color').vertices[n + 1]? = some v) := by
  have hn0 : (n : ℝ) ≠ 0 := by
    have : 0 < n := by omega
    exact_mod_cast this.ne'
  constructor
  · obtain ⟨hlen, h0, hi⟩ := ring_getElem? center
      (fun i : ℕ => (⟨center.x + realMath.cos (((i : ℝ) / (n : ℝ)) * realMath.PI * 2)
          * realMath.hypot (edge.x - center.x) (edge.y - center.y),
        center.y + realMath.sin (((i : ℝ) / (n : ℝ)) * realMath.PI * 2)
          * realMath.hypot (edge.x - center.x) (edge.y - center.y)⟩ : Point ℝ)) n
    refine ⟨hlen, h0, _, hi 0 (Nat.zero_le _), ?_⟩
    refine (hi n le_rfl).trans ?_
    simp only [realMath, div_self hn0, Nat.cast_zero, zero_div, zero_mul, one_mul,
      Real.cos_zero, Real.sin_zero, mul_comm Real.pi 2, Real.cos_two_pi, Real.sin_two_pi]
  · obtain ⟨hlen, h0, hi⟩ := ring_getElem? center
      (fun i : ℕ => (⟨center.x
          + realMath.cos (-realMath.PI / 2 + ((i : ℝ) / (n : ℝ)) * realMath.PI * 2)
          * realMath.hypot (edge.x - center.x) (edge.y - center.y),
        center.y + realMath.sin (-realMath.PI / 2 + ((i : ℝ) / (n : ℝ)) * realMath.PI * 2)
          * realMath.hypot (edge.x - center.x) (edge.y - center.y)⟩ : Point ℝ)) n
    refine ⟨hlen, h0, _, hi 0 (Nat.zero_le _), ?_⟩
    refine (hi n le_rfl).trans ?_
    simp only [realMath, div_self hn0, Nat.cast_zero, zero_div, zero_mul, one_mul, add_zero,
      mul_comm Real.pi 2, Real.cos_add_two_pi, Real.sin_add_two_pi]

/-- Witness for C7: the default 24 segments. -/
theorem createCircle_createPolygon_closed_witness :
    ((createCircle realMath "shape_1" 0 ⟨0, 0⟩ ⟨1 / 2, 0⟩ 24 "#10b981").vertices.length = 24 + 2
        ∧ (createCircle realMath "shape_1" 0 ⟨0, 0⟩ ⟨1 / 2, 0⟩ 24 "#10b981").vertices[0]?
          = some ⟨0, 0⟩
        ∧ ∃ v, (createCircle realMath "shape_1" 0 ⟨0, 0⟩ ⟨1 / 2, 0⟩ 24 "#10b981").vertices[1]?
            = some v
          ∧ (createCircle realMath "shape_1" 0 ⟨0, 0⟩ ⟨1 / 2, 0⟩ 24 "#10b981").vertices[24 + 1]?
            = some v)
      ∧ ((createPolygon realMath "shape_2" 1 ⟨0, 0⟩ ⟨1 / 2, 0⟩ 24 "#10b981").vertices.length
          = 24 + 2
        ∧ (createPolygon realMath "shape_2" 1 ⟨0, 0⟩ ⟨1 / 2, 0⟩ 24 "#10b981").vertices[0]?
          = some ⟨0, 0⟩
        ∧ ∃ v, (createPolygon realMath "shape_2" 1 ⟨0, 0⟩ ⟨1 / 2, 0⟩ 24 "#10b981").vertices[1]?
            = some v
          ∧ (createPolygon realMath "shape_2" 1 ⟨0, 0⟩ ⟨1 / 2, 0⟩ 24 "#10b981").vertices[24 + 1]?
            = some v) :=
  createCircle_createPolygon_closed "shape_1" "shape_2" 0 1 ⟨0, 0⟩ ⟨1 / 2, 0⟩ 24
    "#10b981" "#10b981" (by norm_num)

/-- Vertex 1 of `createCircle`: the point at angle `0 / n * PI * 2`. -/
theorem createCircle_getElem?_one (M : JSMath ℝ) (id : String) (now : ℕ)
    (center edge : Point ℝ) (n : ℕ) (color : String) :
    (createCircle M id now center edge n color).vertices[1]? = some
      ⟨center.x + M.cos (((0 : ℕ) : ℝ) / (n : ℝ) * M.PI * 2)
          * M.hypot (edge.x - center.x) (edge.y - center.y),
        center.y + M.sin (((0 : ℕ) : ℝ) / (n : ℝ) * M.PI * 2)
          * M.hypot (edge.x - center.x) (edge.y - center.y)⟩ :=
  (ring_getElem? center
    (fun i : ℕ => (⟨center.x + M.cos (((i : ℝ) / (n : ℝ)) * M.PI * 2)
        * M.hypot (edge.x - center.x) (edge.y - center.y),
      center.y + M.sin (((i : ℝ) / (n : ℝ)) * M.PI * 2)
        * M.hypot (edge.x - center.x) (edge.y - center.y)⟩ : Point ℝ)) n).2.2 0 (Nat.zero_le _)

/-- Vertex 1 of `createPolygon`: the point at angle `-PI / 2 + 0 / n * PI * 2`. -/
theorem createPolygon_getElem?_one (M : JSMath ℝ) (id : String) (now : ℕ)
    (center edge : Point ℝ) (n : ℕ) (color : String) :
    (createPolygon M id now center edge n color).vertices[1]? = some
      ⟨center.x + M.cos (-M.PI / 2 + ((0 : ℕ) : ℝ) / (n : ℝ) * M.PI * 2)
          * M.hypot (edge.x - center.x) (edge.y - center.y),
        center.y + M.sin (-M.PI / 2 + ((0 : ℕ) : ℝ) / (n : ℝ) * M.PI * 2)
          * M.hypot (edge.x - center.x) (edge.y - center.y)⟩ :=
  (ring_getElem? center
    (fun i : ℕ => (⟨center.x + M.cos (-M.PI / 2 + ((i : ℝ) / (n : ℝ)) * M.PI * 2)
        * M.hypot (edge.x - center.x) (edge.y - center.y),
      center.y + M.sin (-M.PI / 2 + ((i : ℝ) / (n : ℝ)) * M.PI * 2)
        * M.hypot (edge.x - center.x) (edge.y - center.y)⟩ : Point ℝ)) n).2.2 0 (Nat.zero_le _)

/-- C8 (the code at the failing input). The circle with centre (1/2, 0) and edge
point (-1/2, 0), both in `[-1,1]²`, has radius 1; its vertex 1 is (3/2, 0), so
not every vertex of the circle lies in `[-1,1]²`. -/
theorem createCircle_vertex_out_of_range :
    (createCircle realMath "shape_1" 0 ⟨1 / 2, 0⟩ ⟨-1 / 2, 0⟩ 24 "#10b981").vertices[1]?
        = some ⟨3 / 2, 0⟩
      ∧ ¬ ∀ v ∈ (createCircle realMath "shape_1" 0 ⟨1 / 2, 0⟩ ⟨-1 / 2, 0⟩ 24 "#10b981").vertices,
          (-1 ≤ v.x ∧ v.x ≤ 1) ∧ (-1 ≤ v.y ∧ v.y ≤ 1) := by
  have h1 : (createCircle realMath "shape_1" 0 ⟨1 / 2, 0⟩ ⟨-1 / 2, 0⟩ 24 "#10b981").vertices[1]?
      = some ⟨3 / 2, 0⟩ := by
    rw [createCircle_getElem?_one]
    have hr : Real.sqrt ((-1 / 2 - 1 / 2 : ℝ) ^ 2 + (0 - 0) ^ 2) = 1 := by
      rw [show ((-1 / 2 - 1 / 2 : ℝ) ^ 2 + (0 - 0) ^ 2) = 1 by norm_num, Real.sqrt_one]
    simp only [realMath, hr, Nat.cast_zero, zero_div, zero_mul, Real.cos_zero, Real.sin_zero,
      mul_one, add_zero]
    norm_num
  refine ⟨h1, fun hall => ?_⟩
  have hmem := List.getElem?_mem h1
  have := (hall _ hmem).1.2
  norm_num at this

/-- In exact real arithmetic, where `cos(-π/2) = 0` and `sin(-π/2) = -1`, the first
perimeter vertex of a polygon sits one radius below the centre. -/
theorem createPolygon_first_vertex (id : String) (now : ℕ) (center edge : Point ℝ) (n : ℕ)
    (color : String) :
    (createPolygon realMath id now center edge n color).vertices[1]? = some
      ⟨center.x, center.y - realMath.hypot (edge.x - center.x) (edge.y - center.y)⟩ := by
  rw [createPolygon_getElem?_one]
  simp only [realMath, Nat.cast_zero, zero_div, zero_mul, add_zero, neg_div, Real.cos_neg,
    Real.sin_neg, Real.cos_pi_div_two, Real.sin_pi_div_two, neg_mul, one_mul]
  rw [← sub_eq_add_neg]

/-- C9 (counterexample). The hexagon with centre (0, 0) and edge point (1, 0) has a
first perimeter vertex with logical y = -1: it is not above the centre, and on an
800 by 600 canvas at zoom 1 its display y is not smaller than the centre's. -/
theorem createPolygon_first_vertex_not_above :
    ∃ v : Point ℝ,
      (createPolygon realMath "shape_1" 0 ⟨0, 0⟩ ⟨1, 0⟩ 6 "#10b981").vertices[1]? = some v
      ∧ v.y = -1
      ∧ ¬ (0 < v.y)
      ∧ ¬ (ndcToScreen v.x v.y ⟨800, 600⟩ ⟨1, 0, 0⟩).y
          < (ndcToScreen (0 : ℝ) 0 ⟨800, 600⟩ ⟨1, 0, 0⟩).y := by
  have h1 : (createPolygon realMath "shape_1" 0 ⟨0, 0⟩ ⟨1, 0⟩ 6 "#10b981").vertices[1]?
      = some ⟨0, -1⟩ := by
    rw [createPolygon_first_vertex]
    have hr : realMath.hypot (1 - 0) (0 - 0) = 1 := by
      show Real.sqrt ((1 - 0 : ℝ) ^ 2 + (0 - 0) ^ 2) = 1
      rw [show ((1 - 0 : ℝ) ^ 2 + (0 - 0) ^ 2) = 1 by norm_num, Real.sqrt_one]
    rw [hr, zero_sub]
  refine ⟨⟨0, -1⟩, h1, rfl, by norm_num, ?_⟩
  norm_num [ndcToScreen]

/-- C9 (amended). For a `Math` object with `sin(-PI / 2) = -1`, a centre `c`, an edge
point at positive distance `r` from `c` and a side count `n ≥ 1`, the first
perimeter vertex emitted by `createPolygon` is
`(c.x + cos(-PI / 2) * r, c.y - r)`: its logical y is smaller than `c.y` by the
radius, so it lies below the centre, and on every valid viewport `ndcToScreen`
maps it to a larger display y than the centre.  Its x is that of `c` up to the
term `cos(-PI / 2) * r`. -/
theorem createPolygon_first_vertex_below (M : JSMath ℝ) (id : String) (now : ℕ)
    (center edge : Point ℝ) (n : ℕ) (color : String) (_hn : 1 ≤ n)
    (hsin : M.sin (-M.PI / 2) = -1)
    (hr : 0 < M.hypot (edge.x - center.x) (edge.y - center.y)) :
    (createPolygon M id now center edge n color).vertices[1]? = some
        ⟨center.x + M.cos (-M.PI / 2) * M.hypot (edge.x - center.x) (edge.y - center.y),
          center.y - M.hypot (edge.x - center.x) (edge.y - center.y)⟩
      ∧ center.y - M.hypot (edge.x - center.x) (edge.y - center.y) < center.y
      ∧ ∀ (canvas : Canvas ℝ) (viewport : Viewport ℝ),
          0 < min canvas.width canvas.height → 0 < viewport.zoom →
          (ndcToScreen center.x center.y canvas viewport).y
            < (ndcToScreen
                (center.x + M.cos (-M.PI / 2) * M.hypot (edge.x - center.x) (edge.y - center.y))
                (center.y - M.hypot (edge.x - center.x) (edge.y - center.y))
                canvas viewport).y := by
  refine ⟨?_, by linarith, ?_⟩
  · rw [createPolygon_getElem?_one]
    simp only [Nat.cast_zero, zero_div, zero_mul, add_zero, hsin, neg_mul, one_mul]
    rw [← sub_eq_add_neg]
  · intro canvas viewport hwh hz
    have hs : 0 < min canvas.width canvas.height / 2 * viewport.zoom :=
      mul_pos (div_pos hwh (by norm_num)) hz
    simp only [ndcToScreen]
    nlinarith [mul_pos hr hs]

/-- Witness for C9 (amended): the default hexagon around (0, 0) through (1, 0), in
exact real arithmetic. -/
theorem createPolygon_first_vertex_below_witness :
    (createPolygon realMath "shape_1" 0 ⟨0, 0⟩ ⟨1, 0⟩ 6 "#10b981").vertices[1]? = some
        ⟨0 + realMath.cos (-realMath.PI / 2) * realMath.hypot (1 - 0) (0 - 0),
          0 - realMath.hypot (1 - 0) (0 - 0)⟩
      ∧ (0 : ℝ) - realMath.hypot (1 - 0) (0 - 0) < 0 :=
  ⟨(createPolygon_first_vertex_below realMath "shape_1" 0 ⟨0, 0⟩ ⟨1, 0⟩ 6 "#10b981"
      (by norm_num)
      (by
        show Real.sin (-Real.pi / 2) = -1
        rw [neg_div, Real.sin_neg, Real.sin_pi_div_two])
      (by
        show 0 < Real.sqrt ((1 - 0 : ℝ) ^ 2 + (0 - 0) ^ 2)
        rw [show ((1 - 0 : ℝ) ^ 2 + (0 - 0) ^ 2) = 1 by norm_num, Real.sqrt_one]
        norm_num)).1,
    by
      show (0 : ℝ) - Real.sqrt ((1 - 0 : ℝ) ^ 2 + (0 - 0) ^ 2) < 0
      rw [show ((1 - 0 : ℝ) ^ 2 + (0 - 0) ^ 2) = 1 by norm_num, Real.sqrt_one]
      norm_num⟩

/-- An arc point lies within one radius of the arc's centre on each axis. -/
theorem arcPoint_bounds (cx cy r angle : ℝ) (hr : 0 ≤ r) :
    (cx - r ≤ (arcPoint realMath cx cy r angle).x ∧ (arcPoint realMath cx cy r angle).x ≤ cx + r)
      ∧ (cy - r ≤ (arcPoint realMath cx cy r angle).y
        ∧ (arcPoint realMath cx cy r angle).y ≤ cy + r) := by
  have hc1 := Real.neg_one_le_cos angle
  have hc2 := Real.cos_le_one angle
  have hs1 := Real.neg_one_le_sin angle
  have hs2 := Real.sin_le_one angle
  simp only [arcPoint, realMath]
  refine ⟨⟨?_, ?_⟩, ?_, ?_⟩ <;> nlinarith

/-- An arc whose circle fits into a box stays in the box. -/
theorem arcPoint_in_box (cx cy r angle a b c d : ℝ) (hr : 0 ≤ r)
    (h1 : a ≤ cx - r) (h2 : cx + r ≤ b) (h3 : c ≤ cy - r) (h4 : cy + r ≤ d) :
    (a ≤ (arcPoint realMath cx cy r angle).x ∧ (arcPoint realMath cx cy r angle).x ≤ b)
      ∧ (c ≤ (arcPoint realMath cx cy r angle).y ∧ (arcPoint realMath cx cy r angle).y ≤ d) := by
  obtain ⟨⟨hx1, hx2⟩, hy1, hy2⟩ := arcPoint_bounds cx cy r angle hr
  exact ⟨⟨le_trans h1 hx1, le_trans hx2 h2⟩, le_trans h3 hy1, le_trans hy2 h4⟩

/-- Every perimeter vertex of a rounded rectangle lies in the bounding box of the
two corner points (for a non-negative ratio). -/
theorem roundedRectangle_perimeter_bounds (p1 p2 : Point ℝ) (radiusRatio : ℝ) (segments : ℕ)
    (h0 : 0 ≤ radiusRatio) (v : Point ℝ)
    (hv : v ∈ (roundedRectangleVertices realMath p1 p2 radiusRatio segments).drop 1) :
    (min p1.x p2.x ≤ v.x ∧ v.x ≤ max p1.x p2.x)
      ∧ (min p1.y p2.y ≤ v.y ∧ v.y ≤ max p1.y p2.y) := by
  have hr := cornerRadiusOf_nonneg p1 p2 radiusRatio h0
  obtain ⟨hw, hh⟩ := cornerRadiusOf_le p1 p2 radiusRatio
  rw [roundedRectangleVertices_eq_fanList, mem_drop_fanList] at hv
  rcases hv with ⟨i, _, rfl⟩ | ⟨i, _, rfl⟩ | ⟨i, _, rfl⟩ | ⟨i, _, rfl⟩
  all_goals
    exact arcPoint_in_box _ _ _ _ _ _ _ _ hr (by linarith) (by linarith) (by linarith)
      (by linarith)

/-- The bounding box of the perimeter vertices of a rounded rectangle is the
bounding box of the two corner points. -/
theorem roundedRectangle_perimeter_min_max (p1 p2 : Point ℝ) (radiusRatio : ℝ) (segments : ℕ)
    (h0 : 0 ≤ radiusRatio) :
    (((roundedRectangleVertices realMath p1 p2 radiusRatio segments).drop 1).map
          (fun v => v.x)).min? = some (min p1.x p2.x)
      ∧ (((roundedRectangleVertices realMath p1 p2 radiusRatio segments).drop 1).map
          (fun v => v.y)).min? = some (min p1.y p2.y)
      ∧ (((roundedRectangleVertices realMath p1 p2 radiusRatio segments).drop 1).map
          (fun v => v.x)).max? = some (max p1.x p2.x)
      ∧ (((roundedRectangleVertices realMath p1 p2 radiusRatio segments).drop 1).map
          (fun v => v.y)).max? = some (max p1.y p2.y) := by
  have hb := roundedRectangle_perimeter_bounds p1 p2 radiusRatio segments h0
  rw [roundedRectangleVertices_eq_fanList] at hb ⊢
  refine ⟨min?_eq_some_of ?_ ?_, min?_eq_some_of ?_ ?_, max?_eq_some_of ?_ ?_,
    max?_eq_some_of ?_ ?_⟩
  · refine List.mem_map.mpr ⟨_, (mem_drop_fanList _ _ _ _ _ _ _ _).mpr (Or.inr (Or.inr (Or.inl ⟨0, Nat.zero_le _, rfl⟩))), ?_⟩
    simp [arcPoint, realMath]
  · intro b hb'
    obtain ⟨v, hv, rfl⟩ := List.mem_map.mp hb'
    exact (hb v hv).1.1
  · refine List.mem_map.mpr ⟨_, (mem_drop_fanList _ _ _ _ _ _ _ _).mpr (Or.inr (Or.inr (Or.inr ⟨0, Nat.zero_le _, rfl⟩))), ?_⟩
    have h32 : Real.sin (3 * Real.pi / 2) = -1 := by
      rw [show 3 * Real.pi / 2 = Real.pi / 2 + Real.pi by ring, Real.sin_add_pi,
        Real.sin_pi_div_two]
    simp [arcPoint, realMath, h32]
  · intro b hb'
    obtain ⟨v, hv, rfl⟩ := List.mem_map.mp hb'
    exact (hb v hv).2.1
  · refine List.mem_map.mpr ⟨_, (mem_drop_fanList _ _ _ _ _ _ _ _).mpr (Or.inl ⟨0, Nat.zero_le _, rfl⟩), ?_⟩
    simp [arcPoint, realMath]
  · intro b hb'
    obtain ⟨v, hv, rfl⟩ := List.mem_map.mp hb'
    exact (hb v hv).1.2
  · refine List.mem_map.mpr ⟨_, (mem_drop_fanList _ _ _ _ _ _ _ _).mpr (Or.inr (Or.inl ⟨0, Nat.zero_le _, rfl⟩)), ?_⟩
    simp [arcPoint, realMath]
  · intro b hb'
    obtain ⟨v, hv, rfl⟩ := List.mem_map.mp hb'
    exact (hb v hv).2.2

/-- In exact real arithmetic: for a ratio in `[0, 0.5]` and `s ≥ 1` segments, the shape
`S = createRoundedRectangle(p1, p2, ratio, s)` stores `ratio` and `s` as its
metadata, and the body of the Regenerate Corners handler run on `S` with the new
radius `ratio` and the new segment count `s` returns `S` itself.  Which values
the handler reads from the sliders is the subject of `regenerateFromInspector`. -/
theorem regenerateCorners_roundtrip (id id' : String) (now now' : ℕ) (p1 p2 : Point ℝ)
    (radiusRatio : ℝ) (segments : ℕ) (color : String)
    (h0 : 0 ≤ radiusRatio) (_h1 : radiusRatio ≤ 1 / 2) (_hs : 1 ≤ segments) :
    (createRoundedRectangle realMath id now p1 p2 radiusRatio segments color).cornerRadius
        = some radiusRatio
      ∧ (createRoundedRectangle realMath id now p1 p2 radiusRatio segments color).cornerSegments
        = some segments
      ∧ regenerateCorners realMath id' now'
          (createRoundedRectangle realMath id now p1 p2 radiusRatio segments color)
          radiusRatio segments
        = some (createRoundedRectangle realMath id now p1 p2 radiusRatio segments color)
      ∧ ∃ S', regenerateCorners realMath id' now'
          (createRoundedRectangle realMath id now p1 p2 radiusRatio segments color)
          radiusRatio segments = some S'
        ∧ S'.vertices
          = (createRoundedRectangle realMath id now p1 p2 radiusRatio segments color).vertices := by
  obtain ⟨hx1, hy1, hx2, hy2⟩ :=
    roundedRectangle_perimeter_min_max p1 p2 radiusRatio segments h0
  have key : regenerateCorners realMath id' now'
      (createRoundedRectangle realMath id now p1 p2 radiusRatio segments color)
      radiusRatio segments
      = some (createRoundedRectangle realMath id now p1 p2 radiusRatio segments color) := by
    simp only [regenerateCorners, createRoundedRectangle, hx1, hy1, hx2, hy2,
      roundedRectangleVertices_bbox]
  exact ⟨rfl, rfl, key, _, key, rfl⟩

/-- An instance of `regenerateCorners_roundtrip`: the box with corners (0, 0) and
(2, 1), ratio 1/4, 8 segments. -/
theorem regenerateCorners_roundtrip_witness :
    regenerateCorners realMath "shape_2" 1
        (createRoundedRectangle realMath "shape_1" 0 ⟨0, 0⟩ ⟨2, 1⟩ (1 / 4) 8 "#10b981")
        (1 / 4) 8
      = some (createRoundedRectangle realMath "shape_1" 0 ⟨0, 0⟩ ⟨2, 1⟩ (1 / 4) 8 "#10b981") :=
  (regenerateCorners_roundtrip "shape_1" "shape_2" 0 1 ⟨0, 0⟩ ⟨2, 1⟩ (1 / 4) 8 "#10b981"
    (by norm_num) (by norm_num) (by norm_num)).2.2.1

end RealTheorems

/-! ## Theorems: hit testing -/

section HitTestTheorems

variable {K : Type} [LinearOrderedField K]

/-- The loop returns a shape exactly when that shape is hit and all shapes before it
in the traversal are not. -/
theorem hitTestLoop_eq_some_some (M : JSMath K) (screenX screenY : K) (canvas : Canvas K)
    (viewport : Viewport K) (l : List (Shape K)) (s : Shape K) :
    hitTestLoop M screenX screenY canvas viewport l = some (some s)
      ↔ ∃ l1 l2, l = l1 ++ s :: l2
        ∧ pointInShape M screenX screenY s canvas viewport = some true
        ∧ ∀ x ∈ l1, pointInShape M screenX screenY x canvas viewport = some false := by
  induction l with
  | nil => simp [hitTestLoop]
  | cons a rest ih =>
    unfold hitTestLoop
    cases ha : pointInShape M screenX screenY a canvas viewport with
    | none =>
      simp only [false_iff, reduceCtorEq]
      rintro ⟨l1, l2, hl, hs, hall⟩
      cases l1 with
      | nil =>
        simp only [List.nil_append, List.cons.injEq] at hl
        rw [hl.1, hs] at ha
        cases ha
      | cons b l1 =>
        simp only [List.cons_append, List.cons.injEq] at hl
        have := hall b (List.mem_cons_self _ _)
        rw [← hl.1, ha] at this
        cases this
    | some b =>
      cases b with
      | true =>
        simp only [Option.some.injEq]
        constructor
        · intro h
          subst h
          exact ⟨[], rest, rfl, ha, fun x hx => absurd hx (List.not_mem_nil x)⟩
        · rintro ⟨l1, l2, hl, hs, hall⟩
          cases l1 with
          | nil =>
            simp only [List.nil_append, List.cons.injEq] at hl
            exact hl.1
          | cons c l1 =>
            simp only [List.cons_append, List.cons.injEq] at hl
            have := hall c (List.mem_cons_self _ _)
            rw [← hl.1, ha] at this
            cases this
      | false =>
        simp only []
        rw [ih]
        constructor
        · rintro ⟨l1, l2, hl, hs, hall⟩
          refine ⟨a :: l1, l2, by rw [hl]; rfl, hs, ?_⟩
          intro x hx
          rcases List.mem_cons.mp hx with rfl | hx
          · exact ha
          · exact hall x hx
        · rintro ⟨l1, l2, hl, hs, hall⟩
          cases l1 with
          | nil =>
            simp only [List.nil_append, List.cons.injEq] at hl
            rw [hl.1, hs] at ha
            cases ha
          | cons c l1 =>
            simp only [List.cons_append, List.cons.injEq] at hl
            exact ⟨l1, l2, hl.2, hs, fun x hx => hall x (List.mem_cons_of_mem _ hx)⟩

/-- The loop returns `null` exactly when no shape is hit. -/
theorem hitTestLoop_eq_some_none (M : JSMath K) (screenX screenY : K) (canvas : Canvas K)
    (viewport : Viewport K) (l : List (Shape K)) :
    hitTestLoop M screenX screenY canvas viewport l = some none
      ↔ ∀ x ∈ l, pointInShape M screenX screenY x canvas viewport = some false := by
  induction l with
  | nil => simp [hitTestLoop]
  | cons a rest ih =>
    unfold hitTestLoop
    cases ha : pointInShape M screenX screenY a canvas viewport with
    | none => simp [ha]
    | some b =>
      cases b with
      | true => simp [ha]
      | false => simp [ha, ih]

/-- C11. `hitTest` returns shape `s` exactly when the list splits as
`below ++ s :: above` (so `s` sits at index `below.length`) with `pointInShape`
true for `s` and false for every shape of `above`, the shapes at a greater
index; it returns `null` exactly when `pointInShape` is false for every shape of
the list. -/
theorem hitTest_topmost (M : JSMath K) (screenX screenY : K) (shapes : List (Shape K))
    (canvas : Canvas K) (viewport : Viewport K) :
    (∀ s, hitTest M screenX screenY shapes canvas viewport = some (some s)
        ↔ ∃ below above, shapes = below ++ s :: above
          ∧ shapes[below.length]? = some s
          ∧ pointInShape M screenX screenY s canvas viewport = some true
          ∧ ∀ x ∈ above, pointInShape M screenX screenY x canvas viewport = some false)
      ∧ (hitTest M screenX screenY shapes canvas viewport = some none
        ↔ ∀ x ∈ shapes, pointInShape M screenX screenY x canvas viewport = some false) := by
  constructor
  · intro s
    unfold hitTest
    rw [hitTestLoop_eq_some_some]
    constructor
    · rintro ⟨l1, l2, hl, hs, hall⟩
      have hsh : shapes = l2.reverse ++ s :: l1.reverse := by
        have := congrArg List.reverse hl
        simpa using this
      refine ⟨l2.reverse, l1.reverse, hsh, ?_, hs, fun x hx => hall x (List.mem_reverse.mp hx)⟩
      rw [hsh, List.getElem?_append_right (by simp)]
      simp
    · rintro ⟨below, above, hsh, _, hs, hall⟩
      refine ⟨above.reverse, below.reverse, ?_, hs, fun x hx => hall x (List.mem_reverse.mp hx)⟩
      rw [hsh]
      simp
  · unfold hitTest
    rw [hitTestLoop_eq_some_none]
    simp

/-- The hit test returns (does not throw) when `pointInShape` returns on every shape. -/
theorem hitTest_isSome (M : JSMath K) (screenX screenY : K) (shapes : List (Shape K))
    (canvas : Canvas K) (viewport : Viewport K)
    (h : ∀ x ∈ shapes, (pointInShape M screenX screenY x canvas viewport).isSome) :
    (hitTest M screenX screenY shapes canvas viewport).isSome := by
  unfold hitTest
  have h' : ∀ x ∈ shapes.reverse, (pointInShape M screenX screenY x canvas viewport).isSome :=
    fun x hx => h x (List.mem_reverse.mp hx)
  generalize shapes.reverse = l at h'
  induction l with
  | nil => rfl
  | cons a rest ih =>
    unfold hitTestLoop
    have ha := h' a (List.mem_cons_self _ _)
    cases hp : pointInShape M screenX screenY a canvas viewport with
    | none => rw [hp] at ha; cases ha
    | some b =>
      cases b with
      | true => rfl
      | false => exact ih (fun x hx => h' x (List.mem_cons_of_mem _ hx))

end HitTestTheorems

/-! ## Theorems: hit testing in exact real arithmetic -/

section HitTestRealTheorems

/-- The clamped projection parameter minimises the squared distance to the segment. -/
theorem clamped_projection_min (a b dx dy s : ℝ) (hL : 0 < dx ^ 2 + dy ^ 2)
    (hs0 : 0 ≤ s) (hs1 : s ≤ 1) :
    (a - max 0 (min 1 ((a * dx + b * dy) / (dx ^ 2 + dy ^ 2))) * dx) ^ 2
        + (b - max 0 (min 1 ((a * dx + b * dy) / (dx ^ 2 + dy ^ 2))) * dy) ^ 2
      ≤ (a - s * dx) ^ 2 + (b - s * dy) ^ 2 := by
  have hc : a * dx + b * dy = (a * dx + b * dy) / (dx ^ 2 + dy ^ 2) * (dx ^ 2 + dy ^ 2) := by
    field_simp
  generalize (a * dx + b * dy) / (dx ^ 2 + dy ^ 2) = u at hc
  rcases le_total u 0 with hu | hu
  · have ht : max 0 (min 1 u) = 0 := by
      rw [min_eq_right (le_trans hu zero_le_one), max_eq_left hu]
    rw [ht]
    have hc0 : a * dx + b * dy ≤ 0 := by
      rw [hc]; exact mul_nonpos_of_nonpos_of_nonneg hu hL.le
    nlinarith [mul_nonneg hs0 hL.le, mul_nonneg hs0 (neg_nonneg.mpr hc0), mul_nonneg hs0 hs0]
  · rcases le_total u 1 with hu1 | hu1
    · have ht : max 0 (min 1 u) = u := by
        rw [min_eq_right hu1, max_eq_right hu]
      rw [ht]
      nlinarith [mul_nonneg (sq_nonneg (s - u)) hL.le]
    · have ht : max 0 (min 1 u) = 1 := by
        rw [min_eq_left hu1, max_eq_right zero_le_one]
      rw [ht]
      have hc1 : dx ^ 2 + dy ^ 2 ≤ a * dx + b * dy := by
        rw [hc]; nlinarith
      nlinarith [mul_nonneg (sub_nonneg.mpr hs1) (sub_nonneg.mpr hc1),
        mul_nonneg (mul_nonneg (sub_nonneg.mpr hs1) (sub_nonneg.mpr hs1)) hL.le]

/-- C12. For a display point `P` and two vertices with display images `P1`, `P2`
(possibly equal), the distances from `P` to the points `P1 + s (P2 - P1)`,
`0 ≤ s ≤ 1`, of the closed segment have a least element `d`, and `pointNearLine`
returns true exactly when `d` is below the threshold; hence `pointInShape` holds
for a 'line' shape with these two vertices exactly when `d < 10`. -/
theorem pointNearLine_iff_segment_dist (px py : ℝ) (v1 v2 : Point ℝ) (canvas : Canvas ℝ)
    (viewport : Viewport ℝ) :
    ∃ d : ℝ,
      IsLeast {r | ∃ s : ℝ, 0 ≤ s ∧ s ≤ 1 ∧ r = Real.sqrt
        ((px - ((ndcToScreen v1.x v1.y canvas viewport).x
            + s * ((ndcToScreen v2.x v2.y canvas viewport).x
              - (ndcToScreen v1.x v1.y canvas viewport).x))) ^ 2
          + (py - ((ndcToScreen v1.x v1.y canvas viewport).y
            + s * ((ndcToScreen v2.x v2.y canvas viewport).y
              - (ndcToScreen v1.x v1.y canvas viewport).y))) ^ 2)} d
      ∧ (∀ threshold : ℝ,
          pointNearLine realMath px py v1 v2 threshold canvas viewport = true ↔ d < threshold)
      ∧ (∀ shape : Shape ℝ, shape.type = "line" → shape.vertices[0]? = some v1 →
          shape.vertices[1]? = some v2 →
          (pointInShape realMath px py shape canvas viewport = some true ↔ d < 10)) := by
  generalize hP1 : ndcToScreen v1.x v1.y canvas viewport = P1
  generalize hP2 : ndcToScreen v2.x v2.y canvas viewport = P2
  have hshape : ∀ d : ℝ,
      (∀ threshold : ℝ,
        pointNearLine realMath px py v1 v2 threshold canvas viewport = true ↔ d < threshold) →
      ∀ shape : Shape ℝ, shape.type = "line" → shape.vertices[0]? = some v1 →
        shape.vertices[1]? = some v2 →
        (pointInShape realMath px py shape canvas viewport = some true ↔ d < 10) := by
    intro d hd shape ht h0 h1
    have hnp : ("line" : String) ≠ "point" := by decide
    simp only [pointInShape, ht, hnp, h0, h1, if_false, if_true, Option.some.injEq]
    exact hd 10
  by_cases hlen : Real.sqrt ((P2.x - P1.x) ^ 2 + (P2.y - P1.y) ^ 2) = 0
  · have hsum : (P2.x - P1.x) ^ 2 + (P2.y - P1.y) ^ 2 = 0 :=
      (Real.sqrt_eq_zero (add_nonneg (sq_nonneg _) (sq_nonneg _))).mp hlen
    have hdx : P2.x - P1.x = 0 := by nlinarith [sq_nonneg (P2.x - P1.x), sq_nonneg (P2.y - P1.y)]
    have hdy : P2.y - P1.y = 0 := by nlinarith [sq_nonneg (P2.x - P1.x), sq_nonneg (P2.y - P1.y)]
    have hnear : ∀ threshold : ℝ,
        pointNearLine realMath px py v1 v2 threshold canvas viewport = true
          ↔ Real.sqrt ((px - P1.x) ^ 2 + (py - P1.y) ^ 2) < threshold := by
      intro threshold
      simp only [pointNearLine, realMath, hP1, hP2, hlen, if_true, decide_eq_true_eq]
    refine ⟨Real.sqrt ((px - P1.x) ^ 2 + (py - P1.y) ^ 2), ⟨?_, ?_⟩, hnear, hshape _ hnear⟩
    · exact ⟨0, le_rfl, zero_le_one, by simp⟩
    · rintro r ⟨s, _, _, rfl⟩
      rw [hdx, hdy]
      simp
  · have hL : 0 < (P2.x - P1.x) ^ 2 + (P2.y - P1.y) ^ 2 := by
      rcases (add_nonneg (sq_nonneg (P2.x - P1.x)) (sq_nonneg (P2.y - P1.y))).lt_or_eq
        with h | h
      · exact h
      · exact absurd (by rw [← h, Real.sqrt_zero]) hlen
    have hmul : Real.sqrt ((P2.x - P1.x) ^ 2 + (P2.y - P1.y) ^ 2)
        * Real.sqrt ((P2.x - P1.x) ^ 2 + (P2.y - P1.y) ^ 2)
        = (P2.x - P1.x) ^ 2 + (P2.y - P1.y) ^ 2 := Real.mul_self_sqrt hL.le
    have hnear : ∀ threshold : ℝ,
        pointNearLine realMath px py v1 v2 threshold canvas viewport = true
          ↔ Real.sqrt ((px - (P1.x
              + max 0 (min 1 (((px - P1.x) * (P2.x - P1.x) + (py - P1.y) * (P2.y - P1.y))
                / ((P2.x - P1.x) ^ 2 + (P2.y - P1.y) ^ 2))) * (P2.x - P1.x))) ^ 2
            + (py - (P1.y
              + max 0 (min 1 (((px - P1.x) * (P2.x - P1.x) + (py - P1.y) * (P2.y - P1.y))
                / ((P2.x - P1.x) ^ 2 + (P2.y - P1.y) ^ 2))) * (P2.y - P1.y))) ^ 2)
            < threshold := by
      intro threshold
      simp only [pointNearLine, realMath, hP1, hP2, hlen, if_false, decide_eq_true_eq, hmul]
    refine ⟨_, ⟨?_, ?_⟩, hnear, hshape _ hnear⟩
    · exact ⟨_, le_max_left _ _, max_le zero_le_one (min_le_left _ _), rfl⟩
    · rintro r ⟨s, hs0, hs1, rfl⟩
      apply Real.sqrt_le_sqrt
      have key := clamped_projection_min (px - P1.x) (py - P1.y) (P2.x - P1.x) (P2.y - P1.y) s
        hL hs0 hs1
      have e1 : ∀ t : ℝ, (px - (P1.x + t * (P2.x - P1.x))) ^ 2
          + (py - (P1.y + t * (P2.y - P1.y))) ^ 2
          = (px - P1.x - t * (P2.x - P1.x)) ^ 2 + (py - P1.y - t * (P2.y - P1.y)) ^ 2 := by
        intro t; ring
      rw [e1, e1]
      exact key

end HitTestRealTheorems

/-! ## Theorems: the ray-crossing test -/

section PolygonTheorems

variable {K : Type} [LinearOrderedField K]

/-- Where an edge straddles the horizontal line through the test point, the
interpolated x lies between the x of its two end points. -/
theorem crossing_x_between (xi yi xj yj py : K)
    (h : (decide (yi > py) != decide (yj > py)) = true) :
    min xi xj ≤ (xj - xi) * (py - yi) / (yj - yi) + xi
      ∧ (xj - xi) * (py - yi) / (yj - yi) + xi ≤ max xi xj := by
  have ht : 0 ≤ (py - yi) / (yj - yi) ∧ (py - yi) / (yj - yi) ≤ 1 := by
    by_cases hi : yi > py
    · have hj : ¬ yj > py := by
        intro hj
        simp [hi, hj] at h
      have hj' : yj ≤ py := not_lt.mp hj
      have hneg : yj - yi < 0 := by linarith
      constructor
      · exact div_nonneg_of_nonpos (by linarith) hneg.le
      · rw [div_le_one_of_neg hneg]
        linarith
    · have hj : yj > py := by
        by_contra hj
        simp [hi, hj] at h
      have hi' : yi ≤ py := not_lt.mp hi
      have hpos : 0 < yj - yi := by linarith
      constructor
      · exact div_nonneg (by linarith) hpos.le
      · rw [div_le_one hpos]
        linarith
  rw [mul_div_assoc]
  generalize (py - yi) / (yj - yi) = t at ht
  obtain ⟨ht0, ht1⟩ := ht
  rcases le_total xi xj with hx | hx
  · rw [min_eq_left hx, max_eq_right hx]
    constructor
    · nlinarith [mul_nonneg (sub_nonneg.mpr hx) ht0]
    · nlinarith [mul_nonneg (sub_nonneg.mpr hx) (sub_nonneg.mpr ht1)]
  · rw [min_eq_right hx, max_eq_left hx]
    constructor
    · nlinarith [mul_nonneg (sub_nonneg.mpr hx) (sub_nonneg.mpr ht1)]
    · nlinarith [mul_nonneg (sub_nonneg.mpr hx) ht0]

/-- No edge between two vertices left of the test point counts as a crossing. -/
theorem edgeCrossing_of_right (px py : K) (vi vj : Point K) (hi : vi.x < px) (hj : vj.x < px) :
    edgeCrossing px py vi vj = false := by
  unfold edgeCrossing
  by_cases h : (decide (vi.y > py) != decide (vj.y > py)) = true
  · have hb := (crossing_x_between vi.x vi.y vj.x vj.y py h).2
    have hlt : ¬ px < (vj.x - vi.x) * (py - vi.y) / (vj.y - vi.y) + vi.x :=
      not_lt.mpr (le_trans hb (le_of_lt (max_lt hi hj)))
    simp [hlt]
  · simp only [Bool.not_eq_true] at h
    simp [h]

/-- An edge between two vertices right of the test point counts as a crossing exactly
when it straddles the horizontal line through the test point. -/
theorem edgeCrossing_of_left (px py : K) (vi vj : Point K) (hi : px < vi.x) (hj : px < vj.x) :
    edgeCrossing px py vi vj = (decide (vi.y > py) != decide (vj.y > py)) := by
  unfold edgeCrossing
  by_cases h : (decide (vi.y > py) != decide (vj.y > py)) = true
  · have hb := (crossing_x_between vi.x vi.y vj.x vj.y py h).1
    have hlt : px < (vj.x - vi.x) * (py - vi.y) / (vj.y - vi.y) + vi.x :=
      lt_of_lt_of_le (lt_min hi hj) hb
    simp [hlt]
  · simp only [Bool.not_eq_true] at h
    simp [h]

/-- No edge between two vertices on the same side of the horizontal line through the
test point counts as a crossing. -/
theorem edgeCrossing_of_same_side (px py : K) (vi vj : Point K)
    (h : decide (vi.y > py) = decide (vj.y > py)) : edgeCrossing px py vi vj = false := by
  unfold edgeCrossing
  rw [h]
  simp

/-- The loop leaves `inside` alone when no edge counts. -/
theorem pointInPolygonLoop_of_no_crossing (px py : K) (l : List (Point K)) :
    ∀ (vj : Point K) (inside : Bool),
      (∀ a ∈ vj :: l, ∀ b ∈ vj :: l, edgeCrossing px py a b = false) →
      pointInPolygonLoop px py vj l inside = inside := by
  induction l with
  | nil => intro vj inside _; rfl
  | cons vi rest ih =>
    intro vj inside h
    unfold pointInPolygonLoop
    rw [h vi (by simp) vj (by simp)]
    simp only [Bool.false_eq_true, if_false]
    exact ih vi inside (fun a ha b hb =>
      h a (List.mem_cons_of_mem _ ha) b (List.mem_cons_of_mem _ hb))

/-- When every edge counts exactly if it straddles, the loop toggles `inside` once per
side change, and the side changes along a path telescope. -/
theorem pointInPolygonLoop_of_straddle (px py : K) (l : List (Point K)) :
    ∀ (vj : Point K) (inside : Bool),
      (∀ a ∈ vj :: l, ∀ b ∈ vj :: l,
        edgeCrossing px py a b = (decide (a.y > py) != decide (b.y > py))) →
      pointInPolygonLoop px py vj l inside
        = (inside != (decide (vj.y > py) != decide ((l.getLastD vj).y > py))) := by
  induction l with
  | nil =>
    intro vj inside _
    simp [pointInPolygonLoop]
  | cons vi rest ih =>
    intro vj inside h
    unfold pointInPolygonLoop
    rw [ih vi _ (fun a ha b hb =>
      h a (List.mem_cons_of_mem _ ha) b (List.mem_cons_of_mem _ hb)),
      h vi (by simp) vj (by simp)]
    have hlast : (vi :: rest).getLastD vj = rest.getLastD vi := by
      cases rest <;> simp [List.getLastD]
    rw [hlast]
    cases decide (vi.y > py) <;> cases decide (vj.y > py) <;> cases inside
      <;> cases decide ((rest.getLastD vi).y > py) <;> rfl

/-- C13 (amended). In exact arithmetic (every ordered field, the reals among them): on
a valid viewport, a display point that lies strictly outside the bounding box of
the transformed vertices (left of all of them, right of all of them, above all of
them or below all of them) is reported outside by `pointInPolygon`. -/
theorem pointInPolygon_outside_bbox (px py : K) (vertices : List (Point K))
    (canvas : Canvas K) (viewport : Viewport K)
    (_hwh : 0 < min canvas.width canvas.height) (_hz : 0 < viewport.zoom)
    (hout : (∀ v ∈ vertices, px < (ndcToScreen v.x v.y canvas viewport).x)
      ∨ (∀ v ∈ vertices, (ndcToScreen v.x v.y canvas viewport).x < px)
      ∨ (∀ v ∈ vertices, py < (ndcToScreen v.x v.y canvas viewport).y)
      ∨ (∀ v ∈ vertices, (ndcToScreen v.x v.y canvas viewport).y < py)) :
    pointInPolygon px py vertices canvas viewport = false := by
  unfold pointInPolygon
  generalize hsv : (vertices.map fun v => ndcToScreen v.x v.y canvas viewport) = sv
  have hmem : ∀ p ∈ sv, ∃ v ∈ vertices, ndcToScreen v.x v.y canvas viewport = p := by
    intro p hp
    rw [← hsv] at hp
    exact List.mem_map.mp hp
  cases hlast : sv.getLast? with
  | none => simp only [hlast]
  | some last =>
    have hlastmem : last ∈ sv := List.mem_of_getLast?_eq_some hlast
    have hall : ∀ a ∈ last :: sv, a ∈ sv := by
      intro a ha
      rcases List.mem_cons.mp ha with rfl | ha
      · exact hlastmem
      · exact ha
    simp only [hlast]
    rcases hout with h | h | h | h
    · have hx : ∀ a ∈ last :: sv, px < a.x := by
        intro a ha
        obtain ⟨v, hv, rfl⟩ := hmem a (hall a ha)
        exact h v hv
      rw [pointInPolygonLoop_of_straddle px py sv last false (fun a ha b hb =>
        edgeCrossing_of_left px py a b (hx a ha) (hx b hb))]
      have hgl : sv.getLastD last = last := by
        rw [List.getLastD_eq_getLast?, hlast]
        rfl
      rw [hgl]
      cases decide (last.y > py) <;> rfl
    · have hx : ∀ a ∈ last :: sv, a.x < px := by
        intro a ha
        obtain ⟨v, hv, rfl⟩ := hmem a (hall a ha)
        exact h v hv
      exact pointInPolygonLoop_of_no_crossing px py sv last false (fun a ha b hb =>
        edgeCrossing_of_right px py a b (hx a ha) (hx b hb))
    · have hy : ∀ a ∈ last :: sv, decide (a.y > py) = true := by
        intro a ha
        obtain ⟨v, hv, rfl⟩ := hmem a (hall a ha)
        exact decide_eq_true (h v hv)
      exact pointInPolygonLoop_of_no_crossing px py sv last false (fun a ha b hb =>
        edgeCrossing_of_same_side px py a b ((hy a ha).trans (hy b hb).symm))
    · have hy : ∀ a ∈ last :: sv, decide (a.y > py) = false := by
        intro a ha
        obtain ⟨v, hv, rfl⟩ := hmem a (hall a ha)
        exact decide_eq_false (not_lt.mpr (le_of_lt (h v hv)))
      exact pointInPolygonLoop_of_no_crossing px py sv last false (fun a ha b hb =>
        edgeCrossing_of_same_side px py a b ((hy a ha).trans (hy b hb).symm))

end PolygonTheorems

/-! ## Theorems: the centroid of a rectangle -/

section RectangleHitTheorems

variable {K : Type} [LinearOrderedField K]

/-- The ray-crossing loop over the ring of a rectangle `[a, b] × [c, d]` shown at
scale `s` around `(cx, cy)` reports the image of the centre inside: only the edge
from `(b, c)` to `(b, d)` counts (the two diagonal edges meet the ray exactly at
the test point, which is not strictly to their left). -/
theorem pointInPolygonLoop_rectangle_centre (cx cy s a b c d : K) (hs : 0 < s) (hab : a < b)
    (hcd : c < d) :
    pointInPolygonLoop (cx + (a + b) / 2 * s) (cy - (c + d) / 2 * s)
      (⟨cx + a * s, cy - d * s⟩ : Point K)
      [⟨cx + a * s, cy - c * s⟩, ⟨cx + b * s, cy - c * s⟩, ⟨cx + b * s, cy - d * s⟩,
        ⟨cx + a * s, cy - c * s⟩, ⟨cx + b * s, cy - d * s⟩, ⟨cx + a * s, cy - d * s⟩]
      false = true := by
  have hcs : c * s < d * s := mul_lt_mul_of_pos_right hcd hs
  have has : a * s < b * s := mul_lt_mul_of_pos_right hab hs
  have hmy : (c + d) / 2 * s = (c * s + d * s) / 2 := by ring
  have hmx : (a + b) / 2 * s = (a * s + b * s) / 2 := by ring
  have hlow : cy - c * s > cy - (c + d) / 2 * s := by rw [hmy]; linarith
  have hhigh : ¬ cy - d * s > cy - (c + d) / 2 * s := by rw [hmy]; intro h; linarith
  have hdiag1 : (cx + b * s - (cx + a * s)) * (cy - (c + d) / 2 * s - (cy - c * s))
      / (cy - d * s - (cy - c * s)) + (cx + a * s) = cx + (a + b) / 2 * s := by
    have h1 : cy - d * s - (cy - c * s) = (c - d) * s := by ring
    have h2 : cy - (c + d) / 2 * s - (cy - c * s) = (c - d) * s / 2 := by ring
    have hne : (c - d) * s ≠ 0 := mul_ne_zero (sub_ne_zero.mpr hcd.ne) hs.ne'
    rw [h1, h2]
    field_simp
    ring
  have hdiag2 : (cx + a * s - (cx + b * s)) * (cy - (c + d) / 2 * s - (cy - d * s))
      / (cy - c * s - (cy - d * s)) + (cx + b * s) = cx + (a + b) / 2 * s := by
    have h1 : cy - c * s - (cy - d * s) = (d - c) * s := by ring
    have h2 : cy - (c + d) / 2 * s - (cy - d * s) = (d - c) * s / 2 := by ring
    have hne : (d - c) * s ≠ 0 := mul_ne_zero (sub_ne_zero.mpr hcd.ne') hs.ne'
    rw [h1, h2]
    field_simp
    ring
  have e1 : edgeCrossing (cx + (a + b) / 2 * s) (cy - (c + d) / 2 * s)
      (⟨cx + a * s, cy - c * s⟩ : Point K) ⟨cx + a * s, cy - d * s⟩ = false := by
    have hx : ¬ cx + (a + b) / 2 * s < cx + a * s := by rw [hmx]; intro h; linarith
    simp [edgeCrossing, hx]
  have e2 : edgeCrossing (cx + (a + b) / 2 * s) (cy - (c + d) / 2 * s)
      (⟨cx + b * s, cy - c * s⟩ : Point K) ⟨cx + a * s, cy - c * s⟩ = false :=
    edgeCrossing_of_same_side _ _ _ _ rfl
  have e3 : edgeCrossing (cx + (a + b) / 2 * s) (cy - (c + d) / 2 * s)
      (⟨cx + b * s, cy - d * s⟩ : Point K) ⟨cx + b * s, cy - c * s⟩ = true := by
    have hx : cx + (a + b) / 2 * s < cx + b * s := by rw [hmx]; linarith
    simp only [edgeCrossing, gt_iff_lt, sub_self, zero_mul, zero_div, zero_add, hx,
      decide_True, Bool.and_true, bne_iff_ne, ne_eq, decide_eq_decide]
    intro h
    exact hhigh (h.mpr hlow)
  have e4 : edgeCrossing (cx + (a + b) / 2 * s) (cy - (c + d) / 2 * s)
      (⟨cx + a * s, cy - c * s⟩ : Point K) ⟨cx + b * s, cy - d * s⟩ = false := by
    simp only [edgeCrossing, hdiag1, lt_self_iff_false, decide_False, Bool.and_false]
  have e5 : edgeCrossing (cx + (a + b) / 2 * s) (cy - (c + d) / 2 * s)
      (⟨cx + b * s, cy - d * s⟩ : Point K) ⟨cx + a * s, cy - c * s⟩ = false := by
    simp only [edgeCrossing, hdiag2, lt_self_iff_false, decide_False, Bool.and_false]
  have e6 : edgeCrossing (cx + (a + b) / 2 * s) (cy - (c + d) / 2 * s)
      (⟨cx + a * s, cy - d * s⟩ : Point K) ⟨cx + b * s, cy - d * s⟩ = false :=
    edgeCrossing_of_same_side _ _ _ _ rfl
  simp [pointInPolygonLoop, e1, e2, e3, e4, e5, e6]

/-- A 'rectangle' shape is hit where the ray-crossing test on its ring succeeds. -/
theorem pointInShape_rectangle (M : JSMath K) (px py : K) (id : String) (now : ℕ)
    (p1 p2 : Point K) (color : String) (canvas : Canvas K) (viewport : Viewport K)
    (hin : pointInPolygon px py (createRectangle id now p1 p2 color).vertices canvas viewport
      = true) :
    pointInShape M px py (createRectangle id now p1 p2 color) canvas viewport = some true := by
  have ht : (createRectangle id now p1 p2 color).type = "rectangle" := rfl
  have h1 : ("rectangle" : String) ≠ "point" := by decide
  have h2 : ("rectangle" : String) ≠ "line" := by decide
  have h3 : ("rectangle" : String) ≠ "polyline" := by decide
  have h4 : ("rectangle" : String) ≠ "lineloop" := by decide
  unfold pointInShape
  simp only [ht, h1, h2, h3, h4, if_false, or_self, hin]

/-- The centroid of a non-degenerate rectangle is inside its ring, and a scene holding
only the rectangle is hit there. -/
theorem rectangle_centroid_hit (M : JSMath K) (id : String) (now : ℕ) (p1 p2 : Point K)
    (color : String) (canvas : Canvas K) (viewport : Viewport K)
    (hx : p1.x ≠ p2.x) (hy : p1.y ≠ p2.y)
    (hwh : 0 < min canvas.width canvas.height) (hz : 0 < viewport.zoom) :
    pointInPolygon
        (ndcToScreen ((min p1.x p2.x + max p1.x p2.x) / 2) ((min p1.y p2.y + max p1.y p2.y) / 2)
          canvas viewport).x
        (ndcToScreen ((min p1.x p2.x + max p1.x p2.x) / 2) ((min p1.y p2.y + max p1.y p2.y) / 2)
          canvas viewport).y
        (createRectangle id now p1 p2 color).vertices canvas viewport = true
      ∧ hitTest M
        (ndcToScreen ((min p1.x p2.x + max p1.x p2.x) / 2) ((min p1.y p2.y + max p1.y p2.y) / 2)
          canvas viewport).x
        (ndcToScreen ((min p1.x p2.x + max p1.x p2.x) / 2) ((min p1.y p2.y + max p1.y p2.y) / 2)
          canvas viewport).y
        [createRectangle id now p1 p2 color] canvas viewport
        = some (some (createRectangle id now p1 p2 color)) := by
  have hs : 0 < min canvas.width canvas.height / 2 * viewport.zoom :=
    mul_pos (div_pos hwh (by norm_num)) hz
  have hab : min p1.x p2.x < max p1.x p2.x := by
    rcases lt_or_gt_of_ne hx with h | h
    · rw [min_eq_left h.le, max_eq_right h.le]; exact h
    · rw [min_eq_right h.le, max_eq_left h.le]; exact h
  have hcd : min p1.y p2.y < max p1.y p2.y := by
    rcases lt_or_gt_of_ne hy with h | h
    · rw [min_eq_left h.le, max_eq_right h.le]; exact h
    · rw [min_eq_right h.le, max_eq_left h.le]; exact h
  have hin : pointInPolygon
      (ndcToScreen ((min p1.x p2.x + max p1.x p2.x) / 2) ((min p1.y p2.y + max p1.y p2.y) / 2)
        canvas viewport).x
      (ndcToScreen ((min p1.x p2.x + max p1.x p2.x) / 2) ((min p1.y p2.y + max p1.y p2.y) / 2)
        canvas viewport).y
      (createRectangle id now p1 p2 color).vertices canvas viewport = true := by
    simp only [pointInPolygon, createRectangle, ndcToScreen, List.map_cons, List.map_nil,
      List.getLast?_cons_cons, List.getLast?_singleton]
    exact pointInPolygonLoop_rectangle_centre _ _ _ _ _ _ _ hs hab hcd
  refine ⟨hin, ?_⟩
  have hshape := pointInShape_rectangle M _ _ id now p1 p2 color canvas viewport hin
  simp only [hitTest, List.reverse_singleton, hitTestLoop, hshape]

/-- A rectangle on top of the scene is returned by the hit test at its centroid. -/
theorem hitTest_rectangle_on_top (M : JSMath K) (id : String) (now : ℕ) (p1 p2 : Point K)
    (color : String) (canvas : Canvas K) (viewport : Viewport K) (below : List (Shape K))
    (hx : p1.x ≠ p2.x) (hy : p1.y ≠ p2.y)
    (hwh : 0 < min canvas.width canvas.height) (hz : 0 < viewport.zoom) :
    hitTest M
        (ndcToScreen ((min p1.x p2.x + max p1.x p2.x) / 2) ((min p1.y p2.y + max p1.y p2.y) / 2)
          canvas viewport).x
        (ndcToScreen ((min p1.x p2.x + max p1.x p2.x) / 2) ((min p1.y p2.y + max p1.y p2.y) / 2)
          canvas viewport).y
        (below ++ [createRectangle id now p1 p2 color]) canvas viewport
      = some (some (createRectangle id now p1 p2 color)) := by
  have hin := (rectangle_centroid_hit M id now p1 p2 color canvas viewport hx hy hwh hz).1
  have hshape := pointInShape_rectangle M _ _ id now p1 p2 color canvas viewport hin
  simp only [hitTest, List.reverse_append, List.reverse_singleton, List.singleton_append,
    hitTestLoop, hshape]

/-- On `demoCanvas` at zoom 1 without pan, the display point (475, 225) hits
`demoRectB`, the topmost of the two rectangles. -/
theorem demo_hitTest (M : JSMath K) :
    hitTest M (475 - 0) (225 - 0) [demoRectA, demoRectB] demoCanvas
      (demoScene : AppState K).viewport = some (some demoRectB) := by
  have h := hitTest_rectangle_on_top M "shape_b" 1 (⟨0, 0⟩ : Point K) ⟨1 / 2, 1 / 2⟩ "#10b981"
    demoCanvas (demoScene : AppState K).viewport [demoRectA] (by norm_num) (by norm_num)
    (by norm_num [demoCanvas])
    (by norm_num [demoScene, initialState, AppState.viewport])
  have hmin : min (800 : K) 600 = 600 := min_eq_right (by norm_num)
  have h0 : min (0 : K) (1 / 2) = 0 := min_eq_left (by norm_num)
  have h1 : max (0 : K) (1 / 2) = 1 / 2 := max_eq_right (by norm_num)
  have ex : (ndcToScreen ((min (0 : K) (1 / 2) + max 0 (1 / 2)) / 2)
      ((min (0 : K) (1 / 2) + max 0 (1 / 2)) / 2) demoCanvas
      (demoScene : AppState K).viewport).x = 475 - 0 := by
    simp only [ndcToScreen, demoCanvas, demoScene, initialState, AppState.viewport, hmin, h0, h1]
    norm_num
  have ey : (ndcToScreen ((min (0 : K) (1 / 2) + max 0 (1 / 2)) / 2)
      ((min (0 : K) (1 / 2) + max 0 (1 / 2)) / 2) demoCanvas
      (demoScene : AppState K).viewport).y = 225 - 0 := by
    simp only [ndcToScreen, demoCanvas, demoScene, initialState, AppState.viewport, hmin, h0, h1]
    norm_num
  simp only [ex, ey] at h
  exact h

/-- C14 (amended). In exact arithmetic (every ordered field, the reals among them): for
corner points with `p1.x ≠ p2.x` and `p1.y ≠ p2.y` and a valid viewport, the
display image of the centre of the bounding box is reported inside by
`pointInPolygon` on the 6-vertex ring of `createRectangle(p1, p2)`, and `hitTest`
on the scene holding only that rectangle returns it. -/
theorem createRectangle_centroid_inside (M : JSMath K) (id : String) (now : ℕ)
    (p1 p2 : Point K) (color : String) (canvas : Canvas K) (viewport : Viewport K)
    (hx : p1.x ≠ p2.x) (hy : p1.y ≠ p2.y)
    (hwh : 0 < min canvas.width canvas.height) (hz : 0 < viewport.zoom) :
    pointInPolygon
        (ndcToScreen ((min p1.x p2.x + max p1.x p2.x) / 2) ((min p1.y p2.y + max p1.y p2.y) / 2)
          canvas viewport).x
        (ndcToScreen ((min p1.x p2.x + max p1.x p2.x) / 2) ((min p1.y p2.y + max p1.y p2.y) / 2)
          canvas viewport).y
        (createRectangle id now p1 p2 color).vertices canvas viewport = true
      ∧ hitTest M
        (ndcToScreen ((min p1.x p2.x + max p1.x p2.x) / 2) ((min p1.y p2.y + max p1.y p2.y) / 2)
          canvas viewport).x
        (ndcToScreen ((min p1.x p2.x + max p1.x p2.x) / 2) ((min p1.y p2.y + max p1.y p2.y) / 2)
          canvas viewport).y
        [createRectangle id now p1 p2 color] canvas viewport
        = some (some (createRectangle id now p1 p2 color)) :=
  rectangle_centroid_hit M id now p1 p2 color canvas viewport hx hy hwh hz

end RectangleHitTheorems

/-! ## Theorems: the select tool -/

section SelectTheorems

variable {K : Type} [LinearOrderedField K] [FloorRing K]

/-- With the select tool and the primary button, `mousedown` runs `handleSelectDown`. -/
theorem onMouseDown_select (M : JSMath K) (newId : String) (e : MouseEvent K)
    (canvas : Canvas K) (state : AppState K) (htool : state.currentTool = "select")
    (hb : e.button = 0) :
    onMouseDown M newId e canvas state
      = handleSelectDown M (e.clientX - e.rectLeft) (e.clientY - e.rectTop) e.shiftKey canvas
        state := by
  simp [onMouseDown, htool, hb]

/-- C15 (amended). Select tool, pointer-down with no modifier: if the hit test returns
shape `h` and `h.id` is not in the prior selection, the selection becomes
`[h.id]`; if `h.id` is already in the prior selection, the selection is left as it
is; if the hit test returns none, the selection becomes empty.  Nothing else of
the state changes, in particular not the shape list. -/
theorem select_down_no_modifier (M : JSMath K) (newId : String) (e : MouseEvent K)
    (canvas : Canvas K) (state : AppState K) (htool : state.currentTool = "select")
    (hb : e.button = 0) (hshift : e.shiftKey = false) :
    (∀ h, hitTest M (e.clientX - e.rectLeft) (e.clientY - e.rectTop) state.shapes canvas
          state.viewport = some (some h) →
        ¬ h.id ∈ state.selectedIds →
        onMouseDown M newId e canvas state = some { state with selectedIds := [h.id] })
      ∧ (∀ h, hitTest M (e.clientX - e.rectLeft) (e.clientY - e.rectTop) state.shapes canvas
          state.viewport = some (some h) →
        h.id ∈ state.selectedIds →
        onMouseDown M newId e canvas state = some state)
      ∧ (hitTest M (e.clientX - e.rectLeft) (e.clientY - e.rectTop) state.shapes canvas
          state.viewport = some none →
        onMouseDown M newId e canvas state = some { state with selectedIds := [] }) := by
  rw [onMouseDown_select M newId e canvas state htool hb]
  refine ⟨?_, ?_, ?_⟩
  · intro h hhit hmem
    simp [handleSelectDown, hhit, hshift, hmem]
  · intro h hhit hmem
    simp [handleSelectDown, hhit, hshift, hmem]
  · intro hhit
    simp [handleSelectDown, hhit, hshift]

/-- C16. Select tool, pointer-down with the multi-select modifier: if the hit test
returns shape `h` and `h.id` is in the selection, its first occurrence is removed
and the entries before and after it keep their order (with a duplicate-free
selection `h.id` is then no longer selected); if `h.id` is not in the selection, it
is appended after the prior entries; if the hit test returns none, the state is
unchanged. -/
theorem select_down_shift (M : JSMath K) (newId : String) (e : MouseEvent K)
    (canvas : Canvas K) (state : AppState K) (htool : state.currentTool = "select")
    (hb : e.button = 0) (hshift : e.shiftKey = true) :
    (∀ h, hitTest M (e.clientX - e.rectLeft) (e.clientY - e.rectTop) state.shapes canvas
          state.viewport = some (some h) →
        h.id ∈ state.selectedIds →
        ∃ before after, state.selectedIds = before ++ h.id :: after ∧ ¬ h.id ∈ before
          ∧ onMouseDown M newId e canvas state
            = some { state with selectedIds := before ++ after }
          ∧ (state.selectedIds.Nodup → ¬ h.id ∈ before ++ after))
      ∧ (∀ h, hitTest M (e.clientX - e.rectLeft) (e.clientY - e.rectTop) state.shapes canvas
          state.viewport = some (some h) →
        ¬ h.id ∈ state.selectedIds →
        onMouseDown M newId e canvas state
          = some { state with selectedIds := state.selectedIds ++ [h.id] })
      ∧ (hitTest M (e.clientX - e.rectLeft) (e.clientY - e.rectTop) state.shapes canvas
          state.viewport = some none →
        onMouseDown M newId e canvas state = some state) := by
  rw [onMouseDown_select M newId e canvas state htool hb]
  refine ⟨?_, ?_, ?_⟩
  · intro h hhit hmem
    obtain ⟨before, after, hnot, hsplit, herase⟩ := List.exists_erase_eq hmem
    refine ⟨before, after, hsplit, hnot, ?_, ?_⟩
    · simp [handleSelectDown, hhit, hshift, hmem, herase]
    · intro hnodup
      rw [← herase]
      exact hnodup.not_mem_erase
  · intro h hhit hmem
    simp [handleSelectDown, hhit, hshift, hmem]
  · intro hhit
    simp [handleSelectDown, hhit, hshift]

end SelectTheorems

/-! ## Theorems: worked examples of the select tool -/

section SelectExamples

/-- C15 (counterexample). In `demoScene` both rectangles are selected; a pointer-down
without modifier at (475, 225) hits `demoRectB`, and the state, hence the
selection `["shape_a", "shape_b"]`, is left as it is: the selection afterwards is
not the one-element list of the hit shape. -/
theorem select_down_keeps_multi_selection :
    hitTest realMath ((demoClick 0 false : MouseEvent ℝ).clientX - (demoClick 0 false).rectLeft)
        ((demoClick 0 false : MouseEvent ℝ).clientY - (demoClick 0 false).rectTop)
        (demoScene : AppState ℝ).shapes demoCanvas (demoScene : AppState ℝ).viewport
        = some (some demoRectB)
      ∧ onMouseDown realMath "shape_c" (demoClick 0 false) demoCanvas (demoScene : AppState ℝ)
        = some demoScene
      ∧ (demoScene : AppState ℝ).selectedIds ≠ [(demoRectB : Shape ℝ).id] := by
  have hhit : hitTest realMath
      ((demoClick 0 false : MouseEvent ℝ).clientX - (demoClick 0 false).rectLeft)
      ((demoClick 0 false : MouseEvent ℝ).clientY - (demoClick 0 false).rectTop)
      (demoScene : AppState ℝ).shapes demoCanvas (demoScene : AppState ℝ).viewport
      = some (some demoRectB) := demo_hitTest realMath
  refine ⟨hhit, ?_, by decide⟩
  rw [onMouseDown_select realMath "shape_c" (demoClick 0 false) demoCanvas demoScene rfl rfl]
  have hmem : (demoRectB : Shape ℝ).id ∈ (demoScene : AppState ℝ).selectedIds := by
    show "shape_b" ∈ ["shape_a", "shape_b"]
    decide
  simp only [handleSelectDown, hhit]
  simp [demoClick, hmem]

/-- Witness for C15 (amended): with nothing selected, the pointer-down at (475, 225)
selects exactly `demoRectB`. -/
theorem select_down_no_modifier_witness :
    onMouseDown realMath "shape_c" (demoClick 0 false) demoCanvas
        { (demoScene : AppState ℝ) with selectedIds := [] }
      = some { (demoScene : AppState ℝ) with selectedIds := ["shape_b"] } :=
  (select_down_no_modifier realMath "shape_c" (demoClick 0 false) demoCanvas
    { (demoScene : AppState ℝ) with selectedIds := [] } rfl rfl rfl).1 demoRectB
    (demo_hitTest realMath) (by simp)

/-- Witness for C16: in `demoScene` a pointer-down with the modifier at (475, 225)
removes `"shape_b"` from the selection `["shape_a", "shape_b"]`. -/
theorem select_down_shift_witness :
    ∃ before after, (demoScene : AppState ℝ).selectedIds
        = before ++ (demoRectB : Shape ℝ).id :: after
      ∧ ¬ (demoRectB : Shape ℝ).id ∈ before
      ∧ onMouseDown realMath "shape_c" (demoClick 0 true) demoCanvas (demoScene : AppState ℝ)
        = some { (demoScene : AppState ℝ) with selectedIds := before ++ after }
      ∧ ((demoScene : AppState ℝ).selectedIds.Nodup
        → ¬ (demoRectB : Shape ℝ).id ∈ before ++ after) :=
  (select_down_shift realMath "shape_c" (demoClick 0 true) demoCanvas
    (demoScene : AppState ℝ) rfl rfl rfl).1 demoRectB (demo_hitTest realMath)
    (by
      show "shape_b" ∈ ["shape_a", "shape_b"]
      decide)

end SelectExamples

/-! ## Theorems: the move tool -/

section MoveTheorems

variable {K : Type}

/-- With pairwise distinct identities, updating the first shape of a given identity
updates every shape of that identity. -/
theorem modifyFirst_eq_map (f : Shape K → Shape K) (id : String) :
    ∀ shapes : List (Shape K), (shapes.map fun s => s.id).Nodup →
      modifyFirst (fun s => decide (s.id = id)) f shapes
        = shapes.map fun s => if s.id = id then f s else s := by
  intro shapes
  induction shapes with
  | nil => intro _; rfl
  | cons a rest ih =>
    intro hnd
    rw [List.map_cons, List.nodup_cons] at hnd
    unfold modifyFirst
    by_cases ha : a.id = id
    · simp only [ha, decide_True, if_true, List.map_cons]
      congr 1
      symm
      have hrest : ∀ s ∈ rest, ¬ s.id = id := by
        intro s hs hsid
        exact hnd.1 (List.mem_map.mpr ⟨s, hs, by rw [hsid, ha]⟩)
      calc rest.map (fun s => if s.id = id then f s else s)
          = rest.map (fun s => s) := List.map_congr_left (fun s hs => if_neg (hrest s hs))
        _ = rest := List.map_id' rest
    · simp only [ha, decide_False, Bool.false_eq_true, if_false, List.map_cons]
      rw [ih hnd.2]

/-- The loop over the selected identities in `handleMoveMove`: with pairwise distinct
shape identities and a duplicate-free selection it updates exactly the shapes
whose identity is selected, each once. -/
theorem foldl_modifyFirst_eq_map (f : Shape K → Shape K) (hf : ∀ s, (f s).id = s.id) :
    ∀ (sel : List String) (shapes : List (Shape K)), sel.Nodup →
      (shapes.map fun s => s.id).Nodup →
      sel.foldl (fun shapes id => modifyFirst (fun s => decide (s.id = id)) f shapes) shapes
        = shapes.map fun s => if s.id ∈ sel then f s else s := by
  intro sel
  induction sel with
  | nil =>
    intro shapes _ _
    simp
  | cons i rest ih =>
    intro shapes hsel hids
    rw [List.nodup_cons] at hsel
    rw [List.foldl_cons, modifyFirst_eq_map f i shapes hids]
    have hids' : ((shapes.map fun s => if s.id = i then f s else s).map fun s => s.id).Nodup := by
      have : ((shapes.map fun s => if s.id = i then f s else s).map fun s => s.id)
          = shapes.map fun s => s.id := by
        rw [List.map_map]
        apply List.map_congr_left
        intro s _
        by_cases h : s.id = i
        · simp only [Function.comp, h, if_true]
          rw [hf s, h]
        · simp only [Function.comp, h, if_false]
      rw [this]
      exact hids
    rw [ih _ hsel.2 hids', List.map_map]
    apply List.map_congr_left
    intro s _
    by_cases h : s.id = i
    · have hnot : ¬ (f s).id ∈ rest := by rw [hf s, h]; exact hsel.1
      simp [Function.comp, h, hnot]
    · have hne : ¬ i = s.id := fun h' => h h'.symm
      simp [Function.comp, h, List.mem_cons, hne]

end MoveTheorems

section MoveEventTheorems

variable {K : Type} [LinearOrderedField K] [FloorRing K]

/-- C17. Move tool, pointer-move during a drag with previous anchor `a`, in a state
with pairwise distinct shape identities and a duplicate-free selection: with `c`
the logical point of the event, every vertex `(x, y)` of every selected shape
becomes `(clamp (x + c.x - a.x), clamp (y + c.y - a.y))` with `clamp` the
restriction to `[-1, 1]`, vertex count and order are kept, unselected shapes are
unchanged, and the anchor becomes `c`. -/
theorem move_drag (M : JSMath K) (newId : String) (now : ℕ) (e : MouseEvent K)
    (canvas : Canvas K) (state : AppState K) (a : Point K)
    (htool : state.currentTool = "move") (hpan : state.isPanning = false)
    (hdrag : state.isDrawing = true) (hsel : state.selectedIds ≠ [])
    (hanchor : state.dragStart = some a)
    (hids : (state.shapes.map fun s => s.id).Nodup) (hnodup : state.selectedIds.Nodup) :
    onMouseMove M newId now e canvas state = some { state with
        shapes := state.shapes.map fun s =>
          if s.id ∈ state.selectedIds then
            { s with vertices := s.vertices.map fun v =>
                { x := clampNDC (v.x + ((screenToNDC (e.clientX - e.rectLeft)
                    (e.clientY - e.rectTop) canvas state.viewport (some state.settings)).x - a.x))
                  y := clampNDC (v.y + ((screenToNDC (e.clientX - e.rectLeft)
                    (e.clientY - e.rectTop) canvas state.viewport (some state.settings)).y
                      - a.y)) } }
          else s
        dragStart := some (screenToNDC (e.clientX - e.rectLeft) (e.clientY - e.rectTop) canvas
          state.viewport (some state.settings)) }
      ∧ ∀ s : Shape K, ∀ dx dy : K,
        (s.vertices.map fun v =>
            ({ x := clampNDC (v.x + dx), y := clampNDC (v.y + dy) } : Point K)).length
          = s.vertices.length := by
  refine ⟨?_, fun s dx dy => List.length_map _ _⟩
  have hlen : state.selectedIds.length > 0 := List.length_pos.mpr hsel
  have hfold := foldl_modifyFirst_eq_map
    (translateShape
      ((screenToNDC (e.clientX - e.rectLeft) (e.clientY - e.rectTop) canvas state.viewport
        (some state.settings)).x - a.x)
      ((screenToNDC (e.clientX - e.rectLeft) (e.clientY - e.rectTop) canvas state.viewport
        (some state.settings)).y - a.y))
    (fun _ => rfl) state.selectedIds state.shapes hnodup hids
  simp only [onMouseMove, hpan, htool, hdrag, hlen, handleMoveMove, hanchor, hfold,
    Bool.false_eq_true, if_false, if_true, and_self]
  rfl

end MoveEventTheorems

/-! ## Theorems: the vertex tool -/

section VertexTheorems

variable {K : Type} [LinearOrderedField K]

/-- What the nearest-vertex loop returns: either no vertex of the list qualifies (it
is not within 15 display units, or not closer than the best distance so far) and
the index is left as it was, or the result is the index of a vertex within 15
display units that beats the best distance so far and is at least as close as
every vertex of the list. -/
theorem nearestVertexLoop_spec (M : JSMath K) (screenX screenY : K) (canvas : Canvas K)
    (viewport : Viewport K) :
    ∀ (l : List (Point K)) (i : ℕ) (minDist : Option K) (closestIdx : ℤ),
      (nearestVertexLoop M screenX screenY canvas viewport l i minDist closestIdx = closestIdx
          ∧ ∀ v ∈ l, ¬ (M.hypot ((ndcToScreen v.x v.y canvas viewport).x - screenX)
                ((ndcToScreen v.x v.y canvas viewport).y - screenY) < 15
              ∧ ∀ m, minDist = some m →
                M.hypot ((ndcToScreen v.x v.y canvas viewport).x - screenX)
                  ((ndcToScreen v.x v.y canvas viewport).y - screenY) < m))
        ∨ ∃ (j : ℕ) (vj : Point K), l[j]? = some vj
          ∧ nearestVertexLoop M screenX screenY canvas viewport l i minDist closestIdx
            = ((i + j : ℕ) : ℤ)
          ∧ M.hypot ((ndcToScreen vj.x vj.y canvas viewport).x - screenX)
              ((ndcToScreen vj.x vj.y canvas viewport).y - screenY) < 15
          ∧ (∀ m, minDist = some m →
              M.hypot ((ndcToScreen vj.x vj.y canvas viewport).x - screenX)
                ((ndcToScreen vj.x vj.y canvas viewport).y - screenY) < m)
          ∧ ∀ v ∈ l, M.hypot ((ndcToScreen vj.x vj.y canvas viewport).x - screenX)
                ((ndcToScreen vj.x vj.y canvas viewport).y - screenY)
              ≤ M.hypot ((ndcToScreen v.x v.y canvas viewport).x - screenX)
                ((ndcToScreen v.x v.y canvas viewport).y - screenY) := by
  intro l
  induction l with
  | nil =>
    intro i minDist closestIdx
    exact Or.inl ⟨rfl, fun v hv => absurd hv (List.not_mem_nil v)⟩
  | cons v rest ih =>
    intro i minDist closestIdx
    generalize hd : (fun w : Point K =>
      M.hypot ((ndcToScreen w.x w.y canvas viewport).x - screenX)
        ((ndcToScreen w.x w.y canvas viewport).y - screenY)) = d at ih ⊢
    have hdv : ∀ w : Point K, M.hypot ((ndcToScreen w.x w.y canvas viewport).x - screenX)
        ((ndcToScreen w.x w.y canvas viewport).y - screenY) = d w := by
      intro w; rw [← hd]
    simp only [hdv] at ih ⊢
    by_cases hc : d v < 15 ∧ ∀ m, minDist = some m → d v < m
    · have hstep : nearestVertexLoop M screenX screenY canvas viewport (v :: rest) i minDist
          closestIdx
          = nearestVertexLoop M screenX screenY canvas viewport rest (i + 1) (some (d v))
            (i : ℤ) := by
        simp only [nearestVertexLoop, hdv]
        cases minDist with
        | none => simp [hc.1]
        | some m => simp [hc.1, hc.2 m rfl]
      rw [hstep]
      right
      rcases ih (i + 1) (some (d v)) (i : ℤ) with ⟨hr, hno⟩ | ⟨j, vj, hj, hr, h15, hbeat, hmin⟩
      · refine ⟨0, v, List.getElem?_cons_zero, by rw [hr]; rfl, hc.1, hc.2, ?_⟩
        intro w hw
        rcases List.mem_cons.mp hw with rfl | hw
        · exact le_rfl
        · by_contra hlt
          have hlt' : d w < d v := not_le.mp hlt
          exact hno w hw ⟨lt_trans hlt' hc.1, fun m hm => by
            cases hm
            exact hlt'⟩
      · have hvj : d vj < d v := hbeat (d v) rfl
        refine ⟨j + 1, vj, by simpa using hj, ?_, h15,
          fun m hm => lt_trans hvj (hc.2 m hm), ?_⟩
        · rw [hr]
          congr 1
          omega
        · intro w hw
          rcases List.mem_cons.mp hw with rfl | hw
          · exact hvj.le
          · exact hmin w hw
    · have hstep : nearestVertexLoop M screenX screenY canvas viewport (v :: rest) i minDist
          closestIdx
          = nearestVertexLoop M screenX screenY canvas viewport rest (i + 1) minDist
            closestIdx := by
        simp only [nearestVertexLoop, hdv]
        cases minDist with
        | none =>
          have h15 : ¬ d v < 15 := fun h => hc ⟨h, fun m hm => by cases hm⟩
          simp [h15]
        | some m =>
          by_cases h15 : d v < 15
          · have hm : ¬ d v < m := fun h => hc ⟨h15, fun m' hm' => by
              cases hm'
              exact h⟩
            simp [hm]
          · simp [h15]
      rw [hstep]
      rcases ih (i + 1) minDist closestIdx with ⟨hr, hno⟩ | ⟨j, vj, hj, hr, h15, hbeat, hmin⟩
      · left
        refine ⟨hr, ?_⟩
        intro w hw
        rcases List.mem_cons.mp hw with rfl | hw
        · exact hc
        · exact hno w hw
      · right
        refine ⟨j + 1, vj, by simpa using hj, ?_, h15, hbeat, ?_⟩
        · rw [hr]
          congr 1
          omega
        · intro w hw
          rcases List.mem_cons.mp hw with rfl | hw
          · by_cases hw15 : d w < 15
            · have : ¬ ∀ m, minDist = some m → d w < m := fun h => hc ⟨hw15, h⟩
              push_neg at this
              obtain ⟨m, hm, hle⟩ := this
              exact le_trans (hbeat m hm).le hle
            · exact le_trans h15.le (not_lt.mp hw15)
          · exact hmin w hw

/-- Updating the shape found by `find` changes that shape and no other. -/
theorem modifyFirst_of_find? {α : Type} (pred : α → Bool) (f : α → α) :
    ∀ (l : List α) (a : α), l.find? pred = some a →
      ∃ before after, l = before ++ a :: after
        ∧ modifyFirst pred f l = before ++ f a :: after := by
  intro l
  induction l with
  | nil => intro a h; cases h
  | cons b rest ih =>
    intro a h
    unfold modifyFirst
    by_cases hb : pred b = true
    · rw [List.find?_cons_of_pos _ hb] at h
      cases h
      exact ⟨[], rest, rfl, by simp [hb]⟩
    · rw [List.find?_cons_of_neg _ hb] at h
      obtain ⟨before, after, hl, hm⟩ := ih a h
      refine ⟨b :: before, after, by rw [hl]; rfl, ?_⟩
      simp only [hb, Bool.false_eq_true, if_false, hm, List.cons_append]

end VertexTheorems

section VertexEventTheorems

variable {K : Type} [LinearOrderedField K] [FloorRing K]

/-- C18. Vertex tool with exactly one selected shape `S`, no panning: a primary-button
pointer-down within 15 display units of some vertex of `S` sets the edit focus to
an index `k` of a vertex of `S` that is within 15 display units and at least as
close as every vertex of `S`; the following pointer-move to the logical point `q`
replaces vertex `k` of `S` by `(clamp q.x, clamp q.y)` and leaves the other
vertices of `S`, their number and every other shape as they were; the following
pointer-up resets the focus to `-1` and changes no shape. -/
theorem vertex_edit_sequence (M : JSMath K) (id1 id2 id3 : String) (now : ℕ)
    (e1 e2 e3 : MouseEvent K) (canvas : Canvas K) (state : AppState K) (S : Shape K)
    (sid : String)
    (htool : state.currentTool = "vertex") (hpan : state.isPanning = false)
    (hsel : state.selectedIds = [sid])
    (hfind : state.shapes.find? (fun s => decide (s.id = sid)) = some S)
    (hb1 : e1.button = 0) (hb3 : e3.button = 0)
    (hnear : ∃ v ∈ S.vertices,
      M.hypot ((ndcToScreen v.x v.y canvas state.viewport).x - (e1.clientX - e1.rectLeft))
        ((ndcToScreen v.x v.y canvas state.viewport).y - (e1.clientY - e1.rectTop)) < 15) :
    ∃ (k : ℕ) (vk : Point K) (s1 s2 : AppState K) (before after : List (Shape K)),
      S.vertices[k]? = some vk
      ∧ M.hypot ((ndcToScreen vk.x vk.y canvas state.viewport).x - (e1.clientX - e1.rectLeft))
          ((ndcToScreen vk.x vk.y canvas state.viewport).y - (e1.clientY - e1.rectTop)) < 15
      ∧ (∀ v ∈ S.vertices,
          M.hypot ((ndcToScreen vk.x vk.y canvas state.viewport).x - (e1.clientX - e1.rectLeft))
            ((ndcToScreen vk.x vk.y canvas state.viewport).y - (e1.clientY - e1.rectTop))
          ≤ M.hypot ((ndcToScreen v.x v.y canvas state.viewport).x - (e1.clientX - e1.rectLeft))
            ((ndcToScreen v.x v.y canvas state.viewport).y - (e1.clientY - e1.rectTop)))
      ∧ onMouseDown M id1 e1 canvas state = some s1
      ∧ s1 = { state with editingVertexIndex := (k : ℤ) }
      ∧ onMouseMove M id2 now e2 canvas s1 = some s2
      ∧ state.shapes = before ++ S :: after
      ∧ s2.shapes = before ++ { S with
          vertices := S.vertices.set k
            { x := clampNDC (screenToNDC (e2.clientX - e2.rectLeft) (e2.clientY - e2.rectTop)
                canvas state.viewport (some state.settings)).x
              y := clampNDC (screenToNDC (e2.clientX - e2.rectLeft) (e2.clientY - e2.rectTop)
                canvas state.viewport (some state.settings)).y } } :: after
      ∧ (S.vertices.set k
          { x := clampNDC (screenToNDC (e2.clientX - e2.rectLeft) (e2.clientY - e2.rectTop)
              canvas state.viewport (some state.settings)).x
            y := clampNDC (screenToNDC (e2.clientX - e2.rectLeft) (e2.clientY - e2.rectTop)
              canvas state.viewport (some state.settings)).y }).length = S.vertices.length
      ∧ (∀ j, j ≠ k → (S.vertices.set k
          { x := clampNDC (screenToNDC (e2.clientX - e2.rectLeft) (e2.clientY - e2.rectTop)
              canvas state.viewport (some state.settings)).x
            y := clampNDC (screenToNDC (e2.clientX - e2.rectLeft) (e2.clientY - e2.rectTop)
              canvas state.viewport (some state.settings)).y })[j]? = S.vertices[j]?)
      ∧ (onMouseUp id3 e3 s2).editingVertexIndex = -1
      ∧ (onMouseUp id3 e3 s2).shapes = s2.shapes := by
  have hne1 : ("vertex" : String) ≠ "select" := by decide
  have hne2 : ("vertex" : String) ≠ "move" := by decide
  -- the pointer-down
  obtain ⟨v0, hv0, hv0d⟩ := hnear
  rcases nearestVertexLoop_spec M (e1.clientX - e1.rectLeft) (e1.clientY - e1.rectTop) canvas
      state.viewport S.vertices 0 none (-1) with ⟨_, hno⟩ | ⟨k, vk, hk, hr, h15, _, hmin⟩
  · exact absurd ⟨hv0d, fun m hm => by cases hm⟩ (hno v0 hv0)
  have hklt : k < S.vertices.length := by
    by_contra h
    rw [List.getElem?_eq_none (not_lt.mp h)] at hk
    cases hk
  have hr' : nearestVertexLoop M (e1.clientX - e1.rectLeft) (e1.clientY - e1.rectTop) canvas
      state.viewport S.vertices 0 none (-1) = (k : ℤ) := by
    rw [hr, Nat.zero_add]
  have hdown : onMouseDown M id1 e1 canvas state
      = some { state with editingVertexIndex := (k : ℤ) } := by
    have hk0 : (k : ℤ) ≥ 0 := Int.natCast_nonneg k
    have h01 : ¬ ((0 : ℕ) = 1) := by decide
    simp only [onMouseDown, hb1, htool, hne1, hne2, handleVertexDown, hsel, hfind, hr', hk0,
      h01, if_true, if_false, ne_eq, not_true_eq_false]
  obtain ⟨before, after, hsplit, hmod⟩ := modifyFirst_of_find? (fun s => decide (s.id = sid))
    (fun s => { s with
      vertices := S.vertices.set k
        { x := max (-1) (min 1 (screenToNDC (e2.clientX - e2.rectLeft) (e2.clientY - e2.rectTop)
            canvas state.viewport (some state.settings)).x)
          y := max (-1) (min 1 (screenToNDC (e2.clientX - e2.rectLeft) (e2.clientY - e2.rectTop)
            canvas state.viewport (some state.settings)).y) } })
    state.shapes S hfind
  -- the pointer-move
  have hmove : ∃ s2, onMouseMove M id2 now e2 canvas
        { state with editingVertexIndex := (k : ℤ) } = some s2
      ∧ s2.shapes = before ++ { S with
          vertices := S.vertices.set k
            { x := clampNDC (screenToNDC (e2.clientX - e2.rectLeft) (e2.clientY - e2.rectTop)
                canvas state.viewport (some state.settings)).x
              y := clampNDC (screenToNDC (e2.clientX - e2.rectLeft) (e2.clientY - e2.rectTop)
                canvas state.viewport (some state.settings)).y } } :: after
      ∧ s2.currentTool = "vertex" := by
    have hk0 : (k : ℤ) ≥ 0 := Int.natCast_nonneg k
    have heq : onMouseMove M id2 now e2 canvas { state with editingVertexIndex := (k : ℤ) }
        = some { state with
            editingVertexIndex := (k : ℤ)
            hoveredVertexIndex := nearestVertexLoop M (e2.clientX - e2.rectLeft)
              (e2.clientY - e2.rectTop) canvas state.viewport S.vertices 0 none (-1)
            shapes := modifyFirst (fun s => decide (s.id = sid))
              (fun s => { s with
                vertices := S.vertices.set k
                  { x := max (-1) (min 1 (screenToNDC (e2.clientX - e2.rectLeft)
                      (e2.clientY - e2.rectTop) canvas state.viewport (some state.settings)).x)
                    y := max (-1) (min 1 (screenToNDC (e2.clientX - e2.rectLeft)
                      (e2.clientY - e2.rectTop) canvas state.viewport
                        (some state.settings)).y) } })
              state.shapes } := by
      simp only [onMouseMove, hpan, htool, hne2, handleVertexMove, hsel, hfind, hk0, assignVertex,
        Int.toNat_ofNat, hklt, AppState.viewport, Bool.false_eq_true, if_true, if_false]
    exact ⟨_, heq, hmod, htool⟩
  obtain ⟨s2, hs2, hshapes, htool2⟩ := hmove
  refine ⟨k, vk, _, s2, before, after, hk, h15, hmin, hdown, rfl, hs2, hsplit, hshapes,
    List.length_set _ _ _, ?_, ?_, ?_⟩
  · intro j hj
    exact List.getElem?_set_ne (Ne.symm hj)
  · simp [onMouseUp, hb3, htool2]
  · simp [onMouseUp, hb3, htool2]

end VertexEventTheorems

/-! ## Theorems: the polyline, line-loop, fan and triangle tools -/

section DoubleClickTheorems

variable {K : Type}

/-- One call of the `dblclick` listener with the current tool polyline, lineloop or fan:
if at least 2 points are accumulated, it appends exactly one shape whose kind is
the current tool and whose vertex list is the accumulated list, selects it, and
empties the accumulated list and the preview (the listener reads no position);
with fewer than 2 accumulated points the state is unchanged.  The pointer-downs
that precede a `dblclick` are the subject of `doubleClickGesture`. -/
theorem onDoubleClick_commit (newId : String) (state : AppState K)
    (htool : state.currentTool = "polyline" ∨ state.currentTool = "lineloop"
      ∨ state.currentTool = "fan") :
    (2 ≤ state.drawingPoints.length →
        ∃ shape : Shape K, shape.type = state.currentTool
          ∧ shape.vertices = state.drawingPoints
          ∧ shape.id = newId
          ∧ onDoubleClick newId state = { state with
              shapes := state.shapes ++ [shape]
              selectedIds := [newId]
              drawingPoints := []
              tempShape := none })
      ∧ (state.drawingPoints.length < 2 → onDoubleClick newId state = state) := by
  constructor
  · intro hlen
    refine ⟨{ id := newId
              name := state.currentTool ++ "_" ++ toString state.shapes.length
              type := state.currentTool
              primitiveType := polylinePrimitive state.currentTool
              vertices := state.drawingPoints
              color := state.settings.defaultColor
              cornerRadius := none
              cornerSegments := none }, rfl, rfl, rfl, ?_⟩
    have hge : state.drawingPoints.length ≥ 2 := hlen
    simp only [onDoubleClick, htool, hge, and_self, if_true, addShape]
    by_cases hid : newId = ""
    · simp [hid]
    · simp [hid]
  · intro hlen
    have hge : ¬ state.drawingPoints.length ≥ 2 := not_le.mpr hlen
    simp only [onDoubleClick, hge, and_false, if_false]

end DoubleClickTheorems

section CommitTheorems

variable {K : Type} [LinearOrderedField K] [FloorRing K]

/-- With the triangle tool and the primary button, `mousedown` runs
`handleTriangleDown` on the logical point of the event. -/
theorem onMouseDown_triangle (M : JSMath K) (newId : String) (e : MouseEvent K)
    (canvas : Canvas K) (state : AppState K) (htool : state.currentTool = "triangle")
    (hb : e.button = 0) :
    onMouseDown M newId e canvas state
      = some (handleTriangleDown newId
        (screenToNDC (e.clientX - e.rectLeft) (e.clientY - e.rectTop) canvas state.viewport
          (some state.settings)) state) := by
  have h1 : ("triangle" : String) ≠ "select" := by decide
  have h2 : ("triangle" : String) ≠ "move" := by decide
  have h3 : ("triangle" : String) ≠ "vertex" := by decide
  have h4 : ("triangle" : String) ≠ "point" := by decide
  have h5 : ("triangle" : String) ≠ "line" := by decide
  have h6 : ("triangle" : String) ≠ "polyline" := by decide
  have h7 : ("triangle" : String) ≠ "lineloop" := by decide
  have h8 : ("triangle" : String) ≠ "fan" := by decide
  have h01 : ¬ ((0 : ℕ) = 1) := by decide
  simp only [onMouseDown, hb, htool, h1, h2, h3, h4, h5, h6, h7, h8, h01, if_true, if_false,
    ne_eq, not_true_eq_false, or_self]

end CommitTheorems

/-! ## Theorems: the triangle tool -/

section FrameTheorems

variable {K : Type} [LinearOrderedField K]

/-- `handleSelectDown` changes neither the tool nor the accumulated points. -/
theorem handleSelectDown_frame (M : JSMath K) (screenX screenY : K) (shiftKey : Bool)
    (canvas : Canvas K) (state state' : AppState K)
    (h : handleSelectDown M screenX screenY shiftKey canvas state = some state') :
    state'.currentTool = state.currentTool ∧ state'.drawingPoints = state.drawingPoints := by
  unfold handleSelectDown at h
  split at h
  · cases h
  · split_ifs at h <;> cases h <;> exact ⟨rfl, rfl⟩
  · split_ifs at h <;> cases h <;> exact ⟨rfl, rfl⟩

/-- `handleVertexDown` changes neither the tool nor the accumulated points. -/
theorem handleVertexDown_frame (M : JSMath K) (screenX screenY : K) (canvas : Canvas K)
    (state : AppState K) :
    (handleVertexDown M screenX screenY canvas state).currentTool = state.currentTool
      ∧ (handleVertexDown M screenX screenY canvas state).drawingPoints
        = state.drawingPoints := by
  unfold handleVertexDown
  split
  · split
    · exact ⟨rfl, rfl⟩
    · simp only []
      split_ifs <;> exact ⟨rfl, rfl⟩
  · exact ⟨rfl, rfl⟩

/-- `handleMoveMove` changes neither the tool nor the accumulated points. -/
theorem handleMoveMove_frame (ndc : Point K) (state state' : AppState K)
    (h : handleMoveMove ndc state = some state') :
    state'.currentTool = state.currentTool ∧ state'.drawingPoints = state.drawingPoints := by
  unfold handleMoveMove at h
  split at h
  · cases h
  · cases h
    exact ⟨rfl, rfl⟩

/-- `handleVertexMove` changes neither the tool nor the accumulated points. -/
theorem handleVertexMove_frame (M : JSMath K) (screenX screenY : K) (ndc : Point K)
    (canvas : Canvas K) (state state' : AppState K)
    (h : handleVertexMove M screenX screenY ndc canvas state = some state') :
    state'.currentTool = state.currentTool ∧ state'.drawingPoints = state.drawingPoints := by
  unfold handleVertexMove at h
  split at h
  · split at h
    · cases h
      exact ⟨rfl, rfl⟩
    · simp only [] at h
      split_ifs at h
      · split at h
        · cases h
        · cases h
          exact ⟨rfl, rfl⟩
      · cases h
        exact ⟨rfl, rfl⟩
  · cases h
    exact ⟨rfl, rfl⟩

end FrameTheorems

section MouseMoveTheorems

variable {K : Type} [LinearOrderedField K] [FloorRing K]

/-- `mousemove` changes neither the tool nor the accumulated points. -/
theorem onMouseMove_frame (M : JSMath K) (newId : String) (now : ℕ) (e : MouseEvent K)
    (canvas : Canvas K) (state state' : AppState K)
    (h : onMouseMove M newId now e canvas state = some state') :
    state'.currentTool = state.currentTool ∧ state'.drawingPoints = state.drawingPoints := by
  unfold onMouseMove at h
  dsimp only at h
  by_cases hp : state.isPanning = true
  · rw [if_pos hp] at h
    split at h
    · cases h
    · cases h
      exact ⟨rfl, rfl⟩
  rw [if_neg hp] at h
  by_cases h1 : state.currentTool = "move"
  · rw [if_pos h1] at h
    split_ifs at h
    · exact handleMoveMove_frame _ _ _ h
    · cases h
      exact ⟨rfl, rfl⟩
  rw [if_neg h1] at h
  by_cases h2 : state.currentTool = "vertex"
  · rw [if_pos h2] at h
    exact handleVertexMove_frame _ _ _ _ _ _ _ h
  rw [if_neg h2] at h
  by_cases h3 : state.currentTool = "rectangle"
  · rw [if_pos h3] at h
    split_ifs at h
    · split at h
      · cases h
      · cases h
        exact ⟨rfl, rfl⟩
    · cases h
      exact ⟨rfl, rfl⟩
  rw [if_neg h3] at h
  by_cases h4 : state.currentTool = "roundedrect"
  · rw [if_pos h4] at h
    split_ifs at h
    · split at h
      · cases h
        exact ⟨rfl, rfl⟩
      · cases h
    · cases h
      exact ⟨rfl, rfl⟩
  rw [if_neg h4] at h
  by_cases h5 : state.currentTool = "circle"
  · rw [if_pos h5] at h
    split_ifs at h
    · split at h
      · cases h
      · cases h
        exact ⟨rfl, rfl⟩
    · cases h
      exact ⟨rfl, rfl⟩
  rw [if_neg h5] at h
  by_cases h6 : state.currentTool = "polygon"
  · rw [if_pos h6] at h
    split_ifs at h
    · split at h
      · cases h
      · cases h
        exact ⟨rfl, rfl⟩
    · cases h
      exact ⟨rfl, rfl⟩
  rw [if_neg h6] at h
  by_cases h7 : state.currentTool = "line"
  · rw [if_pos h7] at h
    split at h
    · cases h
      exact ⟨rfl, rfl⟩
    · cases h
      exact ⟨rfl, rfl⟩
  rw [if_neg h7] at h
  by_cases h8 : state.currentTool = "polyline" ∨ state.currentTool = "lineloop"
      ∨ state.currentTool = "fan"
  · rw [if_pos h8] at h
    split_ifs at h
    · cases h
      exact ⟨rfl, rfl⟩
    · cases h
      exact ⟨rfl, rfl⟩
  rw [if_neg h8] at h
  by_cases h9 : state.currentTool = "triangle"
  · rw [if_pos h9] at h
    split_ifs at h
    · cases h
      exact ⟨rfl, rfl⟩
    · cases h
      exact ⟨rfl, rfl⟩
  rw [if_neg h9] at h
  cases h
  exact ⟨rfl, rfl⟩

end MouseMoveTheorems

section MouseUpTheorems

variable {K : Type}

/-- `mouseup` does not change the tool, and leaves the accumulated points alone or
empties them. -/
theorem onMouseUp_frame (newId : String) (e : MouseEvent K) (state : AppState K) :
    (onMouseUp newId e state).currentTool = state.currentTool
      ∧ ((onMouseUp newId e state).drawingPoints = state.drawingPoints
        ∨ (onMouseUp newId e state).drawingPoints = []) := by
  unfold onMouseUp
  split_ifs
  · exact ⟨rfl, Or.inl rfl⟩
  · exact ⟨rfl, Or.inl rfl⟩
  · exact ⟨rfl, Or.inl rfl⟩
  · refine ⟨?_, Or.inr rfl⟩
    dsimp only
    split <;> rfl
  · exact ⟨rfl, Or.inl rfl⟩

end MouseUpTheorems

section TriangleHandlerTheorems

variable {K : Type}

/-- What `handleTriangleDown` does to the accumulated points and the scene. -/
theorem handleTriangleDown_spec (newId : String) (ndc : Point K) (state : AppState K) :
    (handleTriangleDown newId ndc state).currentTool = state.currentTool
      ∧ (state.drawingPoints.length + 1 ≠ 3 →
          (handleTriangleDown newId ndc state).drawingPoints = state.drawingPoints ++ [ndc]
          ∧ (handleTriangleDown newId ndc state).shapes = state.shapes)
      ∧ (state.drawingPoints.length + 1 = 3 →
          (handleTriangleDown newId ndc state).drawingPoints = []
          ∧ ∃ shape : Shape K, shape.type = "triangle"
            ∧ shape.vertices = state.drawingPoints ++ [ndc]
            ∧ (handleTriangleDown newId ndc state).shapes = state.shapes ++ [shape]) := by
  have hlen : (state.drawingPoints ++ [ndc]).length = state.drawingPoints.length + 1 := by
    simp
  by_cases h : state.drawingPoints.length + 1 = 3
  · refine ⟨?_, fun hne => absurd h hne, fun _ => ⟨?_, ?_⟩⟩
    · simp only [handleTriangleDown, hlen, h, if_true]
      rfl
    · simp only [handleTriangleDown, hlen, h, if_true]
    · refine ⟨{ id := newId
                name := "triangle_" ++ toString state.shapes.length
                type := "triangle"
                primitiveType := "GL_TRIANGLES"
                vertices := state.drawingPoints ++ [ndc]
                color := state.settings.defaultColor
                cornerRadius := none
                cornerSegments := none }, rfl, rfl, ?_⟩
      simp only [handleTriangleDown, hlen, h, if_true, addShape]
      by_cases hid : newId = ""
      · simp [hid]
      · simp [hid]
  · refine ⟨?_, fun _ => ⟨?_, ?_⟩, fun h3 => absurd h3 h⟩
    · simp only [handleTriangleDown, hlen, h, if_false]
    · simp only [handleTriangleDown, hlen, h, if_false]
    · simp only [handleTriangleDown, hlen, h, if_false]

/-- `handleTriangleDown` changes neither the viewport nor the settings. -/
theorem handleTriangleDown_frame (newId : String) (ndc : Point K) (state : AppState K) :
    (handleTriangleDown newId ndc state).viewport = state.viewport
      ∧ (handleTriangleDown newId ndc state).settings = state.settings := by
  unfold handleTriangleDown
  dsimp only
  split_ifs <;> exact ⟨rfl, rfl⟩

end TriangleHandlerTheorems

section TriangleTheorems

variable {K : Type} [LinearOrderedField K] [FloorRing K]

/-- The triangle tool never holds more than 2 accumulated points between events:
every handled event keeps this. -/
theorem step_triangle_points (M : JSMath K) (ev : Event K) (state state' : AppState K)
    (hinv : state.currentTool = "triangle" → state.drawingPoints.length ≤ 2)
    (h : step M ev state = some state') :
    state'.currentTool = "triangle" → state'.drawingPoints.length ≤ 2 := by
  cases ev with
  | mouseDown newId e canvas =>
    simp only [step] at h
    unfold onMouseDown at h
    dsimp only at h
    by_cases h1 : e.button = 1
    · rw [if_pos h1] at h
      cases h; exact hinv
    rw [if_neg h1] at h
    by_cases h2 : e.button ≠ 0
    · rw [if_pos h2] at h
      cases h; exact hinv
    rw [if_neg h2] at h
    by_cases h3 : state.currentTool = "select"
    · rw [if_pos h3] at h
      obtain ⟨ht, _⟩ := handleSelectDown_frame _ _ _ _ _ _ _ h
      intro ht'
      rw [ht, h3] at ht'
      exact absurd ht' (by decide)
    rw [if_neg h3] at h
    by_cases h4 : state.currentTool = "move"
    · rw [if_pos h4] at h
      cases h
      intro ht'
      have : state.currentTool = "triangle" := by
        unfold handleMoveDown at ht'
        split_ifs at ht' <;> exact ht'
      rw [h4] at this
      exact absurd this (by decide)
    rw [if_neg h4] at h
    by_cases h5 : state.currentTool = "vertex"
    · rw [if_pos h5] at h
      cases h
      intro ht'
      rw [(handleVertexDown_frame _ _ _ _ _).1, h5] at ht'
      exact absurd ht' (by decide)
    rw [if_neg h5] at h
    by_cases h6 : state.currentTool = "point"
    · rw [if_pos h6] at h
      cases h
      intro ht'
      have : state.currentTool = "triangle" := ht'
      rw [h6] at this
      exact absurd this (by decide)
    rw [if_neg h6] at h
    by_cases h7 : state.currentTool = "line"
    · rw [if_pos h7] at h
      cases h
      intro ht'
      have : state.currentTool = "triangle" := by
        unfold handleLineDown at ht'
        split at ht' <;> exact ht'
      rw [h7] at this
      exact absurd this (by decide)
    rw [if_neg h7] at h
    by_cases h8 : state.currentTool = "polyline" ∨ state.currentTool = "lineloop"
        ∨ state.currentTool = "fan"
    · rw [if_pos h8] at h
      cases h
      intro ht'
      have : state.currentTool = "triangle" := ht'
      rcases h8 with h8 | h8 | h8 <;> rw [h8] at this <;> exact absurd this (by decide)
    rw [if_neg h8] at h
    by_cases h9 : state.currentTool = "triangle"
    · rw [if_pos h9] at h
      cases h
      obtain ⟨_, hne, heq⟩ := handleTriangleDown_spec newId
        (screenToNDC (e.clientX - e.rectLeft) (e.clientY - e.rectTop) canvas state.viewport
          (some state.settings)) state
      intro _
      have hle := hinv h9
      by_cases h3' : state.drawingPoints.length + 1 = 3
      · rw [(heq h3').1]
        exact Nat.zero_le _
      · rw [(hne h3').1, List.length_append, List.length_singleton]
        omega
    rw [if_neg h9] at h
    by_cases h10 : state.currentTool = "rectangle" ∨ state.currentTool = "roundedrect"
        ∨ state.currentTool = "circle" ∨ state.currentTool = "polygon"
    · rw [if_pos h10] at h
      cases h
      intro ht'
      exact absurd ht' h9
    rw [if_neg h10] at h
    cases h; exact hinv
  | mouseMove newId now e canvas =>
    obtain ⟨ht, hp⟩ := onMouseMove_frame M newId now e canvas state state' h
    rw [ht, hp]
    exact hinv
  | mouseUp newId e =>
    simp only [step, Option.some.injEq] at h
    subst h
    obtain ⟨ht, hp | hp⟩ := onMouseUp_frame newId e state
    · rw [ht, hp]; exact hinv
    · rw [hp]; intro _; exact Nat.zero_le _
  | wheel deltaY => cases h; exact hinv
  | doubleClick newId =>
    simp only [step, Option.some.injEq] at h
    subst h
    unfold onDoubleClick
    split_ifs
    · intro _; exact Nat.zero_le _
    · exact hinv
  | toolClick tool => cases h; intro _; exact Nat.zero_le _
  | keyEscape => cases h; intro _; exact Nat.zero_le _
  | keyDelete =>
    simp only [step, Option.some.injEq] at h
    subst h
    unfold keyDelete
    split_ifs
    · exact hinv
    · exact hinv
  | deleteSelected => cases h; exact hinv
  | keyDuplicate newId =>
    simp only [step, Option.some.injEq] at h
    subst h
    unfold keyDuplicate
    split
    · split <;> exact hinv
    · exact hinv
  | hierarchyClick id shiftKey =>
    simp only [step, Option.some.injEq] at h
    subst h
    unfold hierarchyClick
    split_ifs <;> exact hinv
  | hierarchyDelete id => cases h; exact hinv
  | hierarchyDuplicate id newId =>
    simp only [step, Option.some.injEq] at h
    subst h
    unfold hierarchyDuplicate
    split <;> exact hinv

/-- C20. Triangle tool, starting from an empty accumulated list: the first and the
second primary-button pointer-down commit nothing and leave 1 and 2 accumulated
points; the third appends exactly one shape of kind 'triangle' whose vertices are
the three clicked logical points in click order and empties the accumulated list.
And in every state reached from the initial state by handled events in which the
triangle tool is active, at most 2 points are accumulated. -/
theorem triangle_three_clicks (M : JSMath K) (id1 id2 id3 : String) (e1 e2 e3 : MouseEvent K)
    (canvas : Canvas K) (state : AppState K) (htool : state.currentTool = "triangle")
    (hempty : state.drawingPoints = [])
    (hb1 : e1.button = 0) (hb2 : e2.button = 0) (hb3 : e3.button = 0) :
    (∃ s1 s2 s3 : AppState K,
        onMouseDown M id1 e1 canvas state = some s1
        ∧ s1.shapes = state.shapes
        ∧ s1.drawingPoints = [screenToNDC (e1.clientX - e1.rectLeft) (e1.clientY - e1.rectTop)
            canvas state.viewport (some state.settings)]
        ∧ onMouseDown M id2 e2 canvas s1 = some s2
        ∧ s2.shapes = state.shapes
        ∧ s2.drawingPoints = [screenToNDC (e1.clientX - e1.rectLeft) (e1.clientY - e1.rectTop)
              canvas state.viewport (some state.settings),
            screenToNDC (e2.clientX - e2.rectLeft) (e2.clientY - e2.rectTop)
              canvas state.viewport (some state.settings)]
        ∧ onMouseDown M id3 e3 canvas s2 = some s3
        ∧ s3.drawingPoints = []
        ∧ ∃ shape : Shape K, s3.shapes = state.shapes ++ [shape]
          ∧ shape.type = "triangle"
          ∧ shape.vertices = [screenToNDC (e1.clientX - e1.rectLeft) (e1.clientY - e1.rectTop)
              canvas state.viewport (some state.settings),
            screenToNDC (e2.clientX - e2.rectLeft) (e2.clientY - e2.rectTop)
              canvas state.viewport (some state.settings),
            screenToNDC (e3.clientX - e3.rectLeft) (e3.clientY - e3.rectTop)
              canvas state.viewport (some state.settings)])
      ∧ ∀ s : AppState K, Reachable M s → s.currentTool = "triangle" →
          s.drawingPoints.length ≤ 2 := by
  constructor
  · have hl1 : state.drawingPoints.length + 1 ≠ 3 := by rw [hempty]; simp
    obtain ⟨ht1, hne1, _⟩ := handleTriangleDown_spec id1
      (screenToNDC (e1.clientX - e1.rectLeft) (e1.clientY - e1.rectTop) canvas state.viewport
        (some state.settings)) state
    obtain ⟨hd1, hsh1⟩ := hne1 hl1
    rw [hempty, List.nil_append] at hd1
    obtain ⟨hv1, hset1⟩ := handleTriangleDown_frame id1
      (screenToNDC (e1.clientX - e1.rectLeft) (e1.clientY - e1.rectTop) canvas state.viewport
        (some state.settings)) state
    have hdown2 := onMouseDown_triangle M id2 e2 canvas _ (ht1.trans htool) hb2
    rw [hv1, hset1] at hdown2
    have hl2 : (handleTriangleDown id1
        (screenToNDC (e1.clientX - e1.rectLeft) (e1.clientY - e1.rectTop) canvas state.viewport
          (some state.settings)) state).drawingPoints.length + 1 ≠ 3 := by rw [hd1]; simp
    obtain ⟨ht2, hne2, _⟩ := handleTriangleDown_spec id2
      (screenToNDC (e2.clientX - e2.rectLeft) (e2.clientY - e2.rectTop) canvas state.viewport
        (some state.settings))
      (handleTriangleDown id1
        (screenToNDC (e1.clientX - e1.rectLeft) (e1.clientY - e1.rectTop) canvas state.viewport
          (some state.settings)) state)
    obtain ⟨hd2, hsh2⟩ := hne2 hl2
    rw [hd1, List.singleton_append] at hd2
    obtain ⟨hv2, hset2⟩ := handleTriangleDown_frame id2
      (screenToNDC (e2.clientX - e2.rectLeft) (e2.clientY - e2.rectTop) canvas state.viewport
        (some state.settings))
      (handleTriangleDown id1
        (screenToNDC (e1.clientX - e1.rectLeft) (e1.clientY - e1.rectTop) canvas state.viewport
          (some state.settings)) state)
    have hdown3 := onMouseDown_triangle M id3 e3 canvas _ (ht2.trans (ht1.trans htool)) hb3
    rw [hv2, hset2, hv1, hset1] at hdown3
    have hl3 : (handleTriangleDown id2
        (screenToNDC (e2.clientX - e2.rectLeft) (e2.clientY - e2.rectTop) canvas state.viewport
          (some state.settings))
        (handleTriangleDown id1
          (screenToNDC (e1.clientX - e1.rectLeft) (e1.clientY - e1.rectTop) canvas state.viewport
            (some state.settings)) state)).drawingPoints.length + 1 = 3 := by rw [hd2]; rfl
    obtain ⟨_, _, heq3⟩ := handleTriangleDown_spec id3
      (screenToNDC (e3.clientX - e3.rectLeft) (e3.clientY - e3.rectTop) canvas state.viewport
        (some state.settings))
      (handleTriangleDown id2
        (screenToNDC (e2.clientX - e2.rectLeft) (e2.clientY - e2.rectTop) canvas state.viewport
          (some state.settings))
        (handleTriangleDown id1
          (screenToNDC (e1.clientX - e1.rectLeft) (e1.clientY - e1.rectTop) canvas state.viewport
            (some state.settings)) state))
    obtain ⟨hd3, shape, hty, hverts, hsh3⟩ := heq3 hl3
    rw [hd2] at hverts
    rw [hsh2, hsh1] at hsh3
    exact ⟨_, _, _, onMouseDown_triangle M id1 e1 canvas state htool hb1, hsh1, hd1,
      hdown2, hsh2.trans hsh1, hd2, hdown3, hd3, shape, hsh3, hty, hverts⟩
  · intro s hs
    induction hs with
    | init =>
      intro h
      exact absurd (show ("select" : String) = "triangle" from h) (by decide)
    | next ev state state' _ hstep ih => exact step_triangle_points M ev state state' ih hstep

end TriangleTheorems

/-! ## Worked examples -/

section Examples

/-- Witness for C13 (amended): a triangle shown right of display x = 400 and the display point
(0, 300) left of it. -/
theorem pointInPolygon_outside_bbox_witness :
    pointInPolygon (0 : ℚ) 300 [⟨0, 0⟩, ⟨1 / 2, 0⟩, ⟨1 / 2, 1 / 2⟩] demoCanvas ⟨1, 0, 0⟩ = false :=
  pointInPolygon_outside_bbox (0 : ℚ) 300 [⟨0, 0⟩, ⟨1 / 2, 0⟩, ⟨1 / 2, 1 / 2⟩] demoCanvas
    ⟨1, 0, 0⟩ (by norm_num [demoCanvas]) (by norm_num)
    (Or.inl (by
      intro v hv
      have hmin : min (800 : ℚ) 600 = 600 := min_eq_right (by norm_num)
      simp only [List.mem_cons, List.mem_singleton, List.not_mem_nil, or_false] at hv
      rcases hv with rfl | rfl | rfl <;> norm_num [ndcToScreen, demoCanvas, hmin]))

/-- Witness for C14 (amended): the rectangle with corners (0, 0) and (1/2, 1/2) on `demoCanvas`
at zoom 1. -/
theorem createRectangle_centroid_inside_witness :
    pointInPolygon
        (ndcToScreen ((min (0 : ℝ) (1 / 2) + max 0 (1 / 2)) / 2)
          ((min (0 : ℝ) (1 / 2) + max 0 (1 / 2)) / 2) demoCanvas ⟨1, 0, 0⟩).x
        (ndcToScreen ((min (0 : ℝ) (1 / 2) + max 0 (1 / 2)) / 2)
          ((min (0 : ℝ) (1 / 2) + max 0 (1 / 2)) / 2) demoCanvas ⟨1, 0, 0⟩).y
        (createRectangle "shape_b" 1 (⟨0, 0⟩ : Point ℝ) ⟨1 / 2, 1 / 2⟩ "#10b981").vertices
        demoCanvas ⟨1, 0, 0⟩ = true
      ∧ hitTest realMath
        (ndcToScreen ((min (0 : ℝ) (1 / 2) + max 0 (1 / 2)) / 2)
          ((min (0 : ℝ) (1 / 2) + max 0 (1 / 2)) / 2) demoCanvas ⟨1, 0, 0⟩).x
        (ndcToScreen ((min (0 : ℝ) (1 / 2) + max 0 (1 / 2)) / 2)
          ((min (0 : ℝ) (1 / 2) + max 0 (1 / 2)) / 2) demoCanvas ⟨1, 0, 0⟩).y
        [createRectangle "shape_b" 1 (⟨0, 0⟩ : Point ℝ) ⟨1 / 2, 1 / 2⟩ "#10b981"]
        demoCanvas ⟨1, 0, 0⟩
        = some (some (createRectangle "shape_b" 1 (⟨0, 0⟩ : Point ℝ) ⟨1 / 2, 1 / 2⟩ "#10b981")) :=
  createRectangle_centroid_inside realMath "shape_b" 1 (⟨0, 0⟩ : Point ℝ) ⟨1 / 2, 1 / 2⟩
    "#10b981" demoCanvas ⟨1, 0, 0⟩ (by norm_num) (by norm_num) (by norm_num [demoCanvas])
    (by norm_num)

/-- On `demoCanvas` at zoom 1 without pan and with the default settings, the display
point (430, 300) is the logical point (1/10, 0). -/
theorem demo_screenToNDC :
    screenToNDC ((430 : ℝ) - 0) (300 - 0) demoCanvas (demoMoveState : AppState ℝ).viewport
      (some (demoMoveState : AppState ℝ).settings) = ⟨1 / 10, 0⟩ := by
  have hmin : min (800 : ℝ) 600 = 600 := min_eq_right (by norm_num)
  have h1 : clampNDC ((1 : ℝ) / 10) = 1 / 10 := clampNDC_of_mem (by norm_num) (by norm_num)
  have h0 : clampNDC (0 : ℝ) = 0 := clampNDC_of_mem (by norm_num) (by norm_num)
  have ex : ((430 : ℝ) - 0 - (800 / 2 + 0)) / (600 / 2 * 1) = 1 / 10 := by norm_num
  have ey : -((300 : ℝ) - 0 - (600 / 2 + 0)) / (600 / 2 * 1) = 0 := by norm_num
  simp only [screenToNDC, snapCoord, demoCanvas, demoMoveState, initialState, DEFAULT_SETTINGS,
    AppState.viewport, hmin, ex, ey, h1, h0, Bool.false_eq_true, if_false]

/-- Witness for C17: the vertex (0.98, 0) of the selected point shape, dragged from
the anchor (0, 0) to the logical point (0.1, 0), becomes (1, 0). -/
theorem move_drag_witness :
    ∃ state' : AppState ℝ,
      onMouseMove realMath "shape_c" 0 ⟨430, 300, 0, 0, 0, false⟩ demoCanvas demoMoveState
        = some state'
      ∧ state'.shapes.map (fun s => s.vertices) = [[⟨1, 0⟩]]
      ∧ state'.dragStart = some ⟨1 / 10, 0⟩ := by
  refine ⟨_, (move_drag realMath "shape_c" 0 ⟨430, 300, 0, 0, 0, false⟩ demoCanvas
    (demoMoveState : AppState ℝ) ⟨0, 0⟩ rfl rfl rfl (by simp [demoMoveState]) rfl
    (by simp [demoMoveState, demoPoint]) (by simp [demoMoveState])).1, ?_, ?_⟩
  · have h1 : clampNDC ((49 : ℝ) / 50 + 10⁻¹) = 1 := by
      unfold clampNDC
      rw [min_eq_left (by norm_num), max_eq_right (by norm_num)]
    have h0 : clampNDC (0 : ℝ) = 0 := clampNDC_of_mem (by norm_num) (by norm_num)
    dsimp only
    rw [demo_screenToNDC]
    simp [demoMoveState, demoPoint, h1, h0]
  · dsimp only
    rw [demo_screenToNDC]

/-- Witness for C18: in `demoVertexState` the rectangle `demoRectB` is the sole
selection; a pointer-down at display point (400, 300), where its first vertex
(0, 0) is shown, followed by a pointer-move and a pointer-up. -/
theorem vertex_edit_sequence_witness :
    ∃ (k : ℕ) (s1 s2 : AppState ℝ),
      onMouseDown realMath "shape_c" ⟨400, 300, 0, 0, 0, false⟩ demoCanvas demoVertexState
        = some s1
      ∧ s1.editingVertexIndex = (k : ℤ)
      ∧ onMouseMove realMath "shape_d" 0 ⟨430, 300, 0, 0, 0, false⟩ demoCanvas s1 = some s2
      ∧ (onMouseUp "shape_e" ⟨430, 300, 0, 0, 0, false⟩ s2).editingVertexIndex = -1 := by
  have hmin : min (800 : ℝ) 600 = 600 := min_eq_right (by norm_num)
  have h0 : min (0 : ℝ) (1 / 2) = 0 := min_eq_left (by norm_num)
  obtain ⟨k, vk, s1, s2, before, after, _, _, _, hdown, hs1, hmove, _, _, _, _, hup, _⟩ :=
    vertex_edit_sequence realMath "shape_c" "shape_d" "shape_e" 0
      ⟨400, 300, 0, 0, 0, false⟩ ⟨430, 300, 0, 0, 0, false⟩ ⟨430, 300, 0, 0, 0, false⟩
      demoCanvas (demoVertexState : AppState ℝ) demoRectB "shape_b" rfl rfl rfl
      (by simp [demoVertexState, demoScene, demoRectA, demoRectB, createRectangle])
      rfl rfl
      ⟨⟨min 0 (1 / 2), min 0 (1 / 2)⟩, by simp [demoRectB, createRectangle], by
        simp only [ndcToScreen, demoCanvas, demoVertexState, demoScene, initialState,
          AppState.viewport, realMath, hmin, h0]
        norm_num⟩
  exact ⟨k, s1, s2, hdown, by rw [hs1], hmove, hup⟩

/-- An instance of `onDoubleClick_commit`: three accumulated points with the polyline
tool; one call of the `dblclick` listener commits one 'polyline' shape with
exactly these three vertices. -/
theorem onDoubleClick_commit_example :
    ∃ shape : Shape ℚ, shape.type = "polyline"
      ∧ shape.vertices = [⟨0, 0⟩, ⟨1 / 2, 0⟩, ⟨1 / 2, 1 / 2⟩]
      ∧ shape.id = "shape_c"
      ∧ onDoubleClick "shape_c" (demoPolylineState : AppState ℚ) = { demoPolylineState with
          shapes := [shape]
          selectedIds := ["shape_c"]
          drawingPoints := []
          tempShape := none } :=
  (onDoubleClick_commit "shape_c" (demoPolylineState : AppState ℚ) (Or.inl rfl)).1
    (by simp [demoPolylineState])

/-- Witness for C20: the triangle tool chosen in the initial state, then three
primary-button pointer-downs. -/
theorem triangle_three_clicks_witness :
    ∃ s1 s2 s3 : AppState ℝ,
      onMouseDown realMath "shape_c" ⟨400, 300, 0, 0, 0, false⟩ demoCanvas
        (toolClick "triangle" initialState) = some s1
      ∧ onMouseDown realMath "shape_d" ⟨430, 300, 0, 0, 0, false⟩ demoCanvas s1 = some s2
      ∧ onMouseDown realMath "shape_e" ⟨430, 200, 0, 0, 0, false⟩ demoCanvas s2 = some s3
      ∧ s3.drawingPoints = []
      ∧ ∃ shape : Shape ℝ, s3.shapes = [shape] ∧ shape.type = "triangle" := by
  obtain ⟨⟨s1, s2, s3, h1, _, _, h2, _, _, h3, hd, shape, hsh, hty, _⟩, _⟩ :=
    triangle_three_clicks realMath "shape_c" "shape_d" "shape_e"
      ⟨400, 300, 0, 0, 0, false⟩ ⟨430, 300, 0, 0, 0, false⟩ ⟨430, 200, 0, 0, 0, false⟩
      demoCanvas (toolClick "triangle" (initialState : AppState ℝ)) rfl rfl rfl rfl rfl
  exact ⟨s1, s2, s3, h1, h2, h3, hd, shape, hsh, hty⟩

end Examples

/-! ## Theorems: the drag-to-define tools -/

section RectangleToolTheorems

variable {K : Type} [LinearOrderedField K] [FloorRing K]

/-- With the rectangle tool and the primary button, `mousedown` records the logical
point of the event as the only accumulated point and sets the drawing flag. -/
theorem onMouseDown_rectangle (M : JSMath K) (newId : String) (e : MouseEvent K)
    (canvas : Canvas K) (state : AppState K) (htool : state.currentTool = "rectangle")
    (hb : e.button = 0) :
    onMouseDown M newId e canvas state
      = some { state with
          isDrawing := true
          drawingPoints := [screenToNDC (e.clientX - e.rectLeft) (e.clientY - e.rectTop) canvas
            state.viewport (some state.settings)] } := by
  have h01 : ¬ ((0 : ℕ) = 1) := by decide
  simp only [onMouseDown, hb, htool, h01, if_true, if_false, ne_eq, not_true_eq_false,
    true_or]
  simp

/-- C21. Rectangle tool, not panning: a primary-button pointer-down at logical point
`a`, a pointer-move to logical point `b` and a pointer-up (of any button but the
middle one) leave the shape list equal to the old list followed by exactly one
new shape of kind 'rectangle' whose 6 vertices are the two-triangle decomposition
of the bounding box of `a` and `b`; the selection is exactly that shape's
identity, and no accumulated point, no preview and no drawing flag remain. -/
theorem rectangle_drag_commit (M : JSMath K) (id1 id2 id3 : String) (now : ℕ)
    (e1 e2 e3 : MouseEvent K) (canvas : Canvas K) (state : AppState K)
    (htool : state.currentTool = "rectangle") (hpan : state.isPanning = false)
    (hb1 : e1.button = 0) (hb3 : e3.button ≠ 1) :
    ∃ (s1 s2 : AppState K) (shape : Shape K),
      onMouseDown M id1 e1 canvas state = some s1
      ∧ onMouseMove M id2 now e2 canvas s1 = some s2
      ∧ shape.type = "rectangle"
      ∧ shape.vertices =
        (let a := screenToNDC (e1.clientX - e1.rectLeft) (e1.clientY - e1.rectTop) canvas
            state.viewport (some state.settings)
         let b := screenToNDC (e2.clientX - e2.rectLeft) (e2.clientY - e2.rectTop) canvas
            state.viewport (some state.settings)
         [⟨min a.x b.x, min a.y b.y⟩, ⟨max a.x b.x, min a.y b.y⟩, ⟨max a.x b.x, max a.y b.y⟩,
          ⟨min a.x b.x, min a.y b.y⟩, ⟨max a.x b.x, max a.y b.y⟩, ⟨min a.x b.x, max a.y b.y⟩])
      ∧ onMouseUp id3 e3 s2 = { state with
          shapes := state.shapes ++ [shape]
          selectedIds := [shape.id]
          isDrawing := false
          drawingPoints := []
          tempShape := none } := by
  have h1 : ("rectangle" : String) ≠ "move" := by decide
  have h2 : ("rectangle" : String) ≠ "vertex" := by decide
  have hmove : onMouseMove M id2 now e2 canvas
      { state with
        isDrawing := true
        drawingPoints := [screenToNDC (e1.clientX - e1.rectLeft) (e1.clientY - e1.rectTop) canvas
          state.viewport (some state.settings)] }
      = some { state with
          isDrawing := true
          drawingPoints := [screenToNDC (e1.clientX - e1.rectLeft) (e1.clientY - e1.rectTop)
            canvas state.viewport (some state.settings)]
          tempShape := some (createRectangle id2 now
            (screenToNDC (e1.clientX - e1.rectLeft) (e1.clientY - e1.rectTop) canvas
              state.viewport (some state.settings))
            (screenToNDC (e2.clientX - e2.rectLeft) (e2.clientY - e2.rectTop) canvas
              state.viewport (some state.settings)) state.settings.defaultColor) } := by
    simp only [onMouseMove, hpan, htool, h1, h2, Bool.false_eq_true, if_false, if_true,
      List.getElem?_cons_zero]
    rfl
  refine ⟨_, _, if id2 = "" then
      { createRectangle id2 now
          (screenToNDC (e1.clientX - e1.rectLeft) (e1.clientY - e1.rectTop) canvas
            state.viewport (some state.settings))
          (screenToNDC (e2.clientX - e2.rectLeft) (e2.clientY - e2.rectTop) canvas
            state.viewport (some state.settings)) state.settings.defaultColor with id := id3 }
    else createRectangle id2 now
          (screenToNDC (e1.clientX - e1.rectLeft) (e1.clientY - e1.rectTop) canvas
            state.viewport (some state.settings))
          (screenToNDC (e2.clientX - e2.rectLeft) (e2.clientY - e2.rectTop) canvas
            state.viewport (some state.settings)) state.settings.defaultColor,
    onMouseDown_rectangle M id1 e1 canvas state htool hb1, hmove, ?_, ?_, ?_⟩
  · split_ifs <;> rfl
  · split_ifs <;> rfl
  · simp only [onMouseUp, hb3, htool, h1, h2, if_false, if_true, true_or, addShape]
    by_cases hid : id2 = ""
    · simp [hid, createRectangle]
    · simp [hid, createRectangle]

end RectangleToolTheorems

/-! ## Theorems: tool switch, escape and duplication -/

section CancelTheorems

variable {K : Type}

/-- C22. For every state and every tool `t`, the tool button's click handler sets
the current tool to `t`, empties the accumulated drawing points and discards the
preview shape, and commits nothing: the shape list, the group list and the
selection are unchanged. -/
theorem toolClick_clears_session (tool : String) (state : AppState K) :
    (toolClick tool state).currentTool = tool
      ∧ (toolClick tool state).drawingPoints = []
      ∧ (toolClick tool state).tempShape = none
      ∧ (toolClick tool state).shapes = state.shapes
      ∧ (toolClick tool state).groups = state.groups
      ∧ (toolClick tool state).selectedIds = state.selectedIds :=
  ⟨rfl, rfl, rfl, rfl, rfl, rfl⟩

/-- C23 (amended). For every state, the escape key discards the accumulated drawing
points and the preview and empties the selection; the shape list and the group
list are the same after the escape as before it. -/
theorem keyEscape_clears_session (state : AppState K) :
    (keyEscape state).drawingPoints = []
      ∧ (keyEscape state).tempShape = none
      ∧ (keyEscape state).selectedIds = []
      ∧ (keyEscape state).shapes = state.shapes
      ∧ (keyEscape state).groups = state.groups :=
  ⟨rfl, rfl, rfl, rfl, rfl⟩

end CancelTheorems

section CancelExamples

/-- C23 (counterexample). In `demoScene` two shapes are selected; after the escape key
the selection is empty, so it is not the same as before. -/
theorem keyEscape_changes_selection :
    (demoScene : AppState ℚ).selectedIds = ["shape_a", "shape_b"]
      ∧ (keyEscape (demoScene : AppState ℚ)).selectedIds = []
      ∧ (keyEscape (demoScene : AppState ℚ)).selectedIds ≠ (demoScene : AppState ℚ).selectedIds :=
  ⟨rfl, rfl, by
    show ([] : List String) ≠ ["shape_a", "shape_b"]
    decide⟩

/-- C29. `demoPoint` has its only vertex at (0.98, 0), inside the logical range; both
duplicate actions append a copy with the vertex (1.03, 0.05), whose x lies
outside the range. -/
theorem duplicate_leaves_range :
    (∀ v ∈ (demoPoint : Shape ℚ).vertices, (-1 ≤ v.x ∧ v.x ≤ 1) ∧ (-1 ≤ v.y ∧ v.y ≤ 1))
      ∧ (keyDuplicate "shape_c" (demoPointScene : AppState ℚ)).shapes
        = [demoPoint, { (demoPoint : Shape ℚ) with
            id := "shape_c"
            name := "point_0_copy"
            vertices := [⟨103 / 100, 1 / 20⟩] }]
      ∧ (hierarchyDuplicate "shape_p" "shape_c" (demoPointScene : AppState ℚ)).shapes
        = [demoPoint, { (demoPoint : Shape ℚ) with
            id := "shape_c"
            name := "point_0_copy"
            vertices := [⟨103 / 100, 1 / 20⟩] }]
      ∧ ¬ ((103 : ℚ) / 100 ≤ 1) := by
  refine ⟨?_, ?_, ?_, by norm_num⟩
  · intro v hv
    simp only [demoPoint, List.mem_singleton] at hv
    subst hv
    norm_num
  · simp [keyDuplicate, demoPointScene, demoPoint, duplicateShape, initialState]
    norm_num
  · simp [hierarchyDuplicate, demoPointScene, demoPoint, duplicateShape, initialState]
    norm_num

end CancelExamples

/-! ## Theorems: event traces -/

section TraceTheorems

variable {K : Type} [LinearOrderedField K] [FloorRing K]

/-- Handling a list of events from a reachable state ends in a reachable state. -/
theorem reachable_of_runEvents (M : JSMath K) :
    ∀ (evs : List (Event K)) (state state' : AppState K), Reachable M state →
      runEvents M evs state = some state' → Reachable M state' := by
  intro evs
  induction evs with
  | nil =>
    intro state state' hr h
    simp only [runEvents, Option.some.injEq] at h
    rw [← h]
    exact hr
  | cons ev rest ih =>
    intro state state' hr h
    unfold runEvents at h
    cases hstep : step M ev state with
    | none => rw [hstep] at h; cases h
    | some s1 =>
      rw [hstep] at h
      exact ih s1 state' (Reachable.next ev state s1 hr hstep) h

/-- With a drag-to-define tool and the primary button, `mousedown` records the
logical point of the event as the only accumulated point and sets the drawing
flag. -/
theorem onMouseDown_dragTool (M : JSMath K) (newId : String) (e : MouseEvent K)
    (canvas : Canvas K) (state : AppState K)
    (htool : state.currentTool = "rectangle" ∨ state.currentTool = "roundedrect"
      ∨ state.currentTool = "circle" ∨ state.currentTool = "polygon")
    (hb : e.button = 0) :
    onMouseDown M newId e canvas state
      = some { state with
          isDrawing := true
          drawingPoints := [screenToNDC (e.clientX - e.rectLeft) (e.clientY - e.rectTop) canvas
            state.viewport (some state.settings)] } := by
  have h01 : ¬ ((0 : ℕ) = 1) := by decide
  rcases htool with h | h | h | h <;>
    simp [onMouseDown, hb, h, h01]

end TraceTheorems

section TraceExamples

/-- C30. After the rectangle tool is chosen, a pointer-down and the escape key, the
state `cancelledDragState` is reached: the drawing flag is set, the tool is
rectangle and no point is accumulated.  The next `mousemove` reads
`state.drawingPoints[0]`, which is `undefined`, and has no result. -/
theorem cancelled_drag_has_no_anchor :
    runEvents realMath cancelledDragEvents initialState = some cancelledDragState
      ∧ Reachable realMath cancelledDragState
      ∧ (cancelledDragState : AppState ℝ).isDrawing = true
      ∧ (cancelledDragState : AppState ℝ).currentTool = "rectangle"
      ∧ (cancelledDragState : AppState ℝ).drawingPoints[0]? = none
      ∧ onMouseMove realMath "shape_2" 0 (demoEvent 430 300) demoCanvas cancelledDragState
        = none := by
  have hrun : runEvents realMath cancelledDragEvents initialState
      = some (cancelledDragState : AppState ℝ) := by
    have hdown := onMouseDown_dragTool realMath "shape_1" (demoEvent 400 300) demoCanvas
      (toolClick "rectangle" (initialState : AppState ℝ)) (Or.inl rfl) rfl
    simp only [cancelledDragEvents, runEvents, step, hdown]
    rfl
  refine ⟨hrun, reachable_of_runEvents realMath _ _ _ Reachable.init hrun, rfl, rfl, rfl, ?_⟩
  simp [onMouseMove, cancelledDragState, initialState]

/-- C26. The initial settings define neither `roundedCornerRadius` nor
`roundedCornerSegments`: with the rounded-rectangle tool chosen in the initial
state, the pointer-down starts the drag and the preview call of the next
`mousemove` receives `undefined` for both, so it has no result in the number
model. -/
theorem initial_settings_lack_rounded_corner :
    (initialState : AppState ℝ).settings.roundedCornerRadius = none
      ∧ (initialState : AppState ℝ).settings.roundedCornerSegments = none
      ∧ ∃ s1 : AppState ℝ,
        onMouseDown realMath "shape_1" (demoEvent 250 450) demoCanvas
            (toolClick "roundedrect" initialState) = some s1
        ∧ s1.isDrawing = true
        ∧ s1.currentTool = "roundedrect"
        ∧ s1.settings = (initialState : AppState ℝ).settings
        ∧ onMouseMove realMath "shape_2" 0 (demoEvent 550 150) demoCanvas s1 = none := by
  refine ⟨rfl, rfl, _, onMouseDown_dragTool realMath "shape_1" (demoEvent 250 450) demoCanvas
    (toolClick "roundedrect" (initialState : AppState ℝ)) (Or.inr (Or.inl rfl)) rfl,
    rfl, rfl, rfl, ?_⟩
  simp [onMouseMove, toolClick, initialState, DEFAULT_SETTINGS]

end TraceExamples

/-! ## Theorems: generator parameters -/

section CheckedTheorems

variable {K : Type} [LinearOrderedField K]

/-- When every computation of the list has a result, `allSome` collects them. -/
theorem allSome_map_some {α β : Type} (f : α → β) (l : List α) :
    allSome (l.map fun a => some (f a)) = some (l.map f) := by
  induction l with
  | nil => rfl
  | cons a rest ih => simp only [List.map_cons, allSome, ih]

/-- The check of `jsDiv` fails exactly for the divisor 0. -/
theorem jsDiv_eq_some {a b : K} (hb : b ≠ 0) : jsDiv a b = some (a / b) := by
  simp [jsDiv, hb]

/-- C27 (amended). For every centre and edge point: with a segment count of at least
1, every division `i / segments` of `createCircle` has a non-zero divisor and the
checked computation returns the shape `createCircle` returns, all of whose
vertex coordinates are numbers; with the segment count 0 the loop body runs once
and divides 0 by 0, so the checked computation has no result. -/
theorem createCircle_segments (M : JSMath K) (id : String) (now : ℕ) (center edge : Point K)
    (color : String) :
    (∀ segments : ℕ, 1 ≤ segments →
        (∀ i : ℕ, i ≤ segments → jsDiv (i : K) (segments : K) = some ((i : K) / (segments : K)))
        ∧ createCircleChecked M id now center edge segments color
          = some (createCircle M id now center edge segments color))
      ∧ jsDiv ((0 : ℕ) : K) ((0 : ℕ) : K) = none
      ∧ createCircleChecked M id now center edge 0 color = none := by
  refine ⟨?_, by simp [jsDiv], by simp [createCircleChecked, jsDiv, allSome]⟩
  intro segments hs
  have hne : (segments : K) ≠ 0 := by
    have : 0 < segments := hs
    exact_mod_cast this.ne'
  refine ⟨fun i _ => jsDiv_eq_some hne, ?_⟩
  simp only [createCircleChecked, createCircle, jsDiv_eq_some hne, allSome_map_some]

end CheckedTheorems

section CheckedExamples

/-- C27 (counterexample). The circle with centre (0, 0) and edge point (1/2, 0) and the
segment count 0: the only loop iteration divides 0 by 0, and the shape has a
vertex whose coordinates are not numbers. -/
theorem createCircle_zero_segments_undefined :
    jsDiv (((0 : ℕ) : ℝ)) (((0 : ℕ) : ℝ)) = none
      ∧ createCircleChecked realMath "shape_1" 0 ⟨0, 0⟩ ⟨1 / 2, 0⟩ 0 "#10b981" = none := by
  constructor
  · simp [jsDiv]
  · simp [createCircleChecked, jsDiv, allSome]

/-- Witness for C27 (amended): the default segment count 24. -/
theorem createCircle_segments_witness :
    createCircleChecked realMath "shape_1" 0 ⟨0, 0⟩ ⟨1 / 2, 0⟩ 24 "#10b981"
      = some (createCircle realMath "shape_1" 0 ⟨0, 0⟩ ⟨1 / 2, 0⟩ 24 "#10b981") :=
  ((createCircle_segments realMath "shape_1" 0 ⟨0, 0⟩ ⟨1 / 2, 0⟩ "#10b981").1 24
    (by norm_num)).2

end CheckedExamples

/-! ## Theorems: the rounded rectangle stays in its bounding box -/

section RoundedBoxTheorems

/-- The first vertex of a rounded rectangle is the centre, followed by the
perimeter. -/
theorem roundedRectangleVertices_eq_cons (p1 p2 : Point ℝ) (radiusRatio : ℝ) (segments : ℕ) :
    roundedRectangleVertices realMath p1 p2 radiusRatio segments
      = ⟨(min p1.x p2.x + max p1.x p2.x) / 2, (min p1.y p2.y + max p1.y p2.y) / 2⟩
        :: (roundedRectangleVertices realMath p1 p2 radiusRatio segments).drop 1 := by
  rw [roundedRectangleVertices_eq_fanList, fanList_eq]
  rfl

/-- C28 (amended). In exact real arithmetic: for all corner points `p1`, `p2`, every
radius ratio `≥ 0` and every segment count `≥ 1`, the effective radius of
`createRoundedRectangle` is `min (shorterSide / 2) (ratio * shorterSide)` and every
vertex it emits lies in the closed bounding box of `p1` and `p2`; hence, if `p1` and `p2` lie in `[-1, 1]²`,
so does every emitted vertex. -/
theorem createRoundedRectangle_in_bbox (id : String) (now : ℕ) (p1 p2 : Point ℝ)
    (radiusRatio : ℝ) (segments : ℕ) (color : String) (h0 : 0 ≤ radiusRatio)
    (_hs : 1 ≤ segments) :
    cornerRadiusOf p1 p2 radiusRatio
        = min (min (max p1.x p2.x - min p1.x p2.x) (max p1.y p2.y - min p1.y p2.y) / 2)
            (radiusRatio * min (max p1.x p2.x - min p1.x p2.x) (max p1.y p2.y - min p1.y p2.y))
      ∧ (∀ v ∈ (createRoundedRectangle realMath id now p1 p2 radiusRatio segments color).vertices,
          (min p1.x p2.x ≤ v.x ∧ v.x ≤ max p1.x p2.x)
            ∧ (min p1.y p2.y ≤ v.y ∧ v.y ≤ max p1.y p2.y))
      ∧ (((-1 ≤ p1.x ∧ p1.x ≤ 1) ∧ (-1 ≤ p1.y ∧ p1.y ≤ 1)) →
          ((-1 ≤ p2.x ∧ p2.x ≤ 1) ∧ (-1 ≤ p2.y ∧ p2.y ≤ 1)) →
          ∀ v ∈ (createRoundedRectangle realMath id now p1 p2 radiusRatio segments color).vertices,
            (-1 ≤ v.x ∧ v.x ≤ 1) ∧ (-1 ≤ v.y ∧ v.y ≤ 1)) := by
  have hbox : ∀ v ∈ (createRoundedRectangle realMath id now p1 p2 radiusRatio segments
      color).vertices,
      (min p1.x p2.x ≤ v.x ∧ v.x ≤ max p1.x p2.x)
        ∧ (min p1.y p2.y ≤ v.y ∧ v.y ≤ max p1.y p2.y) := by
    intro v hv
    have hv' : v ∈ roundedRectangleVertices realMath p1 p2 radiusRatio segments := hv
    rw [roundedRectangleVertices_eq_cons, List.mem_cons] at hv'
    rcases hv' with rfl | hv'
    · have hx := min_le_max_coord p1.x p2.x
      have hy := min_le_max_coord p1.y p2.y
      refine ⟨⟨?_, ?_⟩, ?_, ?_⟩ <;> dsimp only <;> linarith
    · exact roundedRectangle_perimeter_bounds p1 p2 radiusRatio segments h0 v hv'
  refine ⟨?_, hbox, ?_⟩
  · have hm : 0 ≤ min (max p1.x p2.x - min p1.x p2.x) (max p1.y p2.y - min p1.y p2.y) :=
      le_min (sub_nonneg.mpr (min_le_max_coord p1.x p2.x))
        (sub_nonneg.mpr (min_le_max_coord p1.y p2.y))
    unfold cornerRadiusOf
    dsimp only
    generalize min (max p1.x p2.x - min p1.x p2.x) (max p1.y p2.y - min p1.y p2.y) = m at hm ⊢
    rcases le_total radiusRatio (1 / 2) with hr | hr
    · rw [min_eq_left hr, mul_comm]
    · rw [min_eq_right hr]
      have h1 : m * (1 / 2) = m / 2 := by ring
      have h2 : m / 2 ≤ radiusRatio * m := by nlinarith
      rw [h1, min_self, min_eq_left h2]
  · intro hp1 hp2 v hv
    obtain ⟨⟨hx1, hx2⟩, hy1, hy2⟩ := hbox v hv
    exact ⟨⟨le_trans (le_min hp1.1.1 hp2.1.1) hx1, le_trans hx2 (max_le hp1.1.2 hp2.1.2)⟩,
      le_trans (le_min hp1.2.1 hp2.2.1) hy1, le_trans hy2 (max_le hp1.2.2 hp2.2.2)⟩

/-- Witness for C28 (amended): corners (-1, -1) and (1, 1/2), ratio 0.2 and 8 segments. -/
theorem createRoundedRectangle_in_bbox_witness :
    List.Forall (fun v : Point ℝ => (-1 ≤ v.x ∧ v.x ≤ 1) ∧ (-1 ≤ v.y ∧ v.y ≤ 1))
      (createRoundedRectangle realMath "shape_1" 0 ⟨-1, -1⟩ ⟨1, 1 / 2⟩ (1 / 5) 8
        "#10b981").vertices :=
  List.forall_iff_forall_mem.mpr
    ((createRoundedRectangle_in_bbox "shape_1" 0 ⟨-1, -1⟩ ⟨1, 1 / 2⟩ (1 / 5) 8 "#10b981"
      (by norm_num) (by norm_num)).2.2 (by norm_num) (by norm_num))

end RoundedBoxTheorems

/-! ## Worked examples on the demo canvas -/

section DemoCanvasTheorems

/-- On `demoCanvas` at zoom 1 without pan and without snapping, the display point
`(x, y)` is the logical point `((x - 400) / 300, -(y - 300) / 300)`, clamped. -/
theorem screenToNDC_demoCanvas (x y : ℝ) (settings : Settings ℝ)
    (hs : settings.snapToGrid = false) :
    screenToNDC x y demoCanvas ⟨1, 0, 0⟩ (some settings)
      = ⟨clampNDC ((x - 400) / 300), clampNDC (-(y - 300) / 300)⟩ := by
  have hmin : min (800 : ℝ) 600 = 600 := min_eq_right (by norm_num)
  simp only [screenToNDC, snapCoord, demoCanvas, hs, hmin, Bool.false_eq_true, if_false]
  norm_num

/-- On `demoCanvas` at zoom 1 without pan, the logical point `(x, y)` is shown at
`(400 + 300 x, 300 - 300 y)`. -/
theorem ndcToScreen_demoCanvas (x y : ℝ) :
    ndcToScreen x y demoCanvas ⟨1, 0, 0⟩ = ⟨400 + x * 300, 300 - y * 300⟩ := by
  have hmin : min (800 : ℝ) 600 = 600 := min_eq_right (by norm_num)
  simp only [ndcToScreen, demoCanvas, hmin]
  norm_num

/-- The distance `Math.hypot(a, 0)` is `|a|`. -/
theorem hypot_zero_right (a : ℝ) : realMath.hypot a 0 = |a| := by
  show Real.sqrt (a ^ 2 + 0 ^ 2) = |a|
  rw [show a ^ 2 + (0 : ℝ) ^ 2 = a ^ 2 by ring, Real.sqrt_sq_eq_abs]

/-- Witness for C21: on `demoCanvas` the pointer goes down at (250, 450), the logical
point (-0.5, -0.5), and moves to (550, 150), the logical point (0.5, 0.5). -/
theorem rectangle_drag_commit_witness :
    ∃ (s1 s2 : AppState ℝ) (shape : Shape ℝ),
      onMouseDown realMath "shape_1" (demoEvent 250 450) demoCanvas
          (toolClick "rectangle" initialState) = some s1
      ∧ onMouseMove realMath "shape_2" 0 (demoEvent 550 150) demoCanvas s1 = some s2
      ∧ shape.type = "rectangle"
      ∧ shape.vertices = [⟨-1 / 2, -1 / 2⟩, ⟨1 / 2, -1 / 2⟩, ⟨1 / 2, 1 / 2⟩,
          ⟨-1 / 2, -1 / 2⟩, ⟨1 / 2, 1 / 2⟩, ⟨-1 / 2, 1 / 2⟩]
      ∧ onMouseUp "shape_3" (demoEvent 550 150) s2
        = { toolClick "rectangle" (initialState : AppState ℝ) with
            shapes := [shape]
            selectedIds := [shape.id]
            isDrawing := false
            drawingPoints := []
            tempShape := none } := by
  obtain ⟨s1, s2, shape, h1, h2, ht, hv, hup⟩ := rectangle_drag_commit realMath "shape_1"
    "shape_2" "shape_3" 0 (demoEvent 250 450) (demoEvent 550 150) (demoEvent 550 150)
    demoCanvas (toolClick "rectangle" (initialState : AppState ℝ)) rfl rfl rfl
    (by simp [demoEvent])
  refine ⟨s1, s2, shape, h1, h2, ht, ?_, hup⟩
  have ha : screenToNDC ((demoEvent 250 450 : MouseEvent ℝ).clientX - (demoEvent 250 450).rectLeft)
      ((demoEvent 250 450 : MouseEvent ℝ).clientY - (demoEvent 250 450).rectTop) demoCanvas
      (toolClick "rectangle" (initialState : AppState ℝ)).viewport
      (some (toolClick "rectangle" (initialState : AppState ℝ)).settings) = ⟨-1 / 2, -1 / 2⟩ := by
    have e1 : clampNDC (((250 : ℝ) - 0 - 400) / 300) = -1 / 2 := by
      rw [clampNDC_of_mem (by norm_num) (by norm_num)]; norm_num
    have e2 : clampNDC (-((450 : ℝ) - 0 - 300) / 300) = -1 / 2 := by
      rw [clampNDC_of_mem (by norm_num) (by norm_num)]; norm_num
    show screenToNDC ((250 : ℝ) - 0) (450 - 0) demoCanvas ⟨1, 0, 0⟩ (some DEFAULT_SETTINGS) = _
    rw [screenToNDC_demoCanvas _ _ _ rfl, e1, e2]
  have hb : screenToNDC ((demoEvent 550 150 : MouseEvent ℝ).clientX - (demoEvent 550 150).rectLeft)
      ((demoEvent 550 150 : MouseEvent ℝ).clientY - (demoEvent 550 150).rectTop) demoCanvas
      (toolClick "rectangle" (initialState : AppState ℝ)).viewport
      (some (toolClick "rectangle" (initialState : AppState ℝ)).settings) = ⟨1 / 2, 1 / 2⟩ := by
    have e1 : clampNDC (((550 : ℝ) - 0 - 400) / 300) = 1 / 2 := by
      rw [clampNDC_of_mem (by norm_num) (by norm_num)]; norm_num
    have e2 : clampNDC (-((150 : ℝ) - 0 - 300) / 300) = 1 / 2 := by
      rw [clampNDC_of_mem (by norm_num) (by norm_num)]; norm_num
    show screenToNDC ((550 : ℝ) - 0) (150 - 0) demoCanvas ⟨1, 0, 0⟩ (some DEFAULT_SETTINGS) = _
    rw [screenToNDC_demoCanvas _ _ _ rfl, e1, e2]
  rw [hv, ha, hb]
  have hmin : min (-1 / 2 : ℝ) (1 / 2) = -1 / 2 := min_eq_left (by norm_num)
  have hmax : max (-1 / 2 : ℝ) (1 / 2) = 1 / 2 := max_eq_right (by norm_num)
  simp only [hmin, hmax]

end DemoCanvasTheorems

/-! ## Theorems: the vertex-edit focus -/

section StaleFocusExamples

/-- The display point (400, 300) of `demoCanvas` is the logical point (0, 0). -/
theorem demo_screenToNDC_origin :
    screenToNDC (400 : ℝ) 300 demoCanvas ⟨1, 0, 0⟩ (some DEFAULT_SETTINGS) = ⟨0, 0⟩ := by
  rw [screenToNDC_demoCanvas _ _ _ rfl]
  have e : clampNDC (0 : ℝ) = 0 := clampNDC_of_mem (by norm_num) (by norm_num)
  norm_num [e]

/-- The display point (550, 300) of `demoCanvas` is the logical point (1/2, 0). -/
theorem demo_screenToNDC_half :
    screenToNDC (550 : ℝ) 300 demoCanvas ⟨1, 0, 0⟩ (some DEFAULT_SETTINGS) = ⟨1 / 2, 0⟩ := by
  rw [screenToNDC_demoCanvas _ _ _ rfl]
  have e : clampNDC (0 : ℝ) = 0 := clampNDC_of_mem (by norm_num) (by norm_num)
  have e1 : clampNDC ((1 : ℝ) / 2) = 1 / 2 := clampNDC_of_mem (by norm_num) (by norm_num)
  norm_num [e, e1]

/-- The display point (430, 300) of `demoCanvas` is the logical point (1/10, 0). -/
theorem demo_screenToNDC_tenth :
    screenToNDC (430 : ℝ) 300 demoCanvas ⟨1, 0, 0⟩ (some DEFAULT_SETTINGS) = ⟨1 / 10, 0⟩ := by
  rw [screenToNDC_demoCanvas _ _ _ rfl]
  have e : clampNDC (0 : ℝ) = 0 := clampNDC_of_mem (by norm_num) (by norm_num)
  have e1 : clampNDC ((1 : ℝ) / 10) = 1 / 10 := clampNDC_of_mem (by norm_num) (by norm_num)
  norm_num [e, e1]

/-- C25. The events of `staleFocusEvents` lead from the initial state to
`staleFocusState`: the vertex-edit focus is 1, set on the line `demoLine`, while
the sole selected shape is the point `demoOrigin` with its single vertex, so the
focus is no index into its vertex list.  The next `mousemove` of the vertex tool
writes `vertices[1]` of the point: its vertex count changes from 1 to 2. -/
theorem stale_focus_writes_outside :
    runEvents realMath staleFocusEvents initialState = some staleFocusState
      ∧ Reachable realMath staleFocusState
      ∧ (staleFocusState : AppState ℝ).editingVertexIndex = 1
      ∧ (staleFocusState : AppState ℝ).selectedIds = [(demoOrigin : Shape ℝ).id]
      ∧ (demoOrigin : Shape ℝ).vertices.length = 1
      ∧ onMouseMove realMath "shape_7" 0 (demoEvent 430 300) demoCanvas staleFocusState
        = some { (staleFocusState : AppState ℝ) with
            shapes := [demoLine, { (demoOrigin : Shape ℝ) with
              vertices := [⟨0, 0⟩, ⟨1 / 10, 0⟩] }] } := by
  have h1 : onMouseDown realMath "shape_1" (demoEvent 400 300) demoCanvas
      (toolClick "line" (initialState : AppState ℝ))
      = some { (initialState : AppState ℝ) with
          currentTool := "line"
          drawingPoints := [⟨0, 0⟩] } := by
    simp [onMouseDown, demoEvent, toolClick, initialState, AppState.viewport, handleLineDown,
      demo_screenToNDC_origin]
  have h2 : onMouseUp "shape_2" (demoEvent 400 300)
      { (initialState : AppState ℝ) with
          currentTool := "line"
          drawingPoints := [⟨0, 0⟩] }
      = { (initialState : AppState ℝ) with
          currentTool := "line"
          drawingPoints := [⟨0, 0⟩] } := by
    simp [onMouseUp, demoEvent]
  have h3 : onMouseDown realMath "shape_l" (demoEvent 550 300) demoCanvas
      { (initialState : AppState ℝ) with
          currentTool := "line"
          drawingPoints := [⟨0, 0⟩] }
      = some { (initialState : AppState ℝ) with
          currentTool := "line"
          shapes := [demoLine]
          selectedIds := ["shape_l"] } := by
    have hn : "line_" ++ toString 0 = "line_0" := by decide
    have hhalf : screenToNDC (550 : ℝ) 300 demoCanvas ⟨1, 0, 0⟩ (some DEFAULT_SETTINGS)
        = ⟨2⁻¹, 0⟩ := by rw [demo_screenToNDC_half]; norm_num
    have hcol : (DEFAULT_SETTINGS : Settings ℝ).defaultColor = "#10b981" := rfl
    simp [onMouseDown, demoEvent, initialState, AppState.viewport, handleLineDown, addShape,
      hhalf, demoLine, hn, hcol]
  have h4 : onMouseUp "shape_3" (demoEvent 550 300)
      { (initialState : AppState ℝ) with
          currentTool := "line"
          shapes := [demoLine]
          selectedIds := ["shape_l"] }
      = { (initialState : AppState ℝ) with
          currentTool := "line"
          shapes := [demoLine]
          selectedIds := ["shape_l"] } := by
    simp [onMouseUp, demoEvent]
  have h5 : onMouseDown realMath "shape_4" (demoEvent 550 300) demoCanvas
      (toolClick "vertex" { (initialState : AppState ℝ) with
          currentTool := "line"
          shapes := [demoLine]
          selectedIds := ["shape_l"] })
      = some { (initialState : AppState ℝ) with
          currentTool := "vertex"
          shapes := [demoLine]
          selectedIds := ["shape_l"]
          editingVertexIndex := 1 } := by
    have ha : |(400 : ℝ) - 550| = 150 := by
      rw [show (400 : ℝ) - 550 = -150 by norm_num, abs_neg]
      exact abs_of_nonneg (by norm_num)
    have hb : |(400 : ℝ) + 2⁻¹ * 300 - 550| = 0 := by
      rw [show (400 : ℝ) + 2⁻¹ * 300 - 550 = 0 by norm_num, abs_zero]
    simp [onMouseDown, demoEvent, toolClick, initialState, AppState.viewport, handleVertexDown,
      demoLine, nearestVertexLoop, ndcToScreen_demoCanvas, hypot_zero_right, ha, hb]
  have h6 : onMouseUp "shape_5" (demoEvent 550 300)
      (toolClick "point" { (initialState : AppState ℝ) with
          currentTool := "vertex"
          shapes := [demoLine]
          selectedIds := ["shape_l"]
          editingVertexIndex := 1 })
      = { (initialState : AppState ℝ) with
          currentTool := "point"
          shapes := [demoLine]
          selectedIds := ["shape_l"]
          editingVertexIndex := 1 } := by
    simp [onMouseUp, demoEvent, toolClick, initialState]
  have h7 : onMouseDown realMath "shape_o" (demoEvent 400 300) demoCanvas
      { (initialState : AppState ℝ) with
          currentTool := "point"
          shapes := [demoLine]
          selectedIds := ["shape_l"]
          editingVertexIndex := 1 }
      = some { (initialState : AppState ℝ) with
          currentTool := "point"
          shapes := [demoLine, demoOrigin]
          selectedIds := ["shape_o"]
          editingVertexIndex := 1 } := by
    have hn : "point_" ++ toString 1 = "point_1" := by decide
    have hcol : (DEFAULT_SETTINGS : Settings ℝ).defaultColor = "#10b981" := rfl
    simp [onMouseDown, demoEvent, initialState, AppState.viewport, addPoint, addShape,
      demo_screenToNDC_origin, demoLine, demoOrigin, hn, hcol]
  have h8 : onMouseUp "shape_6" (demoEvent 400 300)
      { (initialState : AppState ℝ) with
          currentTool := "point"
          shapes := [demoLine, demoOrigin]
          selectedIds := ["shape_o"]
          editingVertexIndex := 1 }
      = { (initialState : AppState ℝ) with
          currentTool := "point"
          shapes := [demoLine, demoOrigin]
          selectedIds := ["shape_o"]
          editingVertexIndex := 1 } := by
    simp [onMouseUp, demoEvent]
  have hrun : runEvents realMath staleFocusEvents initialState
      = some (staleFocusState : AppState ℝ) := by
    simp only [staleFocusEvents, runEvents, step, h1, h2, h3, h4, h5, h6, h7, h8]
    rfl
  refine ⟨hrun, reachable_of_runEvents realMath _ _ _ Reachable.init hrun, rfl, rfl, rfl, ?_⟩
  have hc : |(400 : ℝ) - 430| = 30 := by
    rw [show (400 : ℝ) - 430 = -30 by norm_num, abs_neg]
    exact abs_of_nonneg (by norm_num)
  have htenth : screenToNDC (430 : ℝ) 300 demoCanvas ⟨1, 0, 0⟩ (some DEFAULT_SETTINGS)
      = ⟨10⁻¹, 0⟩ := by rw [demo_screenToNDC_tenth]; norm_num
  simp [onMouseMove, demoEvent, staleFocusState, initialState, AppState.viewport,
    handleVertexMove, demoLine, demoOrigin, nearestVertexLoop, ndcToScreen_demoCanvas,
    hypot_zero_right, hc, htenth, assignVertex, modifyFirst]
  refine ⟨?_, by norm_num⟩
  rw [min_eq_right (by norm_num), max_eq_right (by norm_num)]

end StaleFocusExamples

/-! ## Theorems: the selection invariant -/

section SelectionListLemmas

variable {K : Type}

/-- An update that keeps identities keeps the list of identities. -/
theorem modifyFirst_map_id (p : Shape K → Bool) (f : Shape K → Shape K)
    (hf : ∀ s, (f s).id = s.id) :
    ∀ l : List (Shape K), (modifyFirst p f l).map (fun s => s.id) = l.map fun s => s.id := by
  intro l
  induction l with
  | nil => rfl
  | cons a rest ih =>
    unfold modifyFirst
    split_ifs
    · simp [hf a]
    · simp [ih]

/-- The loop of `handleMoveMove` keeps the list of identities. -/
theorem foldl_modifyFirst_map_id (f : Shape K → Shape K) (hf : ∀ s, (f s).id = s.id) :
    ∀ (sel : List String) (l : List (Shape K)),
      (sel.foldl (fun shapes id => modifyFirst (fun s => decide (s.id = id)) f shapes) l).map
          (fun s => s.id) = l.map fun s => s.id := by
  intro sel
  induction sel with
  | nil => intro l; rfl
  | cons i rest ih =>
    intro l
    rw [List.foldl_cons, ih, modifyFirst_map_id _ f hf]

/-- The selection invariant only reads the selection and the shape identities. -/
theorem selectionLive_of_eq {state state' : AppState K}
    (h1 : state'.selectedIds = state.selectedIds)
    (h2 : (state'.shapes.map fun s => s.id) = state.shapes.map fun s => s.id)
    (h : state.selectionLive) : state'.selectionLive := by
  unfold AppState.selectionLive at h ⊢
  rw [h1, h2]
  exact h

/-- A state whose selection is the identity of its last shape satisfies the
selection invariant. -/
theorem selectionLive_last (state : AppState K) (shapes : List (Shape K)) (shape : Shape K)
    (h1 : state.shapes = shapes ++ [shape]) (h2 : state.selectedIds = [shape.id]) :
    state.selectionLive := by
  unfold AppState.selectionLive
  rw [h1, h2]
  refine ⟨List.nodup_singleton _, ?_⟩
  intro id hid
  rw [List.mem_singleton] at hid
  simp [hid]

/-- An empty selection satisfies the selection invariant. -/
theorem selectionLive_nil (state : AppState K) (h : state.selectedIds = []) :
    state.selectionLive := by
  unfold AppState.selectionLive
  rw [h]
  exact ⟨List.nodup_nil, fun _ hid => absurd hid (List.not_mem_nil _)⟩

/-- Committing a shape establishes the selection invariant. -/
theorem addShape_selectionLive (newId : String) (shape : Shape K) (state : AppState K) :
    (addShape newId shape state).selectionLive :=
  selectionLive_last _ state.shapes (if shape.id = "" then { shape with id := newId } else shape)
    rfl rfl

/-- Toggling a live identity in the selection, or replacing the selection by it,
keeps the selection invariant. -/
theorem selectionLive_toggle (state : AppState K) (id : String)
    (hid : id ∈ state.shapes.map fun s => s.id) (h : state.selectionLive) :
    ({ state with selectedIds := state.selectedIds.erase id } : AppState K).selectionLive
      ∧ (¬ id ∈ state.selectedIds →
        ({ state with selectedIds := state.selectedIds ++ [id] } : AppState K).selectionLive)
      ∧ ({ state with selectedIds := [id] } : AppState K).selectionLive := by
  obtain ⟨hnd, hlive⟩ := h
  refine ⟨⟨hnd.erase id, fun i hi => hlive i (List.mem_of_mem_erase hi)⟩, fun hnot => ⟨?_, ?_⟩,
    ⟨List.nodup_singleton _, ?_⟩⟩
  · show (state.selectedIds ++ [id]).Nodup
    rw [List.nodup_append]
    refine ⟨hnd, List.nodup_singleton _, ?_⟩
    intro a ha hb
    rw [List.mem_singleton] at hb
    exact hnot (hb ▸ ha)
  · intro i hi
    show i ∈ state.shapes.map fun s => s.id
    have hi' : i ∈ state.selectedIds ++ [id] := hi
    rw [List.mem_append, List.mem_singleton] at hi'
    rcases hi' with hi' | rfl
    · exact hlive i hi'
    · exact hid
  · intro i hi
    show i ∈ state.shapes.map fun s => s.id
    have hi' : i ∈ [id] := hi
    rw [List.mem_singleton] at hi'
    rw [hi']
    exact hid

end SelectionListLemmas

section SelectionLemmas

variable {K : Type} [LinearOrderedField K]

/-- The shape returned by the hit test is one of the list. -/
theorem hitTest_mem (M : JSMath K) (screenX screenY : K) (shapes : List (Shape K))
    (canvas : Canvas K) (viewport : Viewport K) (s : Shape K)
    (h : hitTest M screenX screenY shapes canvas viewport = some (some s)) : s ∈ shapes := by
  obtain ⟨l1, l2, hl, _, _⟩ :=
    (hitTestLoop_eq_some_some M screenX screenY canvas viewport shapes.reverse s).mp h
  have : s ∈ shapes.reverse := by rw [hl]; simp
  exact List.mem_reverse.mp this

/-- The select tool's pointer-down keeps the selection invariant. -/
theorem handleSelectDown_selectionLive (M : JSMath K) (screenX screenY : K) (shiftKey : Bool)
    (canvas : Canvas K) (state state' : AppState K) (hinv : state.selectionLive)
    (h : handleSelectDown M screenX screenY shiftKey canvas state = some state') :
    state'.selectionLive := by
  unfold handleSelectDown at h
  split at h
  · cases h
  · rename_i hit hhit
    have hmem : hit.id ∈ state.shapes.map fun s => s.id :=
      List.mem_map.mpr ⟨hit, hitTest_mem M _ _ _ _ _ _ hhit, rfl⟩
    obtain ⟨he, ha, hs⟩ := selectionLive_toggle state hit.id hmem hinv
    split_ifs at h with h1 h2 h3
    · cases h; exact he
    · cases h; exact ha h2
    · cases h; exact hinv
    · cases h; exact hs
  · split_ifs at h
    · cases h; exact hinv
    · cases h; exact selectionLive_nil _ rfl

/-- The move tool's pointer-move keeps the selection and the shape identities. -/
theorem handleMoveMove_ids (ndc : Point K) (state state' : AppState K)
    (h : handleMoveMove ndc state = some state') :
    state'.selectedIds = state.selectedIds
      ∧ (state'.shapes.map fun s => s.id) = state.shapes.map fun s => s.id := by
  unfold handleMoveMove at h
  split at h
  · cases h
  · cases h
    refine ⟨rfl, ?_⟩
    apply foldl_modifyFirst_map_id
    intro s
    rfl

/-- The vertex tool's pointer-move keeps the selection and the shape identities. -/
theorem handleVertexMove_ids (M : JSMath K) (screenX screenY : K) (ndc : Point K)
    (canvas : Canvas K) (state state' : AppState K)
    (h : handleVertexMove M screenX screenY ndc canvas state = some state') :
    state'.selectedIds = state.selectedIds
      ∧ (state'.shapes.map fun s => s.id) = state.shapes.map fun s => s.id := by
  unfold handleVertexMove at h
  split at h
  · split at h
    · cases h
      exact ⟨rfl, rfl⟩
    · simp only [] at h
      split_ifs at h
      · split at h
        · cases h
        · cases h
          refine ⟨rfl, ?_⟩
          apply modifyFirst_map_id
          intro s
          rfl
      · cases h
        exact ⟨rfl, rfl⟩
  · cases h
    exact ⟨rfl, rfl⟩

end SelectionLemmas

section SelectionHandlerTheorems

variable {K : Type} [LinearOrderedField K] [FloorRing K]

/-- `mousedown` keeps the selection invariant. -/
theorem onMouseDown_selectionLive (M : JSMath K) (newId : String) (e : MouseEvent K)
    (canvas : Canvas K) (state state' : AppState K) (hinv : state.selectionLive)
    (h : onMouseDown M newId e canvas state = some state') : state'.selectionLive := by
  unfold onMouseDown at h
  dsimp only at h
  by_cases h1 : e.button = 1
  · rw [if_pos h1] at h
    cases h; exact hinv
  rw [if_neg h1] at h
  by_cases h2 : e.button ≠ 0
  · rw [if_pos h2] at h
    cases h; exact hinv
  rw [if_neg h2] at h
  by_cases h3 : state.currentTool = "select"
  · rw [if_pos h3] at h
    exact handleSelectDown_selectionLive M _ _ _ _ _ _ hinv h
  rw [if_neg h3] at h
  by_cases h4 : state.currentTool = "move"
  · rw [if_pos h4] at h
    cases h
    unfold handleMoveDown
    split_ifs
    · exact hinv
    · exact hinv
  rw [if_neg h4] at h
  by_cases h5 : state.currentTool = "vertex"
  · rw [if_pos h5] at h
    cases h
    unfold handleVertexDown
    split
    · split
      · exact hinv
      · dsimp only
        split_ifs
        · exact hinv
        · exact hinv
    · exact hinv
  rw [if_neg h5] at h
  by_cases h6 : state.currentTool = "point"
  · rw [if_pos h6] at h
    cases h
    exact addShape_selectionLive _ _ _
  rw [if_neg h6] at h
  by_cases h7 : state.currentTool = "line"
  · rw [if_pos h7] at h
    cases h
    unfold handleLineDown
    split
    · exact hinv
    · exact selectionLive_of_eq rfl rfl (addShape_selectionLive _ _ _)
  rw [if_neg h7] at h
  by_cases h8 : state.currentTool = "polyline" ∨ state.currentTool = "lineloop"
      ∨ state.currentTool = "fan"
  · rw [if_pos h8] at h
    cases h; exact hinv
  rw [if_neg h8] at h
  by_cases h9 : state.currentTool = "triangle"
  · rw [if_pos h9] at h
    cases h
    unfold handleTriangleDown
    dsimp only
    split_ifs
    · exact selectionLive_of_eq rfl rfl (addShape_selectionLive _ _ _)
    · exact hinv
  rw [if_neg h9] at h
  by_cases h10 : state.currentTool = "rectangle" ∨ state.currentTool = "roundedrect"
      ∨ state.currentTool = "circle" ∨ state.currentTool = "polygon"
  · rw [if_pos h10] at h
    cases h; exact hinv
  rw [if_neg h10] at h
  cases h; exact hinv

/-- `mousemove` keeps the selection and the shape identities. -/
theorem onMouseMove_ids (M : JSMath K) (newId : String) (now : ℕ) (e : MouseEvent K)
    (canvas : Canvas K) (state state' : AppState K)
    (h : onMouseMove M newId now e canvas state = some state') :
    state'.selectedIds = state.selectedIds
      ∧ (state'.shapes.map fun s => s.id) = state.shapes.map fun s => s.id := by
  unfold onMouseMove at h
  dsimp only at h
  by_cases hp : state.isPanning = true
  · rw [if_pos hp] at h
    split at h
    · cases h
    · cases h
      exact ⟨rfl, rfl⟩
  rw [if_neg hp] at h
  by_cases h1 : state.currentTool = "move"
  · rw [if_pos h1] at h
    split_ifs at h
    · exact handleMoveMove_ids _ _ _ h
    · cases h
      exact ⟨rfl, rfl⟩
  rw [if_neg h1] at h
  by_cases h2 : state.currentTool = "vertex"
  · rw [if_pos h2] at h
    exact handleVertexMove_ids _ _ _ _ _ _ _ h
  rw [if_neg h2] at h
  by_cases h3 : state.currentTool = "rectangle"
  · rw [if_pos h3] at h
    split_ifs at h
    · split at h
      · cases h
      · cases h
        exact ⟨rfl, rfl⟩
    · cases h
      exact ⟨rfl, rfl⟩
  rw [if_neg h3] at h
  by_cases h4 : state.currentTool = "roundedrect"
  · rw [if_pos h4] at h
    split_ifs at h
    · split at h
      · cases h
        exact ⟨rfl, rfl⟩
      · cases h
    · cases h
      exact ⟨rfl, rfl⟩
  rw [if_neg h4] at h
  by_cases h5 : state.currentTool = "circle"
  · rw [if_pos h5] at h
    split_ifs at h
    · split at h
      · cases h
      · cases h
        exact ⟨rfl, rfl⟩
    · cases h
      exact ⟨rfl, rfl⟩
  rw [if_neg h5] at h
  by_cases h6 : state.currentTool = "polygon"
  · rw [if_pos h6] at h
    split_ifs at h
    · split at h
      · cases h
      · cases h
        exact ⟨rfl, rfl⟩
    · cases h
      exact ⟨rfl, rfl⟩
  rw [if_neg h6] at h
  by_cases h7 : state.currentTool = "line"
  · rw [if_pos h7] at h
    split at h
    · cases h
      exact ⟨rfl, rfl⟩
    · cases h
      exact ⟨rfl, rfl⟩
  rw [if_neg h7] at h
  by_cases h8 : state.currentTool = "polyline" ∨ state.currentTool = "lineloop"
      ∨ state.currentTool = "fan"
  · rw [if_pos h8] at h
    split_ifs at h
    · cases h
      exact ⟨rfl, rfl⟩
    · cases h
      exact ⟨rfl, rfl⟩
  rw [if_neg h8] at h
  by_cases h9 : state.currentTool = "triangle"
  · rw [if_pos h9] at h
    split_ifs at h
    · cases h
      exact ⟨rfl, rfl⟩
    · cases h
      exact ⟨rfl, rfl⟩
  rw [if_neg h9] at h
  cases h
  exact ⟨rfl, rfl⟩

end SelectionHandlerTheorems

section SelectionUpTheorems

variable {K : Type}

/-- `mouseup` keeps the selection invariant. -/
theorem onMouseUp_selectionLive (newId : String) (e : MouseEvent K) (state : AppState K)
    (hinv : state.selectionLive) : (onMouseUp newId e state).selectionLive := by
  unfold onMouseUp
  split_ifs
  · exact hinv
  · exact hinv
  · exact hinv
  · dsimp only
    split
    · exact selectionLive_of_eq rfl rfl (addShape_selectionLive _ _ _)
    · exact hinv
  · exact hinv

variable [LinearOrderedField K]

/-- The handlers of `ui.js` keep the selection invariant; a hierarchy click needs the
identity of a shape in the list. -/
theorem ui_selectionLive (state : AppState K) (hinv : state.selectionLive) :
    (∀ newId, (onDoubleClick newId state).selectionLive)
      ∧ (keyDelete state).selectionLive
      ∧ (deleteSelected state).selectionLive
      ∧ (∀ newId, (keyDuplicate newId state).selectionLive)
      ∧ (∀ id shiftKey, id ∈ (state.shapes.map fun s => s.id) →
          (hierarchyClick id shiftKey state).selectionLive)
      ∧ (∀ id, (hierarchyDelete id state).selectionLive)
      ∧ (∀ id newId, (hierarchyDuplicate id newId state).selectionLive) := by
  refine ⟨?_, ?_, ?_, ?_, ?_, ?_, ?_⟩
  · intro newId
    unfold onDoubleClick
    split_ifs
    · exact selectionLive_of_eq rfl rfl (addShape_selectionLive _ _ _)
    · exact hinv
  · unfold keyDelete
    split_ifs
    · exact selectionLive_nil _ rfl
    · exact hinv
  · exact selectionLive_nil _ rfl
  · intro newId
    unfold keyDuplicate
    split
    · split
      · exact hinv
      · exact selectionLive_last _ state.shapes (duplicateShape newId _) rfl rfl
    · exact hinv
  · intro id shiftKey hid
    obtain ⟨he, ha, hs⟩ := selectionLive_toggle state id hid hinv
    unfold hierarchyClick
    split_ifs with h1 h2
    · exact he
    · exact ha h2
    · exact hs
  · intro id
    obtain ⟨hnd, hlive⟩ := hinv
    refine ⟨hnd.filter _, ?_⟩
    intro i hi
    have hi' : i ∈ state.selectedIds.filter fun j => ! decide (j = id) := hi
    rw [List.mem_filter] at hi'
    obtain ⟨s, hs, hsi⟩ := List.mem_map.mp (hlive i hi'.1)
    refine List.mem_map.mpr ⟨s, ?_, hsi⟩
    show s ∈ state.shapes.filter fun s => ! decide (s.id = id)
    rw [List.mem_filter]
    refine ⟨hs, ?_⟩
    rw [hsi]
    exact hi'.2
  · intro id newId
    unfold hierarchyDuplicate
    split
    · exact hinv
    · exact selectionLive_last _ state.shapes (duplicateShape newId _) rfl rfl

end SelectionUpTheorems

section SelectionInvariant

variable {K : Type} [LinearOrderedField K] [FloorRing K]

/-- Every event the page can deliver keeps the selection invariant. -/
theorem step_selectionLive (M : JSMath K) (ev : Event K) (state state' : AppState K)
    (hd : ev.deliverable state = true) (hinv : state.selectionLive)
    (h : step M ev state = some state') : state'.selectionLive := by
  obtain ⟨hdc, hkd, hds, hkdup, hhc, hhd, hhdup⟩ := ui_selectionLive state hinv
  cases ev with
  | mouseDown newId e canvas => exact onMouseDown_selectionLive M newId e canvas state state' hinv h
  | mouseMove newId now e canvas =>
    obtain ⟨h1, h2⟩ := onMouseMove_ids M newId now e canvas state state' h
    exact selectionLive_of_eq h1 h2 hinv
  | mouseUp newId e =>
    simp only [step, Option.some.injEq] at h
    subst h
    exact onMouseUp_selectionLive newId e state hinv
  | wheel deltaY =>
    simp only [step, Option.some.injEq] at h
    subst h
    exact selectionLive_of_eq rfl rfl hinv
  | doubleClick newId =>
    simp only [step, Option.some.injEq] at h
    subst h
    exact hdc newId
  | toolClick tool =>
    simp only [step, Option.some.injEq] at h
    subst h
    exact selectionLive_of_eq rfl rfl hinv
  | keyEscape =>
    simp only [step, Option.some.injEq] at h
    subst h
    exact selectionLive_nil _ rfl
  | keyDelete =>
    simp only [step, Option.some.injEq] at h
    subst h
    exact hkd
  | deleteSelected =>
    simp only [step, Option.some.injEq] at h
    subst h
    exact hds
  | keyDuplicate newId =>
    simp only [step, Option.some.injEq] at h
    subst h
    exact hkdup newId
  | hierarchyClick id shiftKey =>
    simp only [step, Option.some.injEq] at h
    subst h
    exact hhc id shiftKey (of_decide_eq_true hd)
  | hierarchyDelete id =>
    simp only [step, Option.some.injEq] at h
    subst h
    exact hhd id
  | hierarchyDuplicate id newId =>
    simp only [step, Option.some.injEq] at h
    subst h
    exact hhdup id newId

/-- C24. In every state reached from the initial state by pointer events, wheel
events, double-clicks, tool switches, escape, delete-selected, delete-by-identity,
duplicate and hierarchy-click events (a hierarchy event carrying the identity of
a shape in the list), the selection contains no repeated identity and every
identity in it belongs to a shape in the shape list; deleting a shape by its
identity removes that identity from the selection in the same step, and deleting
the selected shapes empties the selection.  No assumption on the minted
identities is needed. -/
theorem selection_invariant (M : JSMath K) (state : AppState K) (h : UserReachable M state) :
    state.selectedIds.Nodup
      ∧ (∀ id ∈ state.selectedIds, ∃ shape ∈ state.shapes, shape.id = id)
      ∧ (∀ id, ¬ id ∈ (hierarchyDelete id state).selectedIds)
      ∧ (deleteSelected state).selectedIds = []
      ∧ (keyDelete state).selectedIds = [] := by
  have hinv : state.selectionLive := by
    induction h with
    | init => exact selectionLive_nil _ rfl
    | next ev state state' _ hd hstep ih => exact step_selectionLive M ev state state' hd ih hstep
  refine ⟨hinv.1, ?_, ?_, rfl, ?_⟩
  · intro id hid
    obtain ⟨s, hs, hsi⟩ := List.mem_map.mp (hinv.2 id hid)
    exact ⟨s, hs, hsi⟩
  · intro id hid
    have hid' : id ∈ state.selectedIds.filter fun j => ! decide (j = id) := hid
    rw [List.mem_filter] at hid'
    simpa using hid'.2
  · unfold keyDelete
    split_ifs with hlen
    · rfl
    · exact List.length_eq_zero.mp (Nat.eq_zero_of_not_pos hlen)

end SelectionInvariant

section SelectionExamples

/-- Witness for C24: the point tool is chosen in the initial state and a click at
(400, 300) commits a point, which is then the selection. -/
theorem selection_invariant_witness :
    ∃ state : AppState ℝ,
      onMouseDown realMath "shape_o" (demoEvent 400 300) demoCanvas
          (toolClick "point" initialState) = some state
      ∧ state.selectedIds = ["shape_o"]
      ∧ state.selectedIds.Nodup
      ∧ ∀ id ∈ state.selectedIds, ∃ shape ∈ state.shapes, shape.id = id := by
  have hdown : onMouseDown realMath "shape_o" (demoEvent 400 300) demoCanvas
      (toolClick "point" (initialState : AppState ℝ))
      = some { (initialState : AppState ℝ) with
          currentTool := "point"
          shapes := [{ (demoOrigin : Shape ℝ) with name := "point_0" }]
          selectedIds := ["shape_o"] } := by
    have hn : "point_" ++ toString 0 = "point_0" := by decide
    have hcol : (DEFAULT_SETTINGS : Settings ℝ).defaultColor = "#10b981" := rfl
    simp [onMouseDown, demoEvent, toolClick, initialState, AppState.viewport, addPoint, addShape,
      demo_screenToNDC_origin, demoOrigin, hn, hcol]
  have hinv := selection_invariant realMath _
    (UserReachable.next (Event.mouseDown "shape_o" (demoEvent 400 300) demoCanvas) _ _
      (UserReachable.next (Event.toolClick "point") _ _ UserReachable.init rfl rfl) rfl hdown)
  exact ⟨_, hdown, rfl, hinv.1, hinv.2.1⟩

end SelectionExamples

/-! ## Theorems: binary64 arithmetic -/

section Binary64Theorems

/-- For `1 ≤ n ≤ fuel`, `log2Fuel fuel n` is the position of the leading bit of `n`. -/
theorem log2Fuel_spec : ∀ (fuel n : ℕ), 1 ≤ n → n ≤ fuel →
    2 ^ log2Fuel fuel n ≤ n ∧ n < 2 ^ (log2Fuel fuel n + 1) := by
  intro fuel
  induction fuel with
  | zero => intro n h1 h2; omega
  | succ fuel ih =>
    intro n h1 h2
    unfold log2Fuel
    by_cases h : n < 2
    · rw [if_pos h]
      constructor
      · simpa using h1
      · simpa using h
    · rw [if_neg h]
      obtain ⟨ha, hb⟩ := ih (n / 2) (by omega) (by omega)
      rw [pow_succ] at hb
      rw [pow_succ, pow_succ, pow_succ]
      generalize 2 ^ log2Fuel fuel (n / 2) = a at ha hb ⊢
      constructor <;> omega

/-- The absolute value of a rational is the quotient of the absolute value of its
numerator by its denominator. -/
theorem abs_eq_natAbs_div_den (x : ℚ) : |x| = (x.num.natAbs : ℚ) / (x.den : ℚ) := by
  conv_lhs => rw [← Rat.num_div_den x]
  rw [abs_div, Nat.abs_cast, ← Int.cast_abs, Int.abs_eq_natAbs, Int.cast_natCast]

/-- The exponent computed by `binade` is the binary exponent of `x`:
`2 ^ e ≤ |x| < 2 ^ (e + 1)`. -/
theorem binade_spec (x : ℚ) (hx : x ≠ 0) :
    (2 : ℚ) ^ binade x ≤ |x| ∧ |x| < (2 : ℚ) ^ (binade x + 1) := by
  have hnum : 1 ≤ x.num.natAbs := by
    have : x.num ≠ 0 := Rat.num_ne_zero.mpr hx
    omega
  have hden : 1 ≤ x.den := x.den_pos
  obtain ⟨ha1, ha2⟩ := log2Fuel_spec x.num.natAbs x.num.natAbs hnum le_rfl
  obtain ⟨hb1, hb2⟩ := log2Fuel_spec x.den x.den hden le_rfl
  have hA1 : (2 : ℚ) ^ log2Fuel x.num.natAbs x.num.natAbs ≤ (x.num.natAbs : ℚ) := by
    exact_mod_cast ha1
  have hA2 : (x.num.natAbs : ℚ) < 2 ^ log2Fuel x.num.natAbs x.num.natAbs * 2 := by
    rw [← pow_succ]
    exact_mod_cast ha2
  have hB1 : (2 : ℚ) ^ log2Fuel x.den x.den ≤ (x.den : ℚ) := by
    exact_mod_cast hb1
  have hB2 : (x.den : ℚ) < 2 ^ log2Fuel x.den x.den * 2 := by
    rw [← pow_succ]
    exact_mod_cast hb2
  have hPA : (0 : ℚ) < 2 ^ log2Fuel x.num.natAbs x.num.natAbs := by positivity
  have hPB : (0 : ℚ) < 2 ^ log2Fuel x.den x.den := by positivity
  have hD : (0 : ℚ) < (x.den : ℚ) := lt_of_lt_of_le hPB hB1
  have he0 : (2 : ℚ) ^ ((log2Fuel x.num.natAbs x.num.natAbs : ℤ) - (log2Fuel x.den x.den : ℤ))
      = 2 ^ log2Fuel x.num.natAbs x.num.natAbs / 2 ^ log2Fuel x.den x.den := by
    rw [zpow_sub₀ (by norm_num : (2 : ℚ) ≠ 0), zpow_natCast, zpow_natCast]
  have habs := abs_eq_natAbs_div_den x
  unfold binade
  dsimp only
  by_cases h : (2 : ℚ) ^ ((log2Fuel x.num.natAbs x.num.natAbs : ℤ) - (log2Fuel x.den x.den : ℤ))
      ≤ |x|
  · rw [if_pos h]
    refine ⟨h, ?_⟩
    rw [zpow_add_one₀ (by norm_num : (2 : ℚ) ≠ 0), he0, habs, div_mul_eq_mul_div,
      div_lt_div_iff₀ hD hPB]
    calc (x.num.natAbs : ℚ) * 2 ^ log2Fuel x.den x.den
        ≤ (x.num.natAbs : ℚ) * (x.den : ℚ) :=
          mul_le_mul_of_nonneg_left hB1 (Nat.cast_nonneg _)
      _ < 2 ^ log2Fuel x.num.natAbs x.num.natAbs * 2 * (x.den : ℚ) :=
          mul_lt_mul_of_pos_right hA2 hD
  · rw [if_neg h]
    refine ⟨?_, ?_⟩
    · rw [zpow_sub_one₀ (by norm_num : (2 : ℚ) ≠ 0), he0, habs, ← div_eq_mul_inv, div_div,
        div_le_div_iff₀ (by positivity) hD]
      calc (2 : ℚ) ^ log2Fuel x.num.natAbs x.num.natAbs * (x.den : ℚ)
          ≤ (x.num.natAbs : ℚ) * (x.den : ℚ) :=
            mul_le_mul_of_nonneg_right hA1 hD.le
        _ ≤ (x.num.natAbs : ℚ) * (2 ^ log2Fuel x.den x.den * 2) :=
            mul_le_mul_of_nonneg_left hB2.le (Nat.cast_nonneg _)
    · rw [sub_add_cancel]
      exact lt_of_not_le h

/-- The integer chosen by `roundHalfEven` is a nearest one, and on a tie it is
even. -/
theorem roundHalfEven_spec (q : ℚ) :
    |q - roundHalfEven q| ≤ 1 / 2
      ∧ (|q - roundHalfEven q| = 1 / 2 → roundHalfEven q % 2 = 0)
      ∧ ∀ k : ℤ, |q - roundHalfEven q| ≤ |q - k| := by
  have h1 : (⌊q⌋ : ℚ) ≤ q := Int.floor_le q
  have h2 : q < (⌊q⌋ : ℚ) + 1 := Int.lt_floor_add_one q
  have key : |q - roundHalfEven q| ≤ 1 / 2
      ∧ (|q - roundHalfEven q| = 1 / 2 → roundHalfEven q % 2 = 0) := by
    unfold roundHalfEven
    dsimp only
    by_cases c1 : q - (⌊q⌋ : ℚ) < 1 / 2
    · rw [if_pos c1]
      have hnn : 0 ≤ q - (⌊q⌋ : ℚ) := by linarith
      rw [abs_of_nonneg hnn]
      exact ⟨c1.le, fun h => absurd h c1.ne⟩
    · rw [if_neg c1]
      by_cases c2 : 1 / 2 < q - (⌊q⌋ : ℚ)
      · rw [if_pos c2]
        have hneg : q - ((⌊q⌋ + 1 : ℤ) : ℚ) < 0 := by push_cast; linarith
        rw [abs_of_neg hneg]
        push_cast
        exact ⟨by linarith, fun h => absurd h (by linarith : ¬ (-(q - ((⌊q⌋ : ℚ) + 1)) = 1 / 2))⟩
      · rw [if_neg c2]
        have heq : q - (⌊q⌋ : ℚ) = 1 / 2 := le_antisymm (not_lt.mp c2) (not_lt.mp c1)
        by_cases c3 : ⌊q⌋ % 2 = 0
        · rw [if_pos c3]
          rw [heq]
          exact ⟨by rw [abs_of_pos (by norm_num : (0 : ℚ) < 1 / 2)], fun _ => c3⟩
        · rw [if_neg c3]
          have hval : q - ((⌊q⌋ + 1 : ℤ) : ℚ) = -(1 / 2) := by push_cast; linarith
          rw [hval]
          refine ⟨by rw [abs_neg, abs_of_pos (by norm_num : (0 : ℚ) < 1 / 2)], fun _ => ?_⟩
          omega
  refine ⟨key.1, key.2, fun k => ?_⟩
  by_cases hk : k = roundHalfEven q
  · rw [hk]
  · have hne : (1 : ℚ) ≤ |((roundHalfEven q - k : ℤ) : ℚ)| := by
      rw [← Int.cast_abs]
      have : (1 : ℤ) ≤ |roundHalfEven q - k| := Int.one_le_abs (sub_ne_zero.mpr (Ne.symm hk))
      exact_mod_cast this
    have htri : |((roundHalfEven q - k : ℤ) : ℚ)| ≤ |q - k| + |q - roundHalfEven q| := by
      have : ((roundHalfEven q - k : ℤ) : ℚ) = (q - k) - (q - roundHalfEven q) := by
        push_cast; ring
      rw [this]
      exact abs_sub _ _
    linarith [key.1]

/-- The value `fl x` of a non-zero `x` is `m * 2 ^ (e - 52)` for the binary exponent
`e` of `x` and an integer `m` of 53 bits (`2 ^ 52 ≤ |m| ≤ 2 ^ 53`), and no multiple
of `2 ^ (e - 52)` is nearer to `x`; the error is at most half a unit in the last
place. -/
theorem fl_spec (x : ℚ) (hx : x ≠ 0) :
    ∃ m : ℤ, fl x = (m : ℚ) * 2 ^ (binade x - 52)
      ∧ 2 ^ 52 ≤ |m| ∧ |m| ≤ 2 ^ 53
      ∧ |x - fl x| ≤ 2 ^ (binade x - 52) / 2
      ∧ ∀ k : ℤ, |x - fl x| ≤ |x - (k : ℚ) * 2 ^ (binade x - 52)| := by
  obtain ⟨hb1, hb2⟩ := binade_spec x hx
  have hpos : (0 : ℚ) < 2 ^ (binade x - 52) := by positivity
  obtain ⟨hr1, _, hr3⟩ := roundHalfEven_spec (x / 2 ^ (binade x - 52))
  have hfl : fl x = (roundHalfEven (x / 2 ^ (binade x - 52)) : ℚ) * 2 ^ (binade x - 52) := by
    unfold fl
    rw [if_neg hx]
  have hdist : ∀ k : ℤ, |x - (k : ℚ) * 2 ^ (binade x - 52)|
      = |x / 2 ^ (binade x - 52) - k| * 2 ^ (binade x - 52) := by
    intro k
    have : x - (k : ℚ) * 2 ^ (binade x - 52)
        = (x / 2 ^ (binade x - 52) - k) * 2 ^ (binade x - 52) := by
      rw [sub_mul, div_mul_cancel₀ _ hpos.ne']
    rw [this, abs_mul, abs_of_pos hpos]
  have hq1 : (2 : ℚ) ^ (52 : ℕ) ≤ |x / 2 ^ (binade x - 52)| := by
    rw [abs_div, abs_of_pos hpos, le_div_iff₀ hpos]
    have : (2 : ℚ) ^ (52 : ℕ) * 2 ^ (binade x - 52) = 2 ^ binade x := by
      rw [← zpow_natCast, ← zpow_add₀ (by norm_num : (2 : ℚ) ≠ 0)]
      congr 1
      push_cast
      ring
    rw [this]
    exact hb1
  have hq2 : |x / 2 ^ (binade x - 52)| < (2 : ℚ) ^ (53 : ℕ) := by
    rw [abs_div, abs_of_pos hpos, div_lt_iff₀ hpos]
    have : (2 : ℚ) ^ (53 : ℕ) * 2 ^ (binade x - 52) = 2 ^ (binade x + 1) := by
      rw [← zpow_natCast, ← zpow_add₀ (by norm_num : (2 : ℚ) ≠ 0)]
      congr 1
      push_cast
      ring
    rw [this]
    exact hb2
  have htri1 : |x / 2 ^ (binade x - 52)|
      ≤ |((roundHalfEven (x / 2 ^ (binade x - 52)) : ℤ) : ℚ)| + 1 / 2 := by
    have := abs_sub_abs_le_abs_sub (x / 2 ^ (binade x - 52))
      ((roundHalfEven (x / 2 ^ (binade x - 52)) : ℤ) : ℚ)
    linarith
  have htri2 : |((roundHalfEven (x / 2 ^ (binade x - 52)) : ℤ) : ℚ)|
      ≤ |x / 2 ^ (binade x - 52)| + 1 / 2 := by
    have := abs_sub_abs_le_abs_sub ((roundHalfEven (x / 2 ^ (binade x - 52)) : ℤ) : ℚ)
      (x / 2 ^ (binade x - 52))
    rw [abs_sub_comm] at this
    linarith
  refine ⟨roundHalfEven (x / 2 ^ (binade x - 52)), hfl, ?_, ?_, ?_, ?_⟩
  · by_contra hlt
    have h' : |roundHalfEven (x / 2 ^ (binade x - 52))| ≤ 2 ^ 52 - 1 := by omega
    have h'' : |((roundHalfEven (x / 2 ^ (binade x - 52)) : ℤ) : ℚ)| ≤ 2 ^ 52 - 1 := by
      rw [← Int.cast_abs]
      exact_mod_cast h'
    linarith
  · by_contra hgt
    have h' : 2 ^ 53 + 1 ≤ |roundHalfEven (x / 2 ^ (binade x - 52))| := by omega
    have h'' : (2 : ℚ) ^ 53 + 1 ≤ |((roundHalfEven (x / 2 ^ (binade x - 52)) : ℤ) : ℚ)| := by
      rw [← Int.cast_abs]
      exact_mod_cast h'
    linarith
  · rw [hfl, hdist]
    calc |x / 2 ^ (binade x - 52) - (roundHalfEven (x / 2 ^ (binade x - 52)) : ℚ)|
          * 2 ^ (binade x - 52)
        ≤ 1 / 2 * 2 ^ (binade x - 52) := mul_le_mul_of_nonneg_right hr1 hpos.le
      _ = 2 ^ (binade x - 52) / 2 := by ring
  · intro k
    rw [hfl, hdist, hdist]
    exact mul_le_mul_of_nonneg_right (hr3 k) hpos.le

/-- The binary64 value of 0.1 is `0x3FB999999999999A`. -/
theorem fl_tenth : fl (1 / 10) = 3602879701896397 / 36028797018963968 := by decide!

/-- In binary64 arithmetic `0.1 + 0.2` is `0.30000000000000004`, the value one unit
in the last place above the binary64 value of 0.3. -/
theorem fl_tenth_add_fifth :
    fl (fl (1 / 10) + fl (2 / 10)) = 5404319552844596 / 18014398509481984
      ∧ fl (3 / 10) = 5404319552844595 / 18014398509481984 := by decide!

/-- Integers of the size of a display coordinate and halves are binary64 values. -/
theorem fl_exact_examples : fl 800 = 800 ∧ fl (-300) = -300 ∧ fl (1 / 2) = 1 / 2 := by decide!

end Binary64Theorems

/-! ## Theorems: the hit test and the rounded rectangle in binary64 arithmetic -/

section Binary64Examples

/-- C13 (counterexample). In binary64 arithmetic, on the 800 by 600 canvas at zoom 1,
take the triangle whose corners were clicked at the pixels (640, 315), (193, 277)
and (630, 385).  The display image of its second vertex has
x = 193.00000000000003 and the display images of all three vertices have x
greater than 193, so the display point (193, 277) lies strictly left of the
bounding box of the transformed vertices; `pointInPolygon` reports it inside. -/
theorem pointInPolygonF_left_of_bbox_inside :
    (ndcToScreenF (pixelF 193 277).x (pixelF 193 277).y demoCanvas unitViewport).x
        = 6790583813144577 / 35184372088832
      ∧ (∀ v ∈ demoTriangleF, 193 < (ndcToScreenF v.x v.y demoCanvas unitViewport).x)
      ∧ pointInPolygonF 193 277 demoTriangleF demoCanvas unitViewport = true := by
  decide!

/-- C14 (counterexample). In binary64 arithmetic, on the 800 by 600 canvas at zoom 1,
take the rectangle dragged from the pixel (124, 300) to the pixel (154, 420): its
corner points differ in x and in y, the display image of the centre of its
bounding box is (139, 360), and `pointInPolygon` reports that display point
outside the rectangle's 6-vertex ring. -/
theorem pointInPolygonF_rectangle_centre_outside :
    (pixelF 124 300).x ≠ (pixelF 154 420).x
      ∧ (pixelF 124 300).y ≠ (pixelF 154 420).y
      ∧ ndcToScreenF
          (fl (fl (min (pixelF 124 300).x (pixelF 154 420).x
            + max (pixelF 124 300).x (pixelF 154 420).x) / 2))
          (fl (fl (min (pixelF 124 300).y (pixelF 154 420).y
            + max (pixelF 124 300).y (pixelF 154 420).y) / 2))
          demoCanvas unitViewport = ⟨139, 360⟩
      ∧ pointInPolygonF 139 360 demoRectF.vertices demoCanvas unitViewport = false := by
  decide!

/-- C28 (counterexample). In binary64 arithmetic, take the corner points (0, 0) and
(0.9, 0.4), dragged from the pixel (400, 300) to the pixel (670, 180) of the 800
by 600 canvas at zoom 1, and the radius ratio 0.2 of the slider value 20: vertex 1
of `createRoundedRectangle`, the start of the top-right arc, has
x = 0.9000000000000001, greater than `maxX` = 0.9, so it lies outside the bounding
box of the two corner points. -/
theorem roundedRectangleF_vertex_right_of_bbox :
    pixelF 400 300 = ⟨0, 0⟩
      ∧ pixelF 670 180 = ⟨fl (9 / 10), fl (2 / 5)⟩
      ∧ (roundedRectangleArcStartF (pixelF 400 300) (pixelF 670 180) (fl (20 / 100))).x
        = 4053239664633447 / 4503599627370496
      ∧ max (pixelF 400 300).x (pixelF 670 180).x = 8106479329266893 / 9007199254740992
      ∧ max (pixelF 400 300).x (pixelF 670 180).x
        < (roundedRectangleArcStartF (pixelF 400 300) (pixelF 670 180) (fl (20 / 100))).x := by
  decide!

/-- For every `Math` object with `cos(0) = 1` and `sin(0) = 0` and every segment count,
vertex 1 of the rounded rectangle in binary64 arithmetic is
`roundedRectangleArcStartF`. -/
theorem roundedRectangleVerticesF_getElem?_one (M : JSMath ℚ) (p1 p2 : Point ℚ)
    (radiusRatio : ℚ) (segments : ℕ) (hcos : M.cos 0 = 1) (hsin : M.sin 0 = 0) :
    (roundedRectangleVerticesF M p1 p2 radiusRatio segments)[1]?
      = some (roundedRectangleArcStartF p1 p2 radiusRatio) := by
  have hfl0 : fl 0 = 0 := by simp [fl]
  have hangle : fl (fl (((0 : ℕ) : ℚ) / (segments : ℚ)) * fl (M.PI / 2)) = 0 := by
    rw [Nat.cast_zero, zero_div, hfl0, zero_mul, hfl0]
  have h := (fan_getElem?
    ({ x := fl (fl (min p1.x p2.x + max p1.x p2.x) / 2),
       y := fl (fl (min p1.y p2.y + max p1.y p2.y) / 2) } : Point ℚ)
    { x := fl (fl (min p1.x p2.x + max p1.x p2.x) / 2),
      y := fl (fl (min p1.y p2.y + max p1.y p2.y) / 2) }
    (fun (i : ℕ) =>
      ({ x := fl (fl (max p1.x p2.x - cornerRadiusOfF p1 p2 radiusRatio)
            + fl (M.cos (fl (fl ((i : ℚ) / (segments : ℚ)) * fl (M.PI / 2)))
              * cornerRadiusOfF p1 p2 radiusRatio))
         y := fl (fl (max p1.y p2.y - cornerRadiusOfF p1 p2 radiusRatio)
            + fl (M.sin (fl (fl ((i : ℚ) / (segments : ℚ)) * fl (M.PI / 2)))
              * cornerRadiusOfF p1 p2 radiusRatio)) } : Point ℚ))
    (fun (i : ℕ) =>
      ({ x := fl (fl (min p1.x p2.x + cornerRadiusOfF p1 p2 radiusRatio)
            + fl (M.cos (fl (fl (M.PI / 2) + fl (fl ((i : ℚ) / (segments : ℚ)) * fl (M.PI / 2))))
              * cornerRadiusOfF p1 p2 radiusRatio))
         y := fl (fl (max p1.y p2.y - cornerRadiusOfF p1 p2 radiusRatio)
            + fl (M.sin (fl (fl (M.PI / 2) + fl (fl ((i : ℚ) / (segments : ℚ)) * fl (M.PI / 2))))
              * cornerRadiusOfF p1 p2 radiusRatio)) } : Point ℚ))
    (fun (i : ℕ) =>
      ({ x := fl (fl (min p1.x p2.x + cornerRadiusOfF p1 p2 radiusRatio)
            + fl (M.cos (fl (M.PI + fl (fl ((i : ℚ) / (segments : ℚ)) * fl (M.PI / 2))))
              * cornerRadiusOfF p1 p2 radiusRatio))
         y := fl (fl (min p1.y p2.y + cornerRadiusOfF p1 p2 radiusRatio)
            + fl (M.sin (fl (M.PI + fl (fl ((i : ℚ) / (segments : ℚ)) * fl (M.PI / 2))))
              * cornerRadiusOfF p1 p2 radiusRatio)) } : Point ℚ))
    (fun (i : ℕ) =>
      ({ x := fl (fl (max p1.x p2.x - cornerRadiusOfF p1 p2 radiusRatio)
            + fl (M.cos (fl (fl (fl (3 * M.PI) / 2)
                + fl (fl ((i : ℚ) / (segments : ℚ)) * fl (M.PI / 2))))
              * cornerRadiusOfF p1 p2 radiusRatio))
         y := fl (fl (min p1.y p2.y + cornerRadiusOfF p1 p2 radiusRatio)
            + fl (M.sin (fl (fl (fl (3 * M.PI) / 2)
                + fl (fl ((i : ℚ) / (segments : ℚ)) * fl (M.PI / 2))))
              * cornerRadiusOfF p1 p2 radiusRatio)) } : Point ℚ))
    segments).2.2.1 0 (Nat.zero_le _)
  refine Eq.trans h ?_
  simp only [roundedRectangleArcStartF, hangle, hcos, hsin]

end Binary64Examples

section InspectorTheorems

/-- Vertex 1 of a rounded rectangle: the start of the top-right arc. -/
theorem roundedRectangleVertices_getElem?_one (M : JSMath ℝ) (p1 p2 : Point ℝ)
    (radiusRatio : ℝ) (segments : ℕ) :
    (roundedRectangleVertices M p1 p2 radiusRatio segments)[1]? = some
      ⟨max p1.x p2.x - cornerRadiusOf p1 p2 radiusRatio
          + M.cos ((((0 : ℕ) : ℝ) / (segments : ℝ)) * (M.PI / 2))
            * cornerRadiusOf p1 p2 radiusRatio,
        max p1.y p2.y - cornerRadiusOf p1 p2 radiusRatio
          + M.sin ((((0 : ℕ) : ℝ) / (segments : ℝ)) * (M.PI / 2))
            * cornerRadiusOf p1 p2 radiusRatio⟩ := by
  rw [roundedRectangleVertices_eq_fanList]
  exact (fan_getElem? _ _ _ _ _ _ segments).2.2.1 0 (Nat.zero_le _)

/-- C10 (amended). In exact real arithmetic: for every `p1`, `p2`, every radius ratio
`percent / 100` with an integer `percent` from 5 to 50 and every segment count `s`
from 2 to 16, the inspector renders its sliders for
`S = createRoundedRectangle(p1, p2, ratio, s)` with the values `percent` and `s`,
and the Regenerate Corners handler run with these sliders returns `S` itself: the
regenerated vertex list is identical to `S.vertices`. -/
theorem regenerate_roundtrip_inspector (id id' : String) (now now' : ℕ) (p1 p2 : Point ℝ)
    (percent : ℤ) (segments : ℕ) (color : String)
    (hp : 5 ≤ percent ∧ percent ≤ 50) (hs : 2 ≤ segments ∧ segments ≤ 16) :
    inspectorRadiusValue
        (createRoundedRectangle realMath id now p1 p2 ((percent : ℝ) / 100) segments color)
        = percent
      ∧ inspectorSegmentsValue
        (createRoundedRectangle realMath id now p1 p2 ((percent : ℝ) / 100) segments color)
        = segments
      ∧ regenerateFromInspector realMath id' now'
          (createRoundedRectangle realMath id now p1 p2 ((percent : ℝ) / 100) segments color)
        = some (createRoundedRectangle realMath id now p1 p2 ((percent : ℝ) / 100) segments
            color)
      ∧ ∃ S', regenerateFromInspector realMath id' now'
          (createRoundedRectangle realMath id now p1 p2 ((percent : ℝ) / 100) segments color)
          = some S'
        ∧ S'.vertices
          = (createRoundedRectangle realMath id now p1 p2 ((percent : ℝ) / 100) segments
              color).vertices := by
  have hpos : (0 : ℝ) < (percent : ℝ) / 100 := by
    have : (5 : ℝ) ≤ (percent : ℝ) := by exact_mod_cast hp.1
    positivity
  have hle : (percent : ℝ) / 100 ≤ 1 / 2 := by
    have : (percent : ℝ) ≤ 50 := by exact_mod_cast hp.2
    linarith
  have hr : inspectorRadiusValue
      (createRoundedRectangle realMath id now p1 p2 ((percent : ℝ) / 100) segments color)
      = percent := by
    have hround : mathRound ((percent : ℝ) / 100 * 100) = percent := by
      rw [div_mul_cancel₀ _ (by norm_num : (100 : ℝ) ≠ 0)]
      unfold mathRound
      rw [Int.floor_eq_iff]
      constructor <;> norm_num
    simp only [inspectorRadiusValue, createRoundedRectangle, hpos.ne', if_false, hround,
      rangeInputValue]
    rw [min_eq_right hp.2, max_eq_right hp.1]
  have hsg : inspectorSegmentsValue
      (createRoundedRectangle realMath id now p1 p2 ((percent : ℝ) / 100) segments color)
      = segments := by
    have h0 : segments ≠ 0 := by omega
    simp only [inspectorSegmentsValue, createRoundedRectangle, h0, if_false, rangeInputValue]
    have h1 : (2 : ℤ) ≤ (segments : ℤ) := by exact_mod_cast hs.1
    have h2 : (segments : ℤ) ≤ 16 := by exact_mod_cast hs.2
    rw [min_eq_right h2, max_eq_right h1]
  have key : regenerateFromInspector realMath id' now'
      (createRoundedRectangle realMath id now p1 p2 ((percent : ℝ) / 100) segments color)
      = some (createRoundedRectangle realMath id now p1 p2 ((percent : ℝ) / 100) segments
          color) := by
    unfold regenerateFromInspector
    rw [hr, hsg, Int.toNat_ofNat]
    exact (regenerateCorners_roundtrip id id' now now' p1 p2 ((percent : ℝ) / 100) segments color
      hpos.le hle (by omega)).2.2.1
  exact ⟨hr, hsg, key, _, key, rfl⟩

/-- C10 (counterexample). The rounded rectangle with corners (0, 0) and (1, 1/2), ratio 0
and 8 segments stores the ratio 0; the inspector renders its radius slider with
20 (`0 || 0.2`), and the Regenerate Corners handler run on the shape with its own
stored metadata moves vertex 1 from (1, 1/2) to (1, 2/5): the vertex list is not
the same. -/
theorem regenerate_changes_zero_ratio :
    (createRoundedRectangle realMath "shape_1" 0 ⟨0, 0⟩ ⟨1, 1 / 2⟩ 0 8 "#10b981").cornerRadius
        = some 0
      ∧ inspectorRadiusValue
          (createRoundedRectangle realMath "shape_1" 0 ⟨0, 0⟩ ⟨1, 1 / 2⟩ 0 8 "#10b981") = 20
      ∧ (createRoundedRectangle realMath "shape_1" 0 ⟨0, 0⟩ ⟨1, 1 / 2⟩ 0 8 "#10b981").vertices[1]?
        = some ⟨1, 1 / 2⟩
      ∧ ∃ S', regenerateFromInspector realMath "shape_2" 1
            (createRoundedRectangle realMath "shape_1" 0 ⟨0, 0⟩ ⟨1, 1 / 2⟩ 0 8 "#10b981") = some S'
          ∧ S'.vertices[1]? = some ⟨1, 2 / 5⟩
          ∧ S'.vertices
            ≠ (createRoundedRectangle realMath "shape_1" 0 ⟨0, 0⟩ ⟨1, 1 / 2⟩ 0 8 "#10b981").vertices := by
  have hmaxx : max (0 : ℝ) 1 = 1 := max_eq_right (by norm_num)
  have hmaxy : max (0 : ℝ) (1 / 2) = 1 / 2 := max_eq_right (by norm_num)
  have hminx : min (0 : ℝ) 1 = 0 := min_eq_left (by norm_num)
  have hminy : min (0 : ℝ) (1 / 2) = 0 := min_eq_left (by norm_num)
  have hval : inspectorRadiusValue
      (createRoundedRectangle realMath "shape_1" 0 ⟨0, 0⟩ ⟨1, 1 / 2⟩ 0 8 "#10b981") = 20 := by
    have hround : mathRound ((2 : ℝ) / 10 * 100) = 20 := by
      unfold mathRound
      rw [Int.floor_eq_iff]
      constructor <;> norm_num
    simp only [inspectorRadiusValue, createRoundedRectangle, if_true, hround, rangeInputValue]
    decide
  have hseg : inspectorSegmentsValue
      (createRoundedRectangle realMath "shape_1" 0 ⟨0, 0⟩ ⟨1, 1 / 2⟩ 0 8 "#10b981") = 8 := by
    simp only [inspectorSegmentsValue, createRoundedRectangle, rangeInputValue]
    decide
  have hv0 : (createRoundedRectangle realMath "shape_1" 0 ⟨0, 0⟩ ⟨1, 1 / 2⟩ 0 8
      "#10b981").vertices[1]? = some ⟨1, 1 / 2⟩ := by
    show (roundedRectangleVertices realMath ⟨0, 0⟩ ⟨1, 1 / 2⟩ 0 8)[1]? = _
    rw [roundedRectangleVertices_getElem?_one, cornerRadiusOf_zero]
    simp only [hmaxx, hmaxy, sub_zero, mul_zero, add_zero]
  obtain ⟨hx1, hy1, hx2, hy2⟩ :=
    roundedRectangle_perimeter_min_max ⟨0, 0⟩ ⟨1, 1 / 2⟩ 0 8 (le_refl _)
  have hrad : cornerRadiusOf (⟨0, 0⟩ : Point ℝ) ⟨1, 1 / 2⟩ (20 / 100) = 1 / 10 := by
    simp only [cornerRadiusOf, hmaxx, hmaxy, hminx, hminy, sub_zero]
    rw [min_eq_right (by norm_num : (1 : ℝ) / 2 ≤ 1),
      min_eq_left (by norm_num : (20 : ℝ) / 100 ≤ 1 / 2), min_eq_right (by norm_num)]
    norm_num
  have hreg : regenerateFromInspector realMath "shape_2" 1
      (createRoundedRectangle realMath "shape_1" 0 ⟨0, 0⟩ ⟨1, 1 / 2⟩ 0 8 "#10b981")
      = some { createRoundedRectangle realMath "shape_1" 0 (⟨0, 0⟩ : Point ℝ) ⟨1, 1 / 2⟩ 0 8
            "#10b981" with
          vertices := roundedRectangleVertices realMath ⟨0, 0⟩ ⟨1, 1 / 2⟩ (20 / 100) 8
          cornerRadius := some (20 / 100)
          cornerSegments := some 8 } := by
    have h8 : (8 : ℤ).toNat = 8 := rfl
    have h20 : ((20 : ℤ) : ℝ) = 20 := by norm_num
    unfold regenerateFromInspector
    rw [hval, hseg, h8, h20]
    simp only [regenerateCorners, createRoundedRectangle, hx1, hy1, hx2, hy2, hminx, hminy,
      hmaxx, hmaxy]
  have hv1 : (roundedRectangleVertices realMath ⟨0, 0⟩ ⟨1, 1 / 2⟩ (20 / 100) 8)[1]?
      = some ⟨1, 2 / 5⟩ := by
    rw [roundedRectangleVertices_getElem?_one, hrad]
    simp only [hmaxx, hmaxy, realMath, Nat.cast_zero, zero_div, zero_mul, Real.cos_zero,
      Real.sin_zero]
    norm_num
  refine ⟨rfl, hval, hv0, _, hreg, hv1, fun heq => ?_⟩
  have h1 := hv1
  have h2 : (roundedRectangleVertices realMath ⟨0, 0⟩ ⟨1, 1 / 2⟩ (20 / 100) 8)
      = (createRoundedRectangle realMath "shape_1" 0 ⟨0, 0⟩ ⟨1, 1 / 2⟩ 0 8 "#10b981").vertices :=
    heq
  rw [h2, hv0] at h1
  have h3 := congrArg Point.y (Option.some.inj h1)
  norm_num at h3

/-- Witness for C10 (amended): the box with corners (0, 0) and (2, 1), 25 percent and
8 segments. -/
theorem regenerate_roundtrip_inspector_witness :
    regenerateFromInspector realMath "shape_2" 1
        (createRoundedRectangle realMath "shape_1" 0 ⟨0, 0⟩ ⟨2, 1⟩ (((25 : ℤ) : ℝ) / 100) 8
          "#10b981")
      = some (createRoundedRectangle realMath "shape_1" 0 ⟨0, 0⟩ ⟨2, 1⟩ (((25 : ℤ) : ℝ) / 100) 8
          "#10b981") :=
  (regenerate_roundtrip_inspector "shape_1" "shape_2" 0 1 ⟨0, 0⟩ ⟨2, 1⟩ 25 8 "#10b981"
    (by decide) (by decide)).2.2.1

end InspectorTheorems

section GestureUp

variable {K : Type}

/-- With the polyline, line-loop or fan tool, `mouseup` of any button but the middle
one changes nothing. -/
theorem onMouseUp_polyline (newId : String) (e : MouseEvent K) (state : AppState K)
    (htool : state.currentTool = "polyline" ∨ state.currentTool = "lineloop"
      ∨ state.currentTool = "fan")
    (hb : e.button ≠ 1) : onMouseUp newId e state = state := by
  rcases htool with h | h | h <;>
    simp [onMouseUp, hb, h]

end GestureUp

section GestureTheorems

variable {K : Type} [LinearOrderedField K] [FloorRing K]

/-- With the polyline, line-loop or fan tool and the primary button, `mousedown`
appends the logical point of the event to the accumulated points. -/
theorem onMouseDown_polyline (M : JSMath K) (newId : String) (e : MouseEvent K)
    (canvas : Canvas K) (state : AppState K)
    (htool : state.currentTool = "polyline" ∨ state.currentTool = "lineloop"
      ∨ state.currentTool = "fan")
    (hb : e.button = 0) :
    onMouseDown M newId e canvas state
      = some { state with
          drawingPoints := state.drawingPoints ++ [screenToNDC (e.clientX - e.rectLeft)
            (e.clientY - e.rectTop) canvas state.viewport (some state.settings)] } := by
  have h01 : ¬ ((0 : ℕ) = 1) := by decide
  rcases htool with h | h | h <;>
    simp [onMouseDown, hb, h, h01, handlePolylineDown]

/-- What the events of one double-click do with the polyline, line-loop or fan tool:
the two pointer-downs append the point twice and the `dblclick` listener commits
the list. -/
theorem runEvents_doubleClickGesture (M : JSMath K) (id1 id2 id3 id4 id5 : String)
    (e : MouseEvent K) (canvas : Canvas K) (state : AppState K)
    (htool : state.currentTool = "polyline" ∨ state.currentTool = "lineloop"
      ∨ state.currentTool = "fan")
    (hb : e.button = 0) :
    runEvents M (doubleClickGesture id1 id2 id3 id4 id5 e canvas) state
      = some { state with
          shapes := state.shapes ++
            [{ id := id5
               name := state.currentTool ++ "_" ++ toString state.shapes.length
               type := state.currentTool
               primitiveType := polylinePrimitive state.currentTool
               vertices := state.drawingPoints ++
                 [screenToNDC (e.clientX - e.rectLeft) (e.clientY - e.rectTop) canvas
                    state.viewport (some state.settings),
                  screenToNDC (e.clientX - e.rectLeft) (e.clientY - e.rectTop) canvas
                    state.viewport (some state.settings)]
               color := state.settings.defaultColor
               cornerRadius := none
               cornerSegments := none }]
          selectedIds := [id5]
          drawingPoints := []
          tempShape := none } := by
  have hb1 : e.button ≠ 1 := by rw [hb]; decide
  have h1 : onMouseDown M id1 e canvas state
      = some (handlePolylineDown (screenToNDC (e.clientX - e.rectLeft) (e.clientY - e.rectTop)
          canvas state.viewport (some state.settings)) state) :=
    onMouseDown_polyline M id1 e canvas state htool hb
  have h2 : onMouseUp id2 e (handlePolylineDown (screenToNDC (e.clientX - e.rectLeft)
        (e.clientY - e.rectTop) canvas state.viewport (some state.settings)) state)
      = handlePolylineDown (screenToNDC (e.clientX - e.rectLeft) (e.clientY - e.rectTop)
          canvas state.viewport (some state.settings)) state :=
    onMouseUp_polyline id2 e _ htool hb1
  have h3 : onMouseDown M id3 e canvas (handlePolylineDown (screenToNDC (e.clientX - e.rectLeft)
        (e.clientY - e.rectTop) canvas state.viewport (some state.settings)) state)
      = some (handlePolylineDown (screenToNDC (e.clientX - e.rectLeft) (e.clientY - e.rectTop)
          canvas state.viewport (some state.settings))
        (handlePolylineDown (screenToNDC (e.clientX - e.rectLeft) (e.clientY - e.rectTop)
          canvas state.viewport (some state.settings)) state)) :=
    onMouseDown_polyline M id3 e canvas _ htool hb
  have h4 : onMouseUp id4 e (handlePolylineDown (screenToNDC (e.clientX - e.rectLeft)
        (e.clientY - e.rectTop) canvas state.viewport (some state.settings))
        (handlePolylineDown (screenToNDC (e.clientX - e.rectLeft) (e.clientY - e.rectTop)
          canvas state.viewport (some state.settings)) state))
      = handlePolylineDown (screenToNDC (e.clientX - e.rectLeft) (e.clientY - e.rectTop)
          canvas state.viewport (some state.settings))
        (handlePolylineDown (screenToNDC (e.clientX - e.rectLeft) (e.clientY - e.rectTop)
          canvas state.viewport (some state.settings)) state) :=
    onMouseUp_polyline id4 e _ htool hb1
  simp only [doubleClickGesture, runEvents, step, h1, h2, h3, h4]
  have hlen : (state.drawingPoints ++ [screenToNDC (e.clientX - e.rectLeft)
      (e.clientY - e.rectTop) canvas state.viewport (some state.settings)]
      ++ [screenToNDC (e.clientX - e.rectLeft)
      (e.clientY - e.rectTop) canvas state.viewport (some state.settings)]).length ≥ 2 := by
    simp
  simp only [onDoubleClick, handlePolylineDown, htool, hlen, and_self, if_true, addShape]
  by_cases hid : id5 = ""
  · simp [hid]
  · simp [hid]

/-- Handling `evs1 ++ evs2` is handling `evs1` and then `evs2`. -/
theorem runEvents_append (M : JSMath K) (evs1 evs2 : List (Event K)) :
    ∀ state : AppState K, runEvents M (evs1 ++ evs2) state
      = (runEvents M evs1 state).bind (runEvents M evs2) := by
  induction evs1 with
  | nil => intro state; rfl
  | cons ev rest ih =>
    intro state
    simp only [List.cons_append, runEvents]
    cases step M ev state with
    | none => rfl
    | some s => exact ih s

/-- C19 (amended). With the current tool polyline, lineloop or fan: the `dblclick`
listener, which reads no position, run with at least 2 accumulated points appends
exactly one shape whose kind is the current tool and whose vertex list is the
accumulated list, selects it and empties the accumulated list and the preview,
and run with fewer than 2 it changes nothing.  The events of one double-click at a
point `p` reach the canvas as two pointer-downs at `p` before the `dblclick`, and
each pointer-down appends `p`: from `n` accumulated points the double-click
commits one shape with `n + 2` vertices, the accumulated points followed by `p`
twice, whatever `n` is. -/
theorem double_click_gesture (M : JSMath K) (id1 id2 id3 id4 id5 : String)
    (e : MouseEvent K) (canvas : Canvas K) (state : AppState K)
    (htool : state.currentTool = "polyline" ∨ state.currentTool = "lineloop"
      ∨ state.currentTool = "fan")
    (hb : e.button = 0) :
    ((2 ≤ state.drawingPoints.length →
        ∃ shape : Shape K, shape.type = state.currentTool
          ∧ shape.vertices = state.drawingPoints
          ∧ onDoubleClick id5 state = { state with
              shapes := state.shapes ++ [shape]
              selectedIds := [id5]
              drawingPoints := []
              tempShape := none })
      ∧ (state.drawingPoints.length < 2 → onDoubleClick id5 state = state))
    ∧ ∃ shape : Shape K, shape.type = state.currentTool
        ∧ shape.vertices = state.drawingPoints ++
            [screenToNDC (e.clientX - e.rectLeft) (e.clientY - e.rectTop) canvas
                state.viewport (some state.settings),
              screenToNDC (e.clientX - e.rectLeft) (e.clientY - e.rectTop) canvas
                state.viewport (some state.settings)]
        ∧ shape.vertices.length = state.drawingPoints.length + 2
        ∧ runEvents M (doubleClickGesture id1 id2 id3 id4 id5 e canvas) state
          = some { state with
              shapes := state.shapes ++ [shape]
              selectedIds := [id5]
              drawingPoints := []
              tempShape := none } := by
  refine ⟨⟨fun hlen => ?_, (onDoubleClick_commit id5 state htool).2⟩, _, rfl, rfl, by simp,
    runEvents_doubleClickGesture M id1 id2 id3 id4 id5 e canvas state htool hb⟩
  obtain ⟨shape, h1, h2, _, h4⟩ := (onDoubleClick_commit id5 state htool).1 hlen
  exact ⟨shape, h1, h2, h4⟩

end GestureTheorems

section GestureExamples

/-- The display point (550, 150) of `demoCanvas` is the logical point (1/2, 1/2). -/
theorem demo_screenToNDC_half_half :
    screenToNDC (550 : ℝ) 150 demoCanvas ⟨1, 0, 0⟩ (some DEFAULT_SETTINGS) = ⟨1 / 2, 1 / 2⟩ := by
  rw [screenToNDC_demoCanvas _ _ _ rfl]
  have e1 : clampNDC ((1 : ℝ) / 2) = 1 / 2 := clampNDC_of_mem (by norm_num) (by norm_num)
  norm_num [e1]

/-- The display point (700, 0) of `demoCanvas` is the logical point (1, 1). -/
theorem demo_screenToNDC_corner :
    screenToNDC (700 : ℝ) 0 demoCanvas ⟨1, 0, 0⟩ (some DEFAULT_SETTINGS) = ⟨1, 1⟩ := by
  rw [screenToNDC_demoCanvas _ _ _ rfl]
  have e1 : clampNDC (1 : ℝ) = 1 := clampNDC_of_mem (by norm_num) (by norm_num)
  norm_num [e1]

/-- The three clicks of scenario B accumulate the three logical points. -/
theorem scenarioB_clicks :
    runEvents realMath
        [ .toolClick "polyline",
          .mouseDown "shape_1" (demoEvent 400 300) demoCanvas,
          .mouseUp "shape_1" (demoEvent 400 300),
          .mouseDown "shape_2" (demoEvent 550 300) demoCanvas,
          .mouseUp "shape_2" (demoEvent 550 300),
          .mouseDown "shape_3" (demoEvent 550 150) demoCanvas,
          .mouseUp "shape_3" (demoEvent 550 150) ] initialState
      = some (demoPolylineState : AppState ℝ) := by
  have h1 : onMouseDown realMath "shape_1" (demoEvent 400 300) demoCanvas
      (toolClick "polyline" (initialState : AppState ℝ))
      = some { (initialState : AppState ℝ) with
          currentTool := "polyline"
          drawingPoints := [⟨0, 0⟩] } := by
    simp [onMouseDown, demoEvent, toolClick, initialState, AppState.viewport,
      handlePolylineDown, demo_screenToNDC_origin]
  have h2 : onMouseDown realMath "shape_2" (demoEvent 550 300) demoCanvas
      { (initialState : AppState ℝ) with
          currentTool := "polyline"
          drawingPoints := [⟨0, 0⟩] }
      = some { (initialState : AppState ℝ) with
          currentTool := "polyline"
          drawingPoints := [⟨0, 0⟩, ⟨1 / 2, 0⟩] } := by
    simp [onMouseDown, demoEvent, initialState, AppState.viewport,
      handlePolylineDown, demo_screenToNDC_half]
  have h3 : onMouseDown realMath "shape_3" (demoEvent 550 150) demoCanvas
      { (initialState : AppState ℝ) with
          currentTool := "polyline"
          drawingPoints := [⟨0, 0⟩, ⟨1 / 2, 0⟩] }
      = some { (initialState : AppState ℝ) with
          currentTool := "polyline"
          drawingPoints := [⟨0, 0⟩, ⟨1 / 2, 0⟩, ⟨1 / 2, 1 / 2⟩] } := by
    simp [onMouseDown, demoEvent, initialState, AppState.viewport,
      handlePolylineDown, demo_screenToNDC_half_half]
  have hb1 : ∀ x y : ℝ, (demoEvent x y : MouseEvent ℝ).button ≠ 1 := by
    intro x y
    simp [demoEvent]
  have u1 := onMouseUp_polyline "shape_1" (demoEvent (400 : ℝ) 300)
    { (initialState : AppState ℝ) with
        currentTool := "polyline"
        drawingPoints := [⟨0, 0⟩] } (Or.inl rfl) (hb1 _ _)
  have u2 := onMouseUp_polyline "shape_2" (demoEvent (550 : ℝ) 300)
    { (initialState : AppState ℝ) with
        currentTool := "polyline"
        drawingPoints := [⟨0, 0⟩, ⟨1 / 2, 0⟩] } (Or.inl rfl) (hb1 _ _)
  have u3 := onMouseUp_polyline "shape_3" (demoEvent (550 : ℝ) 150)
    { (initialState : AppState ℝ) with
        currentTool := "polyline"
        drawingPoints := [⟨0, 0⟩, ⟨1 / 2, 0⟩, ⟨1 / 2, 1 / 2⟩] } (Or.inl rfl) (hb1 _ _)
  simp only [runEvents, step, h1, u1, h2, u2, h3, u3]
  rfl

/-- C19 (counterexample). Scenario B: with the polyline tool, three clicks accumulate
(0, 0), (1/2, 0) and (1/2, 1/2); the double-click at (1, 1) then commits one
polyline with 5 vertices, the double-click point included twice, not the 3
accumulated points. -/
theorem scenarioB_commits_five_vertices :
    runEvents realMath scenarioBEvents initialState
      = some { (initialState : AppState ℝ) with
          currentTool := "polyline"
          shapes := [{ id := "shape_6"
                       name := "polyline_0"
                       type := "polyline"
                       primitiveType := "GL_LINE_STRIP"
                       vertices := [⟨0, 0⟩, ⟨1 / 2, 0⟩, ⟨1 / 2, 1 / 2⟩, ⟨1, 1⟩, ⟨1, 1⟩]
                       color := "#10b981"
                       cornerRadius := none
                       cornerSegments := none }]
          selectedIds := ["shape_6"] } := by
  have hg := runEvents_doubleClickGesture realMath "shape_4" "shape_4" "shape_5" "shape_5"
    "shape_6" (demoEvent 700 0) demoCanvas (demoPolylineState : AppState ℝ) (Or.inl rfl) rfl
  have hp : screenToNDC ((demoEvent 700 0 : MouseEvent ℝ).clientX - (demoEvent 700 0).rectLeft)
      ((demoEvent 700 0 : MouseEvent ℝ).clientY - (demoEvent 700 0).rectTop) demoCanvas
      (demoPolylineState : AppState ℝ).viewport (some (demoPolylineState : AppState ℝ).settings)
      = ⟨1, 1⟩ := by
    show screenToNDC ((700 : ℝ) - 0) (0 - 0) demoCanvas ⟨1, 0, 0⟩ (some DEFAULT_SETTINGS) = _
    rw [sub_zero, sub_zero, demo_screenToNDC_corner]
  rw [hp] at hg
  unfold scenarioBEvents
  rw [runEvents_append, scenarioB_clicks]
  show runEvents realMath _ demoPolylineState = _
  rw [hg]
  have hn : "polyline_" ++ toString 0 = "polyline_0" := by decide
  have hcol : (DEFAULT_SETTINGS : Settings ℝ).defaultColor = "#10b981" := rfl
  simp [demoPolylineState, initialState, polylinePrimitive, hn, hcol]

/-- Witness for C19 (amended): a double-click at (700, 0) with the three points of
`demoPolylineState` accumulated. -/
theorem double_click_gesture_witness :
    ∃ shape : Shape ℝ, shape.type = "polyline"
      ∧ shape.vertices.length = 3 + 2
      ∧ runEvents realMath
          (doubleClickGesture "shape_4" "shape_4" "shape_5" "shape_5" "shape_6"
            (demoEvent 700 0) demoCanvas) demoPolylineState
        = some { (demoPolylineState : AppState ℝ) with
            shapes := [shape]
            selectedIds := ["shape_6"]
            drawingPoints := []
            tempShape := none } := by
  obtain ⟨_, shape, ht, _, hl, hrun⟩ := double_click_gesture realMath "shape_4" "shape_4"
    "shape_5" "shape_5" "shape_6" (demoEvent 700 0) demoCanvas
    (demoPolylineState : AppState ℝ) (Or.inl rfl) rfl
  exact ⟨shape, ht, hl, hrun⟩

end GestureExamples

end DrawGL
